import Mathlib

/-!
# Mycenae: telnet fleet manager and query planner

A shallow embedding of

* `lib/telnetmgr/manager.go` : the balancing decision of
  `Manager.startConnectionBalancer`,
* `lib/plot/rest_tsdb.go`    : `parseQuery`, `getMetric`, `getTags` and
  `getTimeseries`,

followed by theorems about these definitions.

Conventions of the embedding.

* A Go `string` is a list of Unicode characters (`GoString`): the text is
  assumed to be valid UTF-8. Byte lengths are computed with `byteLen`; a
  comparison of bytes against an ASCII literal is a comparison of
  characters, because an ASCII byte never occurs inside a multi-byte
  encoding.
* `uint32` values are natural numbers, their arithmetic is reduced modulo
  `2 ^ 32`; `int` and `int64` values are integers (64-bit platform).
* The `float64` operations of the balancer (conversion of an integer,
  division, ceiling) are computed exactly as IEEE-754 prescribes: round to
  nearest, ties to even, 53 significant bits.
* A Go `map` that is only ranged over is an association list, the list order
  being the order in which the `range` statement visits the entries.
* Run-time panics (slice or index out of range) are explicit outcomes.
* The metadata index, the storage and the other collaborators of
  `getTimeseries` are parameters (`Collaborators`); every call to the index
  and to the storage is recorded with its arguments.
* Logging and statistics calls are omitted.
-/

/-! ## Go standard library -/

/-- A Go string: valid UTF-8 text, as its sequence of code points. -/
abbrev GoString := List Char

/-- The expression `len(s)`: the number of bytes of the UTF-8 encoding. -/
def byteLen (s : GoString) : Nat :=
  (s.map Char.utf8Size).sum

/-- The function `unicode.IsSpace`. -/
def isSpace (r : Char) : Bool :=
  let n := r.toNat
  (9 ≤ n && n ≤ 13) || n == 0x20 || n == 0x85 || n == 0xA0 || n == 0x1680 ||
    (0x2000 ≤ n && n ≤ 0x200a) || n == 0x2028 || n == 0x2029 || n == 0x202f ||
    n == 0x205f || n == 0x3000

/-- The function `strings.TrimSpace`: strips leading and trailing white space. -/
def trimSpace (s : GoString) : GoString :=
  (s.dropWhile isSpace).rdropWhile isSpace

/-- The function `strings.Split(s, sep)` for a one-character separator. -/
def split (s : GoString) (sep : Char) : List GoString :=
  match s with
  | [] => [[]]
  | c :: cs =>
    if c = sep then [] :: split cs sep
    else
      match split cs sep with
      | [] => [[c]]
      | x :: xs => (c :: x) :: xs

/-- The two error values of `strconv`: `ErrSyntax` and `ErrRange`. -/
inductive NumError where
  | invalid
  | range
  deriving DecidableEq, Repr

/-- The digit loop of `strconv.ParseUint(s, 10, 64)`: any byte that is not a
decimal digit is a malformed-input error with value 0; an overflow of 64 bits
stops the loop at once with the maximal value and a range error. -/
def parseUintLoop : List Char → Nat → Nat × Option NumError
  | [], n => (n, none)
  | c :: cs, n =>
    if '0' ≤ c ∧ c ≤ '9' then
      if n ≥ 1844674407370955162 then (2 ^ 64 - 1, some NumError.range)
      else
        let n1 := n * 10 + (c.toNat - '0'.toNat)
        if n1 > 2 ^ 64 - 1 then (2 ^ 64 - 1, some NumError.range)
        else parseUintLoop cs n1
    else (0, some NumError.invalid)

/-- The function `strconv.ParseUint(s, 10, 64)`. -/
def parseUint (s : GoString) : Nat × Option NumError :=
  if s = [] then (0, some NumError.invalid) else parseUintLoop s 0

/-- The sign handling and clamping of `strconv.ParseInt(s, 10, 64)`. -/
def parseIntSigned (neg : Bool) (s : GoString) : Int × Option NumError :=
  match parseUint s with
  | (_, some NumError.invalid) => (0, some NumError.invalid)
  | (un, _) =>
    if !neg ∧ un ≥ 2 ^ 63 then (2 ^ 63 - 1, some NumError.range)
    else if neg ∧ un > 2 ^ 63 then (-(2 ^ 63), some NumError.range)
    else if neg then (-(un : Int), none)
    else ((un : Int), none)

/-- The function `strconv.Atoi` on a 64-bit platform: value and error. -/
def atoi (s : GoString) : Int × Option NumError :=
  match s with
  | [] => (0, some NumError.invalid)
  | c :: cs =>
    if c = '+' then parseIntSigned false cs
    else if c = '-' then parseIntSigned true cs
    else parseIntSigned false (c :: cs)

/-- The function `strconv.FormatInt(k, 10)`. -/
def formatInt (k : Int) : GoString :=
  if k < 0 then '-' :: Nat.toDigits 10 k.natAbs else Nat.toDigits 10 k.toNat

/-- A `float64` value, by its IEEE-754 bit pattern; the code only moves such
values around. -/
structure Float64 where
  bits : Nat
  deriving DecidableEq, Repr

/-! ### `float64` arithmetic on integers -/

/-- The position of the leading bit, by halving at most `fuel` times. -/
def log2Fuel : Nat → Nat → Nat
  | 0, _ => 0
  | fuel + 1, n => if 2 ≤ n then log2Fuel fuel (n / 2) + 1 else 0

/-- The position of the leading bit of `n > 0`:
`2 ^ floorLog2 n ≤ n < 2 ^ (floorLog2 n + 1)`. -/
def floorLog2 (n : Nat) : Nat :=
  log2Fuel n n

/-- The conversion `float64(n)` of a non-negative integer: `n` rounded to 53
significant bits, ties to even; exact below `2 ^ 53`. -/
def toFloat64 (n : Nat) : Nat :=
  if n < 2 ^ 53 then n
  else
    let s := floorLog2 n - 52
    let m := n / 2 ^ s
    let r := n % 2 ^ s
    let m1 := if 2 * r < 2 ^ s then m else if 2 * r > 2 ^ s then m + 1
      else if m % 2 = 0 then m else m + 1
    m1 * 2 ^ s

/-- The binary scale of the `float64` quotient `a / b` for `0 < a < 2 ^ 53`
and `0 < b`: the `k` with `2 ^ 52 ≤ a * 2 ^ k / b < 2 ^ 53`. -/
def quotScale (a b : Nat) : Nat :=
  let k0 := 52 + floorLog2 b - floorLog2 a
  if a * 2 ^ k0 ≥ 2 ^ 52 * b then k0 else k0 + 1

/-- The `float64` quotient `a / b` of two integral `float64` values with
`a < 2 ^ 53` and `0 < b`: the exact quotient rounded to 53 significant bits,
ties to even. The result `(m, k)` stands for the number `m / 2 ^ k`. -/
def divFloat64 (a b : Nat) : Nat × Nat :=
  if a = 0 then (0, 0)
  else
    let k := quotScale a b
    let m := a * 2 ^ k / b
    let r := a * 2 ^ k % b
    let m1 := if 2 * r < b then m else if 2 * r > b then m + 1
      else if m % 2 = 0 then m else m + 1
    (m1, k)

/-- The function `math.Ceil` on the number `m / 2 ^ k`. -/
def ceilFloat64 (x : Nat × Nat) : Nat :=
  (x.1 + 2 ^ x.2 - 1) / 2 ^ x.2

/-! ## Errors (`gobol.Error`) -/

/-- The error kinds of the service. -/
inductive ErrorKind where
  | validation
  | notFound
  | init
  | external
  | internal
  deriving DecidableEq, Repr

/-- A `gobol.Error` value: its kind, the reporting function and a message. -/
structure GobolError where
  kind : ErrorKind
  func : String
  message : String
  deriving DecidableEq, Repr

/-- Modelled from the spec: the constructor `errValidationS` is not part of the
sources at hand; it builds a *validation* error (status 400) from a message. -/
def errValidationS (f : String) (msg : String) : GobolError :=
  { kind := ErrorKind.validation, func := f, message := msg }

/-- Modelled from the spec: the constructor `errValidationE` is not part of the
sources at hand; it builds a *validation* error (status 400) from an
underlying error, here from its text. -/
def errValidationE (f : String) (cause : String) : GobolError :=
  { kind := ErrorKind.validation, func := f, message := cause }

/-- The text of a `strconv` error. -/
def NumError.text : NumError → String
  | NumError.invalid => "invalid syntax"
  | NumError.range => "value out of range"

/-! ## `lib/telnetmgr/manager.go` -/

namespace telnetmgr

/-- The loop of `startConnectionBalancer` over the peer results: it stops at
the first peer with more connections than this node (`stopBalancing`), and
otherwise accumulates the `uint32` sum. -/
def sumPeers (curConns : Nat) : List Nat → Nat → Nat × Bool
  | [], sum => (sum, false)
  | r :: rs, sum =>
    if curConns < r then (sum, true)
    else sumPeers curConns rs ((sum + r) % 2 ^ 32)

/-- The expression `uint32(math.Ceil(float64(sum) / float64(numOtherNodes)))`:
both conversions, the `float64` division and the ceiling. The ceiling is an
integer between 0 and `sum`, so that its conversion to `uint32` is exact. -/
def ceilAverage (sum numOtherNodes : Nat) : Nat :=
  ceilFloat64 (divFloat64 sum (toFloat64 numOtherNodes)) % 2 ^ 32

/-- One tick of `startConnectionBalancer` once the timer has fired and the
`terminate` flag was found unset: `some excess` when `dropConnections(excess)`
is invoked, `none` when the tick ends without a shed. `results` are the peer
counts (0 for a failed peer), one per entry of `otherNodes`, and `curConns`
is the local counter. -/
def balanceDecision (results : List Nat) (curConns maxUnbalanced : Nat) : Option Nat :=
  if results.length = 0 then none
  else
    match sumPeers curConns results 0 with
    | (_, true) => none
    | (sum, false) =>
      let average := ceilAverage sum results.length
      let diff := (curConns + 2 ^ 32 - average) % 2 ^ 32
      if curConns > average ∧ diff ≥ maxUnbalanced then
        let excess := (diff + 2 ^ 32 - maxUnbalanced) % 2 ^ 32
        if excess > 0 then some excess else none
      else none

end telnetmgr

/-! ## `lib/plot/rest_tsdb.go`: the filter parser -/

namespace plot

/-- A parsed tag of a lookup query. -/
structure Tag where
  Key : GoString
  Value : GoString
  deriving DecidableEq, Repr

/-- The loop of `getMetric`: `mr` holds the characters read so far. -/
def getMetricLoop : List Char → GoString → GoString × GoString
  | [], mr => (trimSpace mr, [])
  | r :: rest, mr =>
    if r = '{' then (trimSpace mr, r :: rest)
    else getMetricLoop rest (mr ++ [r])

/-- The function `getMetric`: the trimmed text before the first `{`, and the
rest of the query from that `{` on. -/
def getMetric (query : GoString) : GoString × GoString :=
  getMetricLoop query []

/-- The loop of `getTags` over the text after the opening brace. -/
def getTagsLoop : List Char → GoString → GoString → List Tag → List Tag × Option GobolError
  | [], _, _, tags => (tags, none)
  | r :: rest, key, mr, tags =>
    if r = '=' then getTagsLoop rest (trimSpace mr) [] tags
    else if r = ',' ∨ r = '}' then
      if key = [] then ([], some (errValidationS "getTags" "invalid tag format"))
      else getTagsLoop rest key [] (tags ++ [{ Key := key, Value := trimSpace mr }])
    else getTagsLoop rest key (mr ++ [r]) tags

/-- The function `getTags`. -/
def getTags (query : GoString) : List Tag × Option GobolError :=
  if query.length = 0 then ([], none)
  else if query.head? ≠ some '{' ∨ query.getLast? ≠ some '}' then
    ([], some (errValidationS "getTags" "Missing \x27\x7d\x27 at the end of query"))
  else getTagsLoop (query.drop 1) [] [] []

/-- The function `parseQuery`. -/
def parseQuery (query : GoString) : GoString × List Tag × Option GobolError :=
  let ms := getMetric query
  let tg := getTags ms.2
  (ms.1, tg.1, tg.2)


/-- The texts `ps` separated by commas. -/
def commaJoin : List GoString → GoString
  | [] => []
  | [p] => p
  | p :: q :: rest => p ++ ',' :: commaJoin (q :: rest)

/-- A piece of a tag block: text without `=`, `,` and `}`. -/
def isPiece (s : GoString) : Bool :=
  s.all (fun c => c != '=' && c != ',' && c != '}')

/-- A token of a well-formed query: no `{`, `}`, `,`, `=`, and no white space
at either end. -/
def isToken (s : GoString) : Bool :=
  s.all (fun c => c != '{' && c != '}' && c != ',' && c != '=') && trimSpace s == s

/-- A key-value pair of a query text together with the white space written
around the key and around the value. -/
structure PaddedTag where
  key : GoString
  value : GoString
  keyPre : GoString
  keyPost : GoString
  valuePre : GoString
  valuePost : GoString
  deriving DecidableEq, Repr

/-- The text `key=value` with its white space. -/
def PaddedTag.text (p : PaddedTag) : GoString :=
  p.keyPre ++ p.key ++ p.keyPost ++ '=' :: (p.valuePre ++ p.value ++ p.valuePost)

/-- The white space of a padded pair is white space, the key is a non-empty
token and the value a token. -/
def PaddedTag.wellFormed (p : PaddedTag) : Bool :=
  isToken p.key && isToken p.value && p.key != [] &&
    p.keyPre.all isSpace && p.keyPost.all isSpace &&
    p.valuePre.all isSpace && p.valuePost.all isSpace

/-- The query text `m{k_1=v_1,...,k_n=v_n}` with white space around the
metric and around every key and value. -/
def queryText (mPre m mPost : GoString) (ps : List PaddedTag) : GoString :=
  mPre ++ m ++ mPost ++ '{' :: (commaJoin (ps.map PaddedTag.text) ++ ['}'])

/-- A pair with several `=`: the pieces before the next-to-last `=` (each is
followed by an `=` in the text), then the piece before the last `=` and the
piece after it. -/
structure MultiEqPair where
  leading : List GoString
  beforeLast : GoString
  afterLast : GoString
  deriving DecidableEq, Repr

/-- The text of a pair with several `=`. -/
def MultiEqPair.text (p : MultiEqPair) : GoString :=
  (p.leading.map (fun s => s ++ ['='])).flatten ++ p.beforeLast ++ '=' :: p.afterLast

/-- Every piece of the pair is free of `=`, `,`, `}`, and the piece before the
last `=` is not blank. -/
def MultiEqPair.wellFormed (p : MultiEqPair) : Bool :=
  p.leading.all isPiece && isPiece p.beforeLast && isPiece p.afterLast &&
    trimSpace p.beforeLast != []

/-- The tag the scanner builds from a pair with several `=`. -/
def MultiEqPair.tag (p : MultiEqPair) : Tag :=
  { Key := trimSpace p.beforeLast, Value := trimSpace p.afterLast }

end plot

/-! ## `lib/plot/rest_tsdb.go`: `getTimeseries` -/

namespace plot

/-- Modelled from the spec: the type `structs.TSDBfilter` is not part of the
sources at hand; a filter is `{type, tag_key, pattern, group_by}`. -/
structure TSDBfilter where
  Ftype : GoString
  Tagk : GoString
  Filter : GoString
  GroupBy : Bool
  deriving DecidableEq, Repr

/-- Modelled from the spec: the type `structs.TSDBrateOptions` is not part of
the sources at hand; rate options are `{counter, counter_max, reset_value}`,
`counter_max` being a pointer that may be nil. -/
structure TSDBrateOptions where
  Counter : Bool
  CounterMax : Option Int
  ResetValue : Int
  deriving DecidableEq, Repr

/-- Modelled from the spec: the type `structs.TSDBquery` is not part of the
sources at hand; the fields are those `getTimeseries` reads. `Tags` is the
legacy tag map, in the order its `range` loop visits it. -/
structure TSDBquery where
  Aggregator : GoString
  Downsample : GoString
  Metric : GoString
  Tags : List (GoString × GoString)
  Rate : Bool
  RateOptions : TSDBrateOptions
  Order : List GoString
  FilterValue : GoString
  Filters : List TSDBfilter
  deriving DecidableEq, Repr

/-- Modelled from the spec: the type `structs.TSDBqueryPayload` is not part of
the sources at hand; the fields are those `getTimeseries` reads. -/
structure TSDBqueryPayload where
  Relative : GoString
  Start : Int
  End : Int
  Queries : List TSDBquery
  MsResolution : Bool
  ShowTSUIDs : Bool
  deriving DecidableEq, Repr

/-- Modelled from the spec: the type `structs.DSoptions` is not part of the
sources at hand; the fields are those `getTimeseries` writes. -/
structure DSoptions where
  Downsample : GoString
  Unit : GoString
  Value : Int
  Fill : GoString
  deriving DecidableEq, Repr

/-- Modelled from the spec: the type `structs.Downsample` is not part of the
sources at hand. Its zero value is disabled with empty options. -/
structure Downsample where
  Enabled : Bool
  Options : DSoptions
  deriving DecidableEq, Repr

/-- The zero value `structs.Downsample{}`. -/
def Downsample.zero : Downsample :=
  { Enabled := false, Options := { Downsample := [], Unit := [], Value := 0, Fill := [] } }

/-- Modelled from the spec: the type `structs.FilterValueOperation` is not part
of the sources at hand. -/
structure FilterValueOperation where
  Enabled : Bool
  BoolOper : GoString
  Value : Float64
  deriving DecidableEq, Repr

/-- Modelled from the spec: the type `structs.RateOperation` is not part of the
sources at hand. -/
structure RateOperation where
  Enabled : Bool
  Options : TSDBrateOptions
  deriving DecidableEq, Repr

/-- Modelled from the spec: the type `structs.DataOperations` is not part of
the sources at hand; it bundles downsample, merge, rate, filter-value and
order. -/
structure DataOperations where
  Downsample : Downsample
  Merge : GoString
  Rate : RateOperation
  FilterValue : FilterValueOperation
  Order : List GoString
  deriving DecidableEq, Repr

/-- Modelled from the spec: the timeseries descriptor returned by the metadata
index, `{tsuid, tags}`; `Tags` is in the order its `range` loop visits it. -/
structure TSDesc where
  Tsuid : GoString
  Tags : List (GoString × GoString)
  deriving DecidableEq, Repr

/-- Modelled from the spec: a point of a series result, `{date_ms, value,
empty}`. -/
structure Pnt where
  Date : Int
  Value : Float64
  Empty : Bool
  deriving DecidableEq, Repr

/-- Modelled from the spec: the series result of the storage layer, `{data,
total, count}`. -/
structure Serie where
  Data : List Pnt
  Total : Int
  Count : Int
  deriving DecidableEq, Repr

/-- A value stored in the `dps` map (`interface{}`): `nil`, a string or a
number. -/
inductive DpsValue where
  | null
  | str (s : GoString)
  | num (v : Float64)
  deriving DecidableEq, Repr

/-- Modelled from the spec: the type `TSDBresponse` is not part of the sources
at hand; the fields are those `getTimeseries` writes. The maps `Tags` and
`Dps` are association lists with distinct keys. -/
structure TSDBresponse where
  Metric : GoString
  Tags : List (GoString × GoString)
  AggregatedTags : List GoString
  Dps : List (GoString × DpsValue)
  Tsuids : List GoString
  deriving DecidableEq, Repr

/-- The fields of `Plot` that `getTimeseries` reads. -/
structure Plot where
  MaxTimeseries : Int
  LogQueryThreshold : Int
  defaultTTL : Int
  deriving DecidableEq, Repr

/-- A call to an external collaborator, with its arguments: the metadata index
(`MetaFilterOpenTSDB`) or the storage (`GetTimeSeries`). -/
inductive Call where
  | index (keyset metric : GoString) (filters : List TSDBfilter) (maxTS : Int)
  | storage (ttl : Int) (ids : List GoString) (start stop : Int) (opers : DataOperations)
      (msResolution keepEmpty : Bool)
  deriving DecidableEq, Repr

/-- The collaborators of `getTimeseries` that are not part of the sources at
hand, as parameters. `σ` is the state of the outside world (index and
storage); a call may read and change it. Times are in milliseconds. -/
structure Collaborators (σ : Type) where
  /-- The function `parser.GetRelativeStart(now, relative)`. -/
  GetRelativeStart : Int → GoString → Except GobolError Int
  /-- The method `plot.MetaFilterOpenTSDB(keyset, metric, filters, size)`. -/
  MetaFilterOpenTSDB : σ → GoString → GoString → List TSDBfilter → Int →
    Except GobolError (List TSDesc × Int) × σ
  /-- The method `plot.checkTotalTSLimits(message, keyset, metric, total)`. -/
  checkTotalTSLimits : GoString → GoString → Int → Option GobolError
  /-- The method `plot.GetGroups(filters, tsobs)`. -/
  GetGroups : List TSDBfilter → List TSDesc → List (List TSDesc)
  /-- The method `plot.GetTimeSeries(ttl, ids, start, end, opers, ms, keepEmpty)`. -/
  GetTimeSeries : σ → Int → List GoString → Int → Int → DataOperations → Bool → Bool →
    Except GobolError Serie × σ
  /-- The function `strconv.ParseFloat(s, 64)`. -/
  ParseFloat : GoString → Except NumError Float64
  /-- The call `sort.Sort(resps)`, with the ordering of `TSDBresponses`. -/
  sortResponses : List TSDBresponse → List TSDBresponse

/-- How a run of `getTimeseries` ends: it returns `(resps, gerr)`, or it
panics. -/
inductive Exit where
  | returned (resps : List TSDBresponse) (gerr : Option GobolError)
  | panicked
  deriving DecidableEq, Repr

/-- The end of a run: the outside world, the calls made, and the exit. -/
structure Final (σ : Type) where
  ext : σ
  calls : List Call
  exit : Exit

/-- The variables that live across the iterations of the loop over the
sub-queries. -/
structure LoopState (σ : Type) where
  ext : σ
  calls : List Call
  resps : List TSDBresponse
  oldDs : Downsample
  sumTotalPoints : Int
  sumCountPoints : Int

/-- Time resolution, the first statement of `getTimeseries`: the payload with
its window set, or the error returned. `now` is `time.Now()` in
milliseconds. -/
def resolveTime {σ : Type} (P : Collaborators σ) (now : Int) (query : TSDBqueryPayload) :
    Except GobolError TSDBqueryPayload :=
  if query.Relative ≠ [] then
    match P.GetRelativeStart now query.Relative with
    | .error gerr => .error gerr
    | .ok start => .ok { query with Start := start, End := now }
  else
    if query.Start = 0 then
      .error (errValidationS "getTimeseries" "start cannot be zero")
    else
      let query := if query.End = 0 then { query with End := now } else query
      if query.End < query.Start then
        .error (errValidationS "getTimeseries"
          "end date should be equal or bigger than start date")
      else .ok query

/-- The `switch unit` of the downsample block: the unit name, or the previous
one when no case matches. -/
def unitName (unit old : GoString) : GoString :=
  if unit = "ms".toList then "ms".toList
  else if unit = "s".toList then "sec".toList
  else if unit = "m".toList then "min".toList
  else if unit = "h".toList then "hour".toList
  else if unit = "d".toList then "day".toList
  else if unit = "w".toList then "week".toList
  else if unit = "n".toList then "month".toList
  else if unit = "y".toList then "year".toList
  else old

/-- The body of `if q.Downsample != ""`: `none` is a panic (a slice or an
index out of range). The slices `ds[0][len(ds[0])-2:]` and
`ds[0][len(ds[0])-1:]` are taken by bytes. When the last character of `ds[0]`
is not ASCII, the one-byte unit matches no case of the switch and the numeral
handed to `Atoi` ends inside that character, so `Atoi` reads what it reads on
the whole of `ds[0]`. -/
def parseDownsample (oldDs : Downsample) (spec : GoString) : Option Downsample :=
  match split spec '-' with
  | [] => none
  | d0 :: rest =>
    if byteLen d0 < 2 then none
    else
      let unitVal : GoString × Int :=
        if d0.drop (d0.length - 2) = "ms".toList then
          (d0.drop (d0.length - 2), (atoi (d0.take (d0.length - 2))).1)
        else if byteLen (d0.drop (d0.length - 1)) = 1 then
          (d0.drop (d0.length - 1), (atoi (d0.take (d0.length - 1))).1)
        else
          (d0.drop (d0.length - 1), (atoi d0).1)
      match rest with
      | [] => none
      | fn :: more =>
        let apporx := if fn = "count".toList then "pnt".toList else fn
        some
          { Enabled := true
            Options :=
              { Unit := unitName unitVal.1 oldDs.Options.Unit
                Fill := match more with
                  | [fill] => fill
                  | _ => "none".toList
                Downsample := apporx
                Value := unitVal.2 } }

/-- The downsample block of one iteration: `oldDs` after it, `none` for a
panic. An empty spec leaves `oldDs` as it is. -/
def applyDownsample (oldDs : Downsample) (spec : GoString) : Option Downsample :=
  if spec ≠ [] then parseDownsample oldDs spec else some oldDs

/-- The loop `for k, v := range q.Tags`: every entry of the legacy tag map is
appended to the filters. -/
def lowerTags (filters : List TSDBfilter) : List (GoString × GoString) → List TSDBfilter
  | [] => filters
  | (k, v) :: rest =>
    let members := split v '|'
    let filter : TSDBfilter :=
      if members.head? = some "*".toList ∨ members.length > 1 then
        { Ftype := "wildcard".toList, Tagk := k, Filter := v, GroupBy := true }
      else
        { Ftype := "wildcard".toList, Tagk := k, Filter := v, GroupBy := false }
    lowerTags (filters ++ [filter]) rest

/-- The statement `tagMap[k] = append(tagMap[k], v)` for a key already there. -/
def tagMapAppend (tagMap : List (GoString × List GoString)) (k v : GoString) :
    List (GoString × List GoString) :=
  tagMap.map (fun e => if e.1 = k then (e.1, e.2 ++ [v]) else e)

/-- The loop `for i, filter := range q.Filters`: the ttl and the index of the
ttl filter (`-1` when there is none), or the error returned. -/
def scanFilters : List TSDBfilter → Int → List (GoString × List GoString) → Int → Int →
    Except GobolError (Int × Int)
  | [], _, _, ttl, ttlIndex => .ok (ttl, ttlIndex)
  | filter :: rest, i, tagMap, ttl, ttlIndex =>
    if tagMap.any (fun e => e.1 = filter.Tagk) then
      scanFilters rest (i + 1) (tagMapAppend tagMap filter.Tagk filter.Filter) ttl ttlIndex
    else if filter.Tagk = "ttl".toList then
      match atoi filter.Filter with
      | (_, some err) => .error (errValidationE "getTimeseries" err.text)
      | (v, none) =>
        scanFilters rest (i + 1) (tagMap ++ [(filter.Tagk, [filter.Filter])]) v i
    else
      scanFilters rest (i + 1) (tagMap ++ [(filter.Tagk, [filter.Filter])]) ttl ttlIndex

/-- The ttl extraction of one iteration: the ttl to use and the filters after
`append(q.Filters[:ttlIndex], q.Filters[ttlIndex+1:]...)`, or the error. -/
def extractTTL (defaultTTL : Int) (filters : List TSDBfilter) :
    Except GobolError (Int × List TSDBfilter) :=
  match scanFilters filters 0 [] defaultTTL (-1) with
  | .error gerr => .error gerr
  | .ok (ttl, ttlIndex) =>
    if ttlIndex ≥ 0 then
      .ok (ttl, filters.take ttlIndex.toNat ++ filters.drop (ttlIndex.toNat + 1))
    else .ok (ttl, filters)

/-- The statement `tagK[k][v] = ""`, creating `tagK[k]` when needed. The inner
map is the list of its keys. -/
def tagKInsert (tagK : List (GoString × List GoString)) (k v : GoString) :
    List (GoString × List GoString) :=
  if tagK.any (fun e => e.1 = k) then
    tagK.map (fun e => if e.1 = k then (e.1, if v ∈ e.2 then e.2 else e.2 ++ [v]) else e)
  else tagK ++ [(k, [v])]

/-- The loop `for _, tsd := range group`: the ids and the map `tagK`. -/
def collectGroup : List TSDesc → List GoString → List (GoString × List GoString) →
    List GoString × List (GoString × List GoString)
  | [], ids, tagK => (ids, tagK)
  | tsd :: rest, ids, tagK =>
    collectGroup rest (ids ++ [tsd.Tsuid])
      (tsd.Tags.foldl (fun acc kv => tagKInsert acc kv.1 kv.2) tagK)

/-- The outcome of the filter-value block. -/
inductive FilterValueOutcome where
  | ok (filterV : FilterValueOperation)
  | failed (gerr : GobolError)
  | panicked
  deriving DecidableEq, Repr

/-- The block `if q.FilterValue != ""`. The slice `q.FilterValue[:2]` is taken
by bytes and panics on a one-byte string. -/
def parseFilterValue (parseFloat : GoString → Except NumError Float64) (fv : GoString) :
    FilterValueOutcome :=
  if fv ≠ [] then
    if byteLen fv < 2 then .panicked
    else if fv.take 2 = ">=".toList ∨ fv.take 2 = "<=".toList ∨ fv.take 2 = "==".toList then
      match parseFloat (fv.drop 2) with
      | .error err => .failed (errValidationE "getTimeseries" err.text)
      | .ok val => .ok { Enabled := true, BoolOper := fv.take 2, Value := val }
    else if fv.take 1 = ">".toList ∨ fv.take 1 = "<".toList then
      match parseFloat (fv.drop 1) with
      | .error err => .failed (errValidationE "getTimeseries" err.text)
      | .ok val => .ok { Enabled := true, BoolOper := fv.take 1, Value := val }
    else .ok { Enabled := true, BoolOper := [], Value := ⟨0⟩ }
  else .ok { Enabled := false, BoolOper := [], Value := ⟨0⟩ }

/-- The call `sort.Strings`: the order of strings is the order of their bytes,
which on UTF-8 text is the lexicographic order of the code points. -/
def sortStrings (l : List GoString) : List GoString :=
  l.insertionSort (fun a b => a ≤ b)

/-- The assignment `points[ksrt] = v` on the map `points`. -/
def pointsSet (points : List (GoString × DpsValue)) (k : GoString) (v : DpsValue) :
    List (GoString × DpsValue) :=
  if points.any (fun e => e.1 = k) then points.map (fun e => if e.1 = k then (k, v) else e)
  else points ++ [(k, v)]

/-- The loop `for _, point := range serie.Data`. -/
def buildPoints (msResolution : Bool) (fill : GoString) :
    List Pnt → List (GoString × DpsValue) → List (GoString × DpsValue)
  | [], points => points
  | point :: rest, points =>
    let k := if !msResolution then Int.tdiv point.Date 1000 else point.Date
    let ksrt := formatInt k
    let v : DpsValue :=
      if point.Empty then
        if fill = "null".toList then DpsValue.null
        else if fill = "nan".toList then DpsValue.str "NaN".toList
        else DpsValue.num point.Value
      else DpsValue.num point.Value
    buildPoints msResolution fill rest (pointsSet points ksrt v)

/-- One iteration of the loop `for _, group := range groups`: the loop state
after it, or the end of the run. `oldDs` is read from the loop state. -/
def runGroup {σ : Type} (P : Collaborators σ) (query : TSDBqueryPayload) (q : TSDBquery)
    (ttl : Int) (st : LoopState σ) (group : List TSDesc) :
    Except (Final σ) (LoopState σ) :=
  let idsTagK := collectGroup group [] []
  let ids := idsTagK.1
  let tagK := idsTagK.2
  let rateOptions : TSDBrateOptions :=
    match q.RateOptions.CounterMax with
    | none => { q.RateOptions with CounterMax := some (2 ^ 63 - 1) }
    | some _ => q.RateOptions
  match parseFilterValue P.ParseFloat q.FilterValue with
  | .panicked => .error { ext := st.ext, calls := st.calls, exit := Exit.panicked }
  | .failed gerr =>
    .error { ext := st.ext, calls := st.calls, exit := Exit.returned st.resps (some gerr) }
  | .ok filterV =>
    let merge := if q.Aggregator = "count".toList then "pnt".toList else q.Aggregator
    let opers : DataOperations :=
      { Downsample := st.oldDs
        Merge := merge
        Rate := { Enabled := q.Rate, Options := rateOptions }
        FilterValue := filterV
        Order := q.Order }
    let keepEmpty : Bool := if st.oldDs.Options.Fill ≠ "none".toList then true else false
    let fetched := P.GetTimeSeries st.ext ttl ids query.Start query.End opers
      query.MsResolution keepEmpty
    let calls := st.calls ++
      [Call.storage ttl ids query.Start query.End opers query.MsResolution keepEmpty]
    match fetched.1 with
    | .error gerr =>
      .error { ext := fetched.2, calls := calls, exit := Exit.returned st.resps (some gerr) }
    | .ok serie =>
      let aggTags := sortStrings ((tagK.filter (fun e => e.2.length > 1)).map (fun e => e.1))
      let points := buildPoints query.MsResolution st.oldDs.Options.Fill serie.Data []
      let resps :=
        if points.length > 0 then
          let tagsU := (tagK.filter (fun e => e.2.length = 1)).map
            (fun e => (e.1, e.2.headD []))
          st.resps ++
            [{ Metric := q.Metric, Tags := tagsU, AggregatedTags := aggTags, Dps := points,
               Tsuids := if query.ShowTSUIDs then ids else [] }]
        else st.resps
      .ok { ext := fetched.2, calls := calls, resps := resps, oldDs := st.oldDs,
            sumTotalPoints := st.sumTotalPoints + serie.Total,
            sumCountPoints := st.sumCountPoints + serie.Count }

/-- The loop `for _, group := range groups`. -/
def runGroups {σ : Type} (P : Collaborators σ) (query : TSDBqueryPayload) (q : TSDBquery)
    (ttl : Int) : LoopState σ → List (List TSDesc) → Except (Final σ) (LoopState σ)
  | st, [] => .ok st
  | st, group :: rest =>
    match runGroup P query q ttl st group with
    | .error fin => .error fin
    | .ok st1 => runGroups P query q ttl st1 rest

/-- The part of one iteration after the ttl extraction: the cardinality probe,
the grouping and the fetch of every group, with the `ttl` and the `filters`
left by the extraction. -/
def dispatchQuery {σ : Type} (P : Collaborators σ) (plot : Plot) (keyset : GoString)
    (query : TSDBqueryPayload) (q : TSDBquery) (ttl : Int) (filters : List TSDBfilter)
    (st : LoopState σ) : Except (Final σ) (LoopState σ) :=
  let found := P.MetaFilterOpenTSDB st.ext keyset q.Metric filters plot.MaxTimeseries
  let calls := st.calls ++ [Call.index keyset q.Metric filters plot.MaxTimeseries]
  match found.1 with
  | .error gerr =>
    .error { ext := found.2, calls := calls, exit := Exit.returned st.resps (some gerr) }
  | .ok (tsobs, total) =>
    match P.checkTotalTSLimits keyset q.Metric total with
    | some gerr => .error { ext := found.2, calls := calls, exit := Exit.returned [] (some gerr) }
    | none =>
      let st1 : LoopState σ := { st with ext := found.2, calls := calls }
      if tsobs.length = 0 then .ok st1
      else runGroups P query q ttl st1 (P.GetGroups filters tsobs)

/-- One iteration of the loop `for _, q := range query.Queries`. -/
def runQuery {σ : Type} (P : Collaborators σ) (plot : Plot) (keyset : GoString)
    (query : TSDBqueryPayload) (st : LoopState σ) (q : TSDBquery) :
    Except (Final σ) (LoopState σ) :=
  match applyDownsample st.oldDs q.Downsample with
  | none => .error { ext := st.ext, calls := st.calls, exit := Exit.panicked }
  | some oldDs =>
    match extractTTL plot.defaultTTL (lowerTags q.Filters q.Tags) with
    | .error gerr =>
      .error { ext := st.ext, calls := st.calls, exit := Exit.returned st.resps (some gerr) }
    | .ok (ttl, filters) =>
      dispatchQuery P plot keyset query q ttl filters { st with oldDs := oldDs }

/-- The loop `for _, q := range query.Queries`. -/
def runQueries {σ : Type} (P : Collaborators σ) (plot : Plot) (keyset : GoString)
    (query : TSDBqueryPayload) : LoopState σ → List TSDBquery → Except (Final σ) (LoopState σ)
  | st, [] => .ok st
  | st, q :: rest =>
    match runQuery P plot keyset query st q with
    | .error fin => .error fin
    | .ok st1 => runQueries P plot keyset query st1 rest

/-- The method `getTimeseries`. `now` is the clock in milliseconds, `ext` the
outside world at the call. -/
def getTimeseries {σ : Type} (P : Collaborators σ) (plot : Plot) (now : Int)
    (keyset : GoString) (query : TSDBqueryPayload) (ext : σ) : Final σ :=
  match resolveTime P now query with
  | .error gerr => { ext := ext, calls := [], exit := Exit.returned [] (some gerr) }
  | .ok query =>
    let st0 : LoopState σ :=
      { ext := ext, calls := [], resps := [], oldDs := Downsample.zero,
        sumTotalPoints := 0, sumCountPoints := 0 }
    match runQueries P plot keyset query st0 query.Queries with
    | .error fin => fin
    | .ok st =>
      { ext := st.ext, calls := st.calls,
        exit := Exit.returned (P.sortResponses st.resps) none }


/-- The calls made up to the end of an iteration, whether the run goes on or
ends there. -/
def callsOf {σ : Type} : Except (Final σ) (LoopState σ) → List Call
  | .error fin => fin.calls
  | .ok st => st.calls

/-- The call is a storage fetch over the window `[start, stop]`; a call to the
metadata index has no window. -/
def Call.hasWindow (start stop : Int) : Call → Prop
  | Call.index _ _ _ _ => True
  | Call.storage _ _ s e _ _ _ => s = start ∧ e = stop

/-- The call is a storage fetch with this ttl, window, resolution, downsample
operation and `keepEmpty` flag. -/
def Call.isFetch (ttl start stop : Int) (ms : Bool) (ds : Downsample) (keepEmpty : Bool) :
    Call → Prop
  | Call.index _ _ _ _ => False
  | Call.storage t _ s e opers m k =>
    t = ttl ∧ s = start ∧ e = stop ∧ m = ms ∧ opers.Downsample = ds ∧ k = keepEmpty

/-- The value of a decimal numeral. -/
def decimalValue (s : GoString) : Nat :=
  s.foldl (fun n c => n * 10 + (c.toNat - '0'.toNat)) 0

/-- A decimal numeral: a non-empty string of the digits `0` to `9`. -/
def isNumeral (s : GoString) : Bool :=
  s != [] && s.all (fun c => decide ('0' ≤ c ∧ c ≤ '9'))

/-- The unit names of a downsample spec: suffix and name. -/
def unitTable : List (GoString × GoString) :=
  [("ms".toList, "ms".toList), ("s".toList, "sec".toList), ("m".toList, "min".toList),
   ("h".toList, "hour".toList), ("d".toList, "day".toList), ("w".toList, "week".toList),
   ("n".toList, "month".toList), ("y".toList, "year".toList)]

/-- The text of a downsample spec `<N><unit>-<fn>` or `<N><unit>-<fn>-<fill>`. -/
def downsampleText (num unit fn : GoString) (fill : Option GoString) : GoString :=
  num ++ unit ++ '-' :: fn ++
    (match fill with
     | none => []
     | some f => '-' :: f)

/-- A small outside world for evaluating `getTimeseries`: the index knows one
timeseries `ts1` with tag `host=a` whatever the filters, storage returns one
point, the limits are never exceeded, all descriptors form one group, no
relative expression and no number is accepted, responses are left in
place. -/
def sampleWorld : Collaborators Unit :=
  { GetRelativeStart := fun _ _ => .error (errValidationS "GetRelativeStart" "unsupported")
    MetaFilterOpenTSDB := fun _ _ _ _ _ =>
      (.ok ([{ Tsuid := "ts1".toList, Tags := [("host".toList, "a".toList)] }], 1), ())
    checkTotalTSLimits := fun _ _ _ => none
    GetGroups := fun _ tsobs => [tsobs]
    GetTimeSeries := fun _ _ _ _ _ _ _ _ =>
      (.ok { Data := [{ Date := 1000, Value := ⟨0⟩, Empty := false }], Total := 1, Count := 1 },
        ())
    ParseFloat := fun _ => .error NumError.invalid
    sortResponses := fun l => l }

/-- A plot configuration for evaluating `getTimeseries`. -/
def samplePlot : Plot :=
  { MaxTimeseries := 100, LogQueryThreshold := 50, defaultTTL := 1 }

/-- A sub-query on metric `cpu` with this downsample spec and these filters,
and nothing else. -/
def sampleQuery (downsample : GoString) (filters : List TSDBfilter) : TSDBquery :=
  { Aggregator := "sum".toList, Downsample := downsample, Metric := "cpu".toList, Tags := [],
    Rate := false, RateOptions := { Counter := false, CounterMax := none, ResetValue := 0 },
    Order := [], FilterValue := [], Filters := filters }

/-- A payload with an absolute window and no relative expression. -/
def samplePayload (start stop : Int) (queries : List TSDBquery) : TSDBqueryPayload :=
  { Relative := [], Start := start, End := stop, Queries := queries,
    MsResolution := false, ShowTSUIDs := false }

/-- The loop state at the start of `getTimeseries` in the sample world. -/
def sampleState : LoopState Unit :=
  { ext := (), calls := [], resps := [], oldDs := Downsample.zero,
    sumTotalPoints := 0, sumCountPoints := 0 }

/-- A wildcard filter without group-by. -/
def plainFilter (tagk pattern : String) : TSDBfilter :=
  { Ftype := "wildcard".toList, Tagk := tagk.toList, Filter := pattern.toList, GroupBy := false }

end plot

/-! ## `lib/plot/rest_tsdb.go`: the handler `Query` -/

namespace plot

/-- What a handler writes to the client: `rip.Fail` with an error,
`rip.SuccessJSON` with a list of responses, or nothing when the run panics. -/
inductive Reply where
  | fail (gerr : GobolError)
  | successJSON (resps : List TSDBresponse)
  | panicked
  deriving DecidableEq, Repr

/-- The handler `Query` once the keyset is known and the payload decoded: on an
error of `getTimeseries` only the error is written. An empty result is written
as an empty JSON list. -/
def Query {σ : Type} (P : Collaborators σ) (plot : Plot) (now : Int) (keyset : GoString)
    (query : TSDBqueryPayload) (ext : σ) : Reply :=
  match (getTimeseries P plot now keyset query ext).exit with
  | Exit.panicked => Reply.panicked
  | Exit.returned _ (some gerr) => Reply.fail gerr
  | Exit.returned resps none => if resps.length = 0 then Reply.successJSON [] else
      Reply.successJSON resps

/-- The map `tags` of a response entry, as `getTimeseries` builds it from the
descriptors of a group: the keys of `tagK` with a single value. -/
def groupTags (group : List TSDesc) : List (GoString × GoString) :=
  ((collectGroup group [] []).2.filter (fun e => e.2.length = 1)).map
    (fun e => (e.1, e.2.headD []))

/-- The list `aggregated_tags` of a response entry, as `getTimeseries` builds
it from the descriptors of a group: the sorted keys of `tagK` with several
values. -/
def groupAggTags (group : List TSDesc) : List GoString :=
  sortStrings (((collectGroup group [] []).2.filter (fun e => e.2.length > 1)).map
    (fun e => e.1))

/-- Some descriptor of the group carries the tag key `k` with the value `v`. -/
def carried (group : List TSDesc) (k v : GoString) : Prop :=
  ∃ t ∈ group, (k, v) ∈ t.Tags

/-- The map `tagK` holds the value `v` under the key `k`. -/
def tagKHas (tagK : List (GoString × List GoString)) (k v : GoString) : Prop :=
  ∃ vs, (k, vs) ∈ tagK ∧ v ∈ vs

/-- The list is a map of sets: no key occurs twice, and no value occurs twice
under a key. -/
def tagKWellFormed (tagK : List (GoString × List GoString)) : Prop :=
  (tagK.map Prod.fst).Nodup ∧ ∀ e ∈ tagK, e.2.Nodup

/-- The key of a point in the `dps` map. -/
def pointKey (msResolution : Bool) (point : Pnt) : GoString :=
  formatInt (if !msResolution then Int.tdiv point.Date 1000 else point.Date)

/-- The value of a point in the `dps` map under a fill policy, as the code
emits it: the value of the point when it is not marked empty; for a point
marked empty, `nil` under `null`, the string `NaN` under `nan`, and the raw
value of the point under every other fill. -/
def pointValue (fill : GoString) (point : Pnt) : DpsValue :=
  if point.Empty = true ∧ fill = "null".toList then DpsValue.null
  else if point.Empty = true ∧ fill = "nan".toList then DpsValue.str "NaN".toList
  else DpsValue.num point.Value

/-- An outside world whose storage answers the first fetch and fails on every
later one; the state counts the fetches. The index knows one timeseries. -/
def flakyWorld : Collaborators Nat :=
  { GetRelativeStart := fun _ _ => .error (errValidationS "GetRelativeStart" "unsupported")
    MetaFilterOpenTSDB := fun n _ _ _ _ =>
      (.ok ([{ Tsuid := "ts1".toList, Tags := [("host".toList, "a".toList)] }], 1), n)
    checkTotalTSLimits := fun _ _ _ => none
    GetGroups := fun _ tsobs => [tsobs]
    GetTimeSeries := fun n _ _ _ _ _ _ _ =>
      if n = 0 then
        (.ok { Data := [{ Date := 1000, Value := ⟨0⟩, Empty := false }], Total := 1,
               Count := 1 }, n + 1)
      else
        ({ kind := ErrorKind.external, func := "GetTimeSeries", message := "storage" } |>
          Except.error, n + 1)
    ParseFloat := fun _ => .error NumError.invalid
    sortResponses := fun l => l }

/-- An outside world whose storage returns one point marked empty, with the
raw value 3.5 at date 2000; the rest is as in `sampleWorld`. -/
def emptyPointWorld : Collaborators Unit :=
  { sampleWorld with
    GetTimeSeries := fun _ _ _ _ _ _ _ _ =>
      (.ok { Data := [{ Date := 2000, Value := ⟨0x400C000000000000⟩, Empty := true }],
             Total := 1, Count := 1 }, ()) }

/-- An outside world whose index returns the timeseries `ts1` with tag
`host=a` and `ts2` with tag `dc=x`, in one group; the rest is as in
`sampleWorld`. -/
def mixedTagsWorld : Collaborators Unit :=
  { sampleWorld with
    MetaFilterOpenTSDB := fun _ _ _ _ _ =>
      (.ok ([{ Tsuid := "ts1".toList, Tags := [("host".toList, "a".toList)] },
             { Tsuid := "ts2".toList, Tags := [("dc".toList, "x".toList)] }], 2), ()) }

end plot

/-! ## `lib/plot/rest_exp.go`: `expandStruct` -/

namespace plot

/-- The map index `tags[k]`: the value under `k`, or the empty string. -/
def tagValue (tags : List (GoString × GoString)) (k : GoString) : GoString :=
  match tags.find? (fun e => decide (e.1 = k)) with
  | some e => e.2
  | none => []

/-- The second loop over `tsdb.Filters` for one group, `rep` being
`tsobjs[0]`: the list `filtersPlain` at the end, or `none` when `breakOp` is
set. -/
def synthesize (rep : TSDesc) : List TSDBfilter → List TSDBfilter → Option (List TSDBfilter)
  | [], filtersPlain => some filtersPlain
  | filter :: rest, filtersPlain =>
    if filter.GroupBy then
      let found := filtersPlain.any
        (fun f => decide (filter.Tagk = f.Tagk ∧ tagValue rep.Tags filter.Tagk = f.Filter))
      if !found then
        if tagValue rep.Tags filter.Tagk = [] then none
        else
          synthesize rep rest (filtersPlain ++
            [{ Ftype := "wildcard".toList, Tagk := filter.Tagk,
               Filter := tagValue rep.Tags filter.Tagk, GroupBy := false }])
      else synthesize rep rest filtersPlain
    else synthesize rep rest filtersPlain

/-- The payload built for one group from its list `filtersPlain`. -/
def groupPayload (tsdbq : TSDBqueryPayload) (tsdb : TSDBquery)
    (filtersPlain : List TSDBfilter) : TSDBqueryPayload :=
  { Relative := tsdbq.Relative
    Start := 0
    End := 0
    MsResolution := false
    ShowTSUIDs := false
    Queries :=
      [{ Aggregator := tsdb.Aggregator
         Downsample := tsdb.Downsample
         Metric := tsdb.Metric
         Tags := []
         Rate := tsdb.Rate
         RateOptions := tsdb.RateOptions
         Order := tsdb.Order
         FilterValue := tsdb.FilterValue
         Filters := filtersPlain }] }

/-- How a run of `expandStruct` ends: it returns `(groupQueries, err)`, or it
panics on an index out of range. -/
inductive ExpandExit where
  | returned (groupQueries : List TSDBqueryPayload) (err : Option GobolError)
  | panicked
  deriving DecidableEq, Repr

/-- The loop `for _, tsobjs := range groups` of `expandStruct`. The
representative `tsobjs[0]` is read at the first group-by filter, and there is
one: an empty group is a panic. -/
def expandGroups (tsdbq : TSDBqueryPayload) (tsdb : TSDBquery) :
    List (List TSDesc) → List TSDBqueryPayload → ExpandExit
  | [], groupQueries => ExpandExit.returned groupQueries none
  | tsobjs :: rest, groupQueries =>
    match tsobjs with
    | [] => ExpandExit.panicked
    | rep :: _ =>
      match synthesize rep tsdb.Filters (tsdb.Filters.filter (fun f => !f.GroupBy)) with
      | none => expandGroups tsdbq tsdb rest groupQueries
      | some filtersPlain =>
        expandGroups tsdbq tsdb rest (groupQueries ++ [groupPayload tsdbq tsdb filtersPlain])

/-- The method `expandStruct`, with the outside world after it. -/
def expandStruct {σ : Type} (P : Collaborators σ) (plot : Plot) (keyset : GoString)
    (tsdbq : TSDBqueryPayload) (ext : σ) : ExpandExit × σ :=
  match tsdbq.Queries with
  | [] => (ExpandExit.panicked, ext)
  | tsdb :: _ =>
    let needExpand := tsdb.Filters.any (fun f => f.GroupBy)
    if needExpand then
      let found := P.MetaFilterOpenTSDB ext keyset tsdb.Metric tsdb.Filters plot.MaxTimeseries
      match found.1 with
      | .error gerr => (ExpandExit.returned [] (some gerr), found.2)
      | .ok (tsobs, total) =>
        match P.checkTotalTSLimits keyset tsdb.Metric total with
        | some gerr => (ExpandExit.returned [] (some gerr), found.2)
        | none => (expandGroups tsdbq tsdb (P.GetGroups tsdb.Filters tsobs) [], found.2)
    else (ExpandExit.returned [tsdbq] none, ext)

/-- The filter list of the payload of a group, in the words of the planner:
the non-group-by filters, then for each group-by filter in declaration order
a wildcard filter on the value of the representative, unless the list built
so far already holds a filter with that tag key and that value as pattern. -/
def plannedFilters (rep : TSDesc) (filters : List TSDBfilter) : List TSDBfilter :=
  (filters.filter (fun f => f.GroupBy)).foldl
    (fun acc g =>
      if acc.any (fun f => decide (f.Tagk = g.Tagk ∧ f.Filter = tagValue rep.Tags g.Tagk))
      then acc
      else acc ++ [{ Ftype := "wildcard".toList, Tagk := g.Tagk,
                     Filter := tagValue rep.Tags g.Tagk, GroupBy := false }])
    (filters.filter (fun f => !f.GroupBy))

/-- The group is dropped: some group-by filter has an empty value on the
representative, and no non-group-by filter has that tag key with an empty
pattern. -/
def isDropped (rep : TSDesc) (filters : List TSDBfilter) : Bool :=
  filters.any (fun g => g.GroupBy && decide (tagValue rep.Tags g.Tagk = []) &&
    !filters.any (fun f => !f.GroupBy && decide (f.Tagk = g.Tagk ∧ f.Filter = [])))

/-- A group-by wildcard filter. -/
def groupByFilter (tagk pattern : String) : TSDBfilter :=
  { Ftype := "wildcard".toList, Tagk := tagk.toList, Filter := pattern.toList, GroupBy := true }

/-- An outside world for `expandStruct`: the index returns two timeseries, the
first with tag `host=a` and the second without tags, each in a group of its
own. -/
def expandWorld : Collaborators Unit :=
  { sampleWorld with
    MetaFilterOpenTSDB := fun _ _ _ _ _ =>
      (.ok ([{ Tsuid := "ts1".toList, Tags := [("host".toList, "a".toList)] },
             { Tsuid := "ts2".toList, Tags := [] }], 2), ())
    GetGroups := fun _ tsobs => tsobs.map (fun t => [t]) }

end plot

/-! ## `lib/plot/plot.go`: `New` -/

namespace plot

/-- Modelled from the spec: the constructor `errInit` is not part of the
sources at hand; it builds an *init* error from a message. -/
def errInit (msg : String) : GobolError :=
  { kind := ErrorKind.init, func := "New", message := msg }

/-- The fields of the `Plot` built by `New` that depend on the numeric
configuration; a gate (`concTimeseries`, `concReads`) is a channel, given by
its capacity. -/
structure PlotGates where
  MaxTimeseries : Int
  LogQueryThreshold : Int
  concTimeseries : Nat
  concReads : Nat
  deriving DecidableEq, Repr

/-- The result of `New`: an init error, a plot, or a panic of
`make(chan struct{}, n)` on a negative capacity. -/
inductive NewResult where
  | failed (gerr : GobolError)
  | created (p : PlotGates)
  | panicked
  deriving DecidableEq, Repr

/-- The function `New` on its numeric arguments. -/
def New (maxTimeseries maxConcurrentTimeseries maxConcurrentReads logQueryTSthreshold : Int) :
    NewResult :=
  if maxTimeseries < 1 then
    NewResult.failed (errInit "MaxTimeseries needs to be bigger than zero")
  else if maxConcurrentReads < 1 then
    NewResult.failed (errInit "MaxConcurrentReads needs to be bigger than zero")
  else if logQueryTSthreshold < 1 then
    NewResult.failed (errInit "LogQueryTSthreshold needs to be bigger than zero")
  else if maxConcurrentTimeseries > maxConcurrentReads then
    NewResult.failed
      (errInit "maxConcurrentTimeseries cannot be bigger than maxConcurrentReads")
  else if maxConcurrentTimeseries < 0 then NewResult.panicked
  else
    NewResult.created
      { MaxTimeseries := maxTimeseries
        LogQueryThreshold := logQueryTSthreshold
        concTimeseries := maxConcurrentTimeseries.toNat
        concReads := maxConcurrentReads.toNat }

end plot

/-! ## `lib/telnetmgr/manager.go`: shutdown and shed -/

namespace telnetmgr

/-- Modelled from the spec: the type `telnetsrv.Server` is not part of the
sources at hand; a server has a name, a listening endpoint that is open or
closed, and the flag `deny_new`. -/
structure Server where
  name : GoString
  listening : Bool
  denyNew : Bool
  deriving DecidableEq, Repr

/-- Modelled from the spec: the method `Server.Shutdown` is not part of the
sources at hand; on shutdown the listening socket closes. -/
def Server.Shutdown (s : Server) : Server :=
  { s with listening := false }

/-- Modelled from the spec: the method `Server.DenyNewConnections` is not part
of the sources at hand; it sets the flag `deny_new`. -/
def Server.DenyNewConnections (s : Server) (deny : Bool) : Server :=
  { s with denyNew := deny }

/-- The fields of `Manager` that the shutdown, the balancer and the shed read
or write. -/
structure Manager where
  terminate : Bool
  haltBalancingProcess : Nat
  otherNodes : List GoString
  servers : List Server
  deriving DecidableEq, Repr

/-- The method `Manager.Shutdown`. -/
def Manager.Shutdown (manager : Manager) : Manager :=
  if manager.servers.length > 0 then
    { manager with servers := manager.servers.map Server.Shutdown }
  else manager

/-- The top of a balancer tick: the loop exits when `terminate` is set or when
there is no other node, and polls the peers otherwise. -/
def Manager.tickPolls (manager : Manager) : Bool :=
  if manager.terminate then false
  else if manager.otherNodes.length = 0 then false
  else true

/-- The outcome of `httpClient.Head(url)`: a transport error or a status
code. -/
inductive HeadResult where
  | transportError
  | status (code : Nat)
  deriving DecidableEq, Repr

/-- The method `haltBalancingOnOtherNodes`: the nodes to which the halt request
was sent, in order. `head` is the outcome of the request to a node. -/
def haltBalancingOnOtherNodes (head : GoString → HeadResult) : List GoString → List GoString
  | [] => []
  | node :: rest =>
    match head node with
    | HeadResult.transportError => [node]
    | HeadResult.status _ => node :: haltBalancingOnOtherNodes head rest

/-- What `dropConnections` does, in order: a halt request to a peer, a token
pushed to the close channel, a server told to deny or accept new connections,
the wait for connections to drop, the draining of the close channel. -/
inductive ShedEvent where
  | haltRequest (node : GoString)
  | closeToken
  | denyNew (server : GoString) (deny : Bool)
  | wait
  | drain
  deriving DecidableEq, Repr

/-- The method `dropConnections`: its result, the manager after it and what it
did. The tokens are pushed one after the other; who takes them from the
channel is outside the model. -/
def dropConnections (head : GoString → HeadResult) (manager : Manager) (excess : Nat) :
    Bool × Manager × List ShedEvent :=
  if manager.haltBalancingProcess > 0 then (false, manager, [])
  else
    let denied := manager.servers.map (fun s => s.DenyNewConnections true)
    let accepting := denied.map (fun s => s.DenyNewConnections false)
    (true, { manager with servers := accepting },
      (haltBalancingOnOtherNodes head manager.otherNodes).map ShedEvent.haltRequest ++
        List.replicate excess ShedEvent.closeToken ++
        manager.servers.map (fun s => ShedEvent.denyNew s.name true) ++
        [ShedEvent.wait, ShedEvent.drain] ++
        manager.servers.map (fun s => ShedEvent.denyNew s.name false))

/-- A running manager with the peers `p1`, `p2` and one listening server. -/
def sampleManager : Manager :=
  { terminate := false
    haltBalancingProcess := 0
    otherNodes := ["p1".toList, "p2".toList]
    servers := [{ name := "s1".toList, listening := true, denyNew := false }] }

end telnetmgr

/-! ## `lib/telnetmgr/manager.go`: the halt flag on the shed path -/

namespace telnetmgr

/-- The loop `for i := 0; i < numServers; i++ { servers[i].DenyNewConnections(deny) }`
of `dropConnections`, one step for each server: the event and the manager right
after it. `done` holds the servers already visited, in order. -/
def denyEach (deny : Bool) (manager : Manager) :
    List Server → List Server → List (ShedEvent × Manager)
  | _, [] => []
  | done, s :: rest =>
    (ShedEvent.denyNew s.name deny,
      { manager with servers := done ++ s.DenyNewConnections deny :: rest }) ::
      denyEach deny manager (done ++ [s.DenyNewConnections deny]) rest

/-- The method `dropConnections`, step by step: every event of the shed with
the manager as the shed leaves it right after that event. A shed that finds
the halt flag set takes no step. Writes to the flag by other goroutines (the
handler of an incoming halt request) are outside the model. -/
def dropConnectionsSteps (head : GoString → HeadResult) (manager : Manager) (excess : Nat) :
    List (ShedEvent × Manager) :=
  if manager.haltBalancingProcess > 0 then []
  else
    let denied : Manager :=
      { manager with servers := manager.servers.map (fun s => s.DenyNewConnections true) }
    (haltBalancingOnOtherNodes head manager.otherNodes).map
        (fun node => (ShedEvent.haltRequest node, manager)) ++
      List.replicate excess (ShedEvent.closeToken, manager) ++
      denyEach true manager [] manager.servers ++
      [(ShedEvent.wait, denied), (ShedEvent.drain, denied)] ++
      denyEach false denied [] denied.servers

/-- The function `atomic.CompareAndSwapUint32` on the value of the word: the
value after the call, and whether the swap took place. -/
def compareAndSwap (value old new : Nat) : Nat × Bool :=
  if value = old then (new, true) else (value, false)

/-- The shed path of a balancer tick, from `if excess > 0` on: the manager
after it, what the shed did, and the outcome of the compare-and-swap when the
shed was skipped (`none` when no compare-and-swap ran). -/
def shedPath (head : GoString → HeadResult) (manager : Manager) (excess : Nat) :
    Manager × List ShedEvent × Option Bool :=
  if excess > 0 then
    match dropConnections head manager excess with
    | (true, after, events) => (after, events, none)
    | (false, after, events) =>
      let swap := compareAndSwap after.haltBalancingProcess 1 0
      ({ after with haltBalancingProcess := swap.1 }, events, some swap.2)
  else (manager, [], none)

/-- The manager `sampleManager` with the halt flag set by a peer. -/
def haltedManager : Manager :=
  { terminate := false
    haltBalancingProcess := 1
    otherNodes := ["p1".toList, "p2".toList]
    servers := [{ name := "s1".toList, listening := true, denyNew := false }] }

end telnetmgr

/-! ## Theorems -/

theorem isSpace_not_special (c : Char) (h : isSpace c = true) :
    c ≠ '{' ∧ c ≠ '}' ∧ c ≠ ',' ∧ c ≠ '=' := by
  refine ⟨?_, ?_, ?_, ?_⟩ <;> (rintro rfl; revert h; decide)

theorem trimSpace_append_left (w s : GoString) (hw : ∀ c ∈ w, isSpace c = true) :
    trimSpace (w ++ s) = trimSpace s := by
  unfold trimSpace
  rw [List.dropWhile_append_of_pos hw]

theorem rdropWhile_append_of_pos {α : Type} (p : α → Bool) (s w : List α)
    (hw : ∀ c ∈ w, p c = true) : (s ++ w).rdropWhile p = s.rdropWhile p := by
  induction w using List.reverseRecOn with
  | nil => simp
  | append_singleton w c ih =>
    rw [← List.append_assoc, List.rdropWhile_concat_pos _ _ _ (hw c (by simp))]
    exact ih (fun d hd => hw d (by simp [hd]))

theorem dropWhile_append_all {α : Type} (p : α → Bool) (s w : List α)
    (hw : ∀ c ∈ w, p c = true) :
    ((s ++ w).dropWhile p).rdropWhile p = (s.dropWhile p).rdropWhile p := by
  induction s with
  | nil =>
    simp only [List.nil_append, List.dropWhile_nil, List.rdropWhile_nil]
    rw [List.dropWhile_eq_nil_iff.mpr hw]
    simp
  | cons a s ih =>
    by_cases ha : p a = true
    · simp only [List.cons_append, List.dropWhile_cons_of_pos ha]
      exact ih
    · simp only [List.cons_append, List.dropWhile_cons_of_neg ha]
      rw [← List.cons_append]
      exact rdropWhile_append_of_pos p (a :: s) w hw

theorem trimSpace_append_right (s w : GoString) (hw : ∀ c ∈ w, isSpace c = true) :
    trimSpace (s ++ w) = trimSpace s :=
  dropWhile_append_all isSpace s w hw

theorem trimSpace_padded (w1 s w2 : GoString) (h1 : ∀ c ∈ w1, isSpace c = true)
    (h2 : ∀ c ∈ w2, isSpace c = true) : trimSpace (w1 ++ s ++ w2) = trimSpace s := by
  rw [trimSpace_append_right _ _ h2, trimSpace_append_left _ _ h1]

namespace plot

theorem getMetricLoop_brace (s rest mr : GoString) (hs : ∀ c ∈ s, c ≠ '{') :
    getMetricLoop (s ++ '{' :: rest) mr = (trimSpace (mr ++ s), '{' :: rest) := by
  induction s generalizing mr with
  | nil => simp [getMetricLoop]
  | cons a s ih =>
    have ha : a ≠ '{' := hs a (List.mem_cons_self _ _)
    have h := ih (mr ++ [a]) (fun c hc => hs c (List.mem_cons_of_mem _ hc))
    simp only [List.cons_append, getMetricLoop, if_neg ha]
    simpa using h

theorem isPiece_iff (s : GoString) :
    isPiece s = true ↔ ∀ c ∈ s, c ≠ '=' ∧ c ≠ ',' ∧ c ≠ '}' := by
  simp [isPiece, List.all_eq_true, and_assoc]

theorem getTagsLoop_piece (s rest key mr : GoString) (tags : List Tag)
    (hs : isPiece s = true) :
    getTagsLoop (s ++ rest) key mr tags = getTagsLoop rest key (mr ++ s) tags := by
  rw [isPiece_iff] at hs
  induction s generalizing mr with
  | nil => simp
  | cons a s ih =>
    obtain ⟨h1, h2, h3⟩ := hs a (List.mem_cons_self _ _)
    have h4 : ¬ (a = ',' ∨ a = '}') := by simp [h2, h3]
    have h := ih (mr ++ [a]) (fun c hc => hs c (List.mem_cons_of_mem _ hc))
    simp only [List.cons_append, getTagsLoop, if_neg h1, if_neg h4]
    simpa using h

theorem getTagsLoop_piece_eq (s rest key mr : GoString) (tags : List Tag)
    (hs : isPiece s = true) :
    getTagsLoop (s ++ '=' :: rest) key mr tags = getTagsLoop rest (trimSpace (mr ++ s)) [] tags := by
  rw [getTagsLoop_piece s _ key mr tags hs]
  simp [getTagsLoop]

theorem getTagsLoop_piece_sep (s rest key mr : GoString) (tags : List Tag) (sep : Char)
    (hs : isPiece s = true) (hsep : sep = ',' ∨ sep = '}') (hkey : key ≠ []) :
    getTagsLoop (s ++ sep :: rest) key mr tags =
      getTagsLoop rest key [] (tags ++ [{ Key := key, Value := trimSpace (mr ++ s) }]) := by
  rw [getTagsLoop_piece s _ key mr tags hs]
  have h1 : sep ≠ '=' := by rcases hsep with h | h <;> (rw [h]; decide)
  simp [getTagsLoop, h1, hsep, hkey]

theorem getTagsLoop_leading (ls : List GoString) (rest key : GoString) (tags : List Tag)
    (hl : ls.all isPiece = true) :
    ∃ key2, getTagsLoop ((ls.map (fun s => s ++ ['='])).flatten ++ rest) key [] tags =
      getTagsLoop rest key2 [] tags := by
  induction ls generalizing key with
  | nil => exact ⟨key, by simp⟩
  | cons l ls ih =>
    simp only [List.all_cons, Bool.and_eq_true] at hl
    obtain ⟨key2, h2⟩ := ih (trimSpace l) hl.2
    refine ⟨key2, ?_⟩
    have e : (List.map (fun s => s ++ ['=']) (l :: ls)).flatten ++ rest =
        l ++ '=' :: ((List.map (fun s => s ++ ['=']) ls).flatten ++ rest) := by simp
    rw [e, getTagsLoop_piece_eq l _ key [] tags hl.1]
    simpa using h2

theorem getTagsLoop_pair (p : MultiEqPair) (rest key : GoString) (tags : List Tag) (sep : Char)
    (hp : p.wellFormed = true) (hsep : sep = ',' ∨ sep = '}') :
    getTagsLoop (p.text ++ sep :: rest) key [] tags =
      getTagsLoop rest (trimSpace p.beforeLast) [] (tags ++ [p.tag]) := by
  simp only [MultiEqPair.wellFormed, Bool.and_eq_true, bne_iff_ne, ne_eq] at hp
  obtain ⟨⟨⟨h1, h2⟩, h3⟩, h4⟩ := hp
  obtain ⟨key2, hk⟩ := getTagsLoop_leading p.leading
    (p.beforeLast ++ '=' :: (p.afterLast ++ sep :: rest)) key tags h1
  have e : p.text ++ sep :: rest = (p.leading.map (fun s => s ++ ['='])).flatten ++
      (p.beforeLast ++ '=' :: (p.afterLast ++ sep :: rest)) := by
    simp [MultiEqPair.text]
  rw [e, hk, getTagsLoop_piece_eq _ _ _ _ _ h2]
  simp only [List.nil_append]
  rw [getTagsLoop_piece_sep _ _ _ _ _ sep h3 hsep h4]
  simp [MultiEqPair.tag]

theorem getTagsLoop_block (ps : List MultiEqPair) (key : GoString) (tags : List Tag)
    (hne : ps ≠ []) (hp : ∀ p ∈ ps, p.wellFormed = true) :
    getTagsLoop (commaJoin (ps.map MultiEqPair.text) ++ ['}']) key [] tags =
      (tags ++ ps.map MultiEqPair.tag, none) := by
  induction ps generalizing key tags with
  | nil => exact absurd rfl hne
  | cons p ps ih =>
    cases ps with
    | nil =>
      simp only [List.map_cons, List.map_nil, commaJoin]
      rw [getTagsLoop_pair p [] key tags '}' (hp p (List.mem_cons_self _ _)) (Or.inr rfl)]
      simp [getTagsLoop]
    | cons q qs =>
      have h := ih (trimSpace p.beforeLast) (tags ++ [p.tag]) (by simp)
        (fun r hr => hp r (List.mem_cons_of_mem _ hr))
      simp only [List.map_cons, commaJoin, List.append_assoc, List.cons_append]
      rw [getTagsLoop_pair p _ key tags ',' (hp p (List.mem_cons_self _ _)) (Or.inl rfl)]
      simpa using h

theorem getTags_block (body : GoString) :
    getTags ('{' :: (body ++ ['}'])) = getTagsLoop (body ++ ['}']) [] [] [] := by
  have h : ('{' :: (body ++ ['}'])).getLast? = some '}' := by
    rw [← List.cons_append, List.getLast?_append]
    simp
  simp [getTags, h]

theorem parseQuery_block (m body : GoString) (hm : ∀ c ∈ m, c ≠ '{') :
    parseQuery (m ++ '{' :: (body ++ ['}'])) =
      (trimSpace m, (getTagsLoop (body ++ ['}']) [] [] []).1,
        (getTagsLoop (body ++ ['}']) [] [] []).2) := by
  simp only [parseQuery, getMetric]
  rw [getMetricLoop_brace m _ [] hm, getTags_block]
  simp

end plot

/-! ### The filter parser: claims C3, C4, C5 -/

namespace plot

/-- The scanner's view of a padded pair: one `=`, the padded key before it
and the padded value after it. -/
theorem PaddedTag.asMultiEq (p : PaddedTag) (hp : p.wellFormed = true) :
    ∃ q : MultiEqPair, q.text = p.text ∧ q.wellFormed = true ∧
      q.tag = { Key := p.key, Value := p.value } := by
  simp only [PaddedTag.wellFormed, isToken, Bool.and_eq_true, bne_iff_ne, ne_eq,
    List.all_eq_true, beq_iff_eq] at hp
  obtain ⟨⟨⟨⟨⟨⟨⟨hk, hkt⟩, ⟨hv, hvt⟩⟩, hkne⟩, h1⟩, h2⟩, h3⟩, h4⟩ := hp
  have sp : ∀ w : GoString, (∀ c ∈ w, isSpace c = true) → isPiece w = true := by
    intro w hw
    rw [isPiece_iff]
    intro c hc
    have := isSpace_not_special c (hw c hc)
    exact ⟨this.2.2.2, this.2.2.1, this.2.1⟩
  have tk : ∀ w : GoString,
      (∀ c ∈ w, ((¬c = '{' ∧ ¬c = '}') ∧ ¬c = ',') ∧ ¬c = '=') → isPiece w = true := by
    intro w hw
    rw [isPiece_iff]
    intro c hc
    have := hw c hc
    exact ⟨this.2, this.1.2, this.1.1.2⟩
  have app : ∀ a b : GoString, isPiece a = true → isPiece b = true → isPiece (a ++ b) = true := by
    intro a b ha hb
    simp only [isPiece, List.all_append, Bool.and_eq_true] at *
    exact ⟨ha, hb⟩
  refine ⟨{ leading := [], beforeLast := p.keyPre ++ p.key ++ p.keyPost,
            afterLast := p.valuePre ++ p.value ++ p.valuePost }, ?_, ?_, ?_⟩
  · simp [MultiEqPair.text, PaddedTag.text]
  · have hkey : trimSpace (p.keyPre ++ p.key ++ p.keyPost) = p.key := by
      rw [trimSpace_padded _ _ _ h1 h2, hkt]
    simp only [MultiEqPair.wellFormed, Bool.and_eq_true, bne_iff_ne, ne_eq, List.all_nil, hkey]
    exact ⟨⟨⟨trivial, app _ _ (app _ _ (sp _ h1) (tk _ hk)) (sp _ h2)⟩,
      app _ _ (app _ _ (sp _ h3) (tk _ hv)) (sp _ h4)⟩, hkne⟩
  · simp only [MultiEqPair.tag]
    rw [trimSpace_padded _ _ _ h1 h2, trimSpace_padded _ _ _ h3 h4, hkt, hvt]

theorem padded_block (ps : List PaddedTag) (hp : ∀ p ∈ ps, p.wellFormed = true) :
    ∃ qs : List MultiEqPair, qs.map MultiEqPair.text = ps.map PaddedTag.text ∧
      (∀ q ∈ qs, q.wellFormed = true) ∧
      qs.map MultiEqPair.tag = ps.map (fun p => { Key := p.key, Value := p.value }) ∧
      qs.length = ps.length := by
  induction ps with
  | nil => exact ⟨[], rfl, by simp, rfl, rfl⟩
  | cons p ps ih =>
    obtain ⟨q, h1, h2, h3⟩ := PaddedTag.asMultiEq p (hp p (List.mem_cons_self _ _))
    obtain ⟨qs, g1, g2, g3, g4⟩ := ih (fun r hr => hp r (List.mem_cons_of_mem _ hr))
    refine ⟨q :: qs, by simp [h1, g1], ?_, by simp [h3, g3], by simp [g4]⟩
    intro r hr
    rcases List.mem_cons.mp hr with rfl | hr
    · exact h2
    · exact g2 r hr

/-- C3. For a metric `m` and a non-empty list of pairs whose metric, keys and
values are tokens (none of the characters `{`, `}`, `,`, `=`, no white space at
either end) and whose keys are non-empty, `parseQuery` applied to the text
`m{k_1=v_1,...,k_n=v_n}`, with any white space around the metric and around
each key and value, returns the metric `m`, the tags `(k_i, v_i)` in order,
and no error. -/
theorem parseQuery_roundtrip (mPre m mPost : GoString) (ps : List PaddedTag)
    (hm : isToken m = true)
    (hpre : mPre.all isSpace = true) (hpost : mPost.all isSpace = true)
    (hne : ps ≠ []) (hps : ∀ p ∈ ps, p.wellFormed = true) :
    parseQuery (queryText mPre m mPost ps) =
      (m, ps.map (fun p => ({ Key := p.key, Value := p.value } : Tag)), none) := by
  obtain ⟨qs, g1, g2, g3, g4⟩ := padded_block ps hps
  have hqne : qs ≠ [] := by
    intro h
    rw [h] at g4
    exact hne (List.length_eq_zero.mp g4.symm)
  simp only [isToken, Bool.and_eq_true, List.all_eq_true, beq_iff_eq, bne_iff_ne, ne_eq] at hm
  rw [List.all_eq_true] at hpre hpost
  have hbrace : ∀ c ∈ mPre ++ m ++ mPost, c ≠ '{' := by
    intro c hc
    simp only [List.mem_append] at hc
    rcases hc with (hc | hc) | hc
    · exact (isSpace_not_special c (hpre c hc)).1
    · exact (hm.1 c hc).1.1.1
    · exact (isSpace_not_special c (hpost c hc)).1
  unfold queryText
  rw [parseQuery_block _ _ hbrace, ← g1, getTagsLoop_block qs [] [] hqne g2, g3,
    trimSpace_padded _ _ _ hpre hpost, hm.2]
  simp

/-- Witness of C3 on the text ` cpu {host = a,dc=}`. -/
theorem parseQuery_roundtrip_witness :
    parseQuery " cpu {host = a,dc=}".toList =
      ("cpu".toList, [{ Key := "host".toList, Value := "a".toList },
        { Key := "dc".toList, Value := [] }], none) :=
  parseQuery_roundtrip [' '] "cpu".toList [' ']
    [{ key := "host".toList, value := "a".toList, keyPre := [], keyPost := [' '],
       valuePre := [' '], valuePost := [] },
     { key := "dc".toList, value := [], keyPre := [], keyPost := [],
       valuePre := [], valuePost := [] }]
    (by decide) (by decide) (by decide) (by decide) (by decide)

/-- C4, counterexample. On `m{a=b=c}` the parser returns the single tag with
key `b` and value `c`, not the tag with key `a` and value `b=c`. -/
theorem parseQuery_first_eq_counterexample :
    parseQuery "m{a=b=c}".toList =
        ("m".toList, [{ Key := "b".toList, Value := "c".toList }], none) ∧
      (parseQuery "m{a=b=c}".toList).2.1 ≠
        [{ Key := "a".toList, Value := "b=c".toList }] := by
  decide

/-- C4, amended. In a query `m{P_1,...,P_n}` (n ≥ 1, no `{` in `m`) whose pairs
hold no `,` and no `}`, hold each at least one `=` and have a non-blank piece
right before their last `=`, every pair is split on its last `=`: the key is
the trimmed piece between the next-to-last `=` (or the start of the pair) and
the last `=`, the value is the trimmed piece after the last `=`, and the text
before the next-to-last `=` is dropped. The metric is the trimmed `m` and no
error is returned. -/
theorem parseQuery_splits_on_last_eq (m : GoString) (ps : List MultiEqPair)
    (hm : ∀ c ∈ m, c ≠ '{') (hne : ps ≠ []) (hps : ∀ p ∈ ps, p.wellFormed = true) :
    parseQuery (m ++ '{' :: (commaJoin (ps.map MultiEqPair.text) ++ ['}'])) =
      (trimSpace m, ps.map MultiEqPair.tag, none) := by
  rw [parseQuery_block _ _ hm, getTagsLoop_block ps [] [] hne hps]
  simp

/-- Witness of the amended C4 on `m{a=b=c,x= y}`. -/
theorem parseQuery_splits_on_last_eq_witness :
    parseQuery "m{a=b=c,x= y}".toList =
      ("m".toList, [{ Key := "b".toList, Value := "c".toList },
        { Key := "x".toList, Value := "y".toList }], none) :=
  parseQuery_splits_on_last_eq "m".toList
    [{ leading := ["a".toList], beforeLast := "b".toList, afterLast := "c".toList },
     { leading := [], beforeLast := "x".toList, afterLast := " y".toList }]
    (by decide) (by decide) (by decide)

/-- C5, evaluation at the failing input. On `m{a=b,c}` the second pair has no
`=` and hence no key, yet the parser reports no error: it reuses the key of the
previous pair and returns the tags `(a, b)` and `(a, c)`; the same pair at the
first position, `m{c,a=b}`, is rejected. -/
theorem parseQuery_keyless_pair_after_valid_pair :
    parseQuery "m{a=b,c}".toList =
        ("m".toList, [{ Key := "a".toList, Value := "b".toList },
          { Key := "a".toList, Value := "c".toList }], none) ∧
      parseQuery "m{c,a=b}".toList =
        ("m".toList, [], some (errValidationS "getTags" "invalid tag format")) := by
  decide

end plot

/-! ### `float64` arithmetic on integers -/

theorem log2Fuel_spec (fuel n : Nat) (h : n < 2 ^ fuel) (h0 : n ≠ 0) :
    2 ^ log2Fuel fuel n ≤ n ∧ n < 2 ^ (log2Fuel fuel n + 1) := by
  induction fuel generalizing n with
  | zero => simp at h; exact absurd h h0
  | succ fuel ih =>
    unfold log2Fuel
    by_cases h2 : 2 ≤ n
    · rw [if_pos h2]
      have hlt : n / 2 < 2 ^ fuel := by
        rw [Nat.div_lt_iff_lt_mul (by decide)]
        rw [pow_succ] at h
        exact h
      obtain ⟨g1, g2⟩ := ih (n / 2) hlt (by omega)
      rw [pow_succ] at g2 ⊢
      rw [pow_succ]
      constructor <;> omega
    · rw [if_neg h2]
      constructor <;> simp <;> omega

theorem floorLog2_spec (n : Nat) (h0 : n ≠ 0) :
    2 ^ floorLog2 n ≤ n ∧ n < 2 ^ (floorLog2 n + 1) :=
  log2Fuel_spec n n (Nat.lt_two_pow n) h0

theorem floorLog2_lt (n k : Nat) (h0 : n ≠ 0) (h : n < 2 ^ k) : floorLog2 n < k := by
  by_contra hge
  have h1 := (floorLog2_spec n h0).1
  have h2 : 2 ^ k ≤ 2 ^ floorLog2 n := Nat.pow_le_pow_right (by decide) (by omega)
  omega

theorem floorLog2_ge (n k : Nat) (h0 : n ≠ 0) (h : 2 ^ k ≤ n) : k ≤ floorLog2 n := by
  by_contra hlt
  have h1 := (floorLog2_spec n h0).2
  have h2 : 2 ^ (floorLog2 n + 1) ≤ 2 ^ k := Nat.pow_le_pow_right (by decide) (by omega)
  omega

theorem toFloat64_small (n : Nat) (h : n < 2 ^ 53) : toFloat64 n = n := by
  unfold toFloat64
  rw [if_pos h]

theorem toFloat64_large (n : Nat) (h : ¬ n < 2 ^ 53) : 2 ^ 53 ≤ toFloat64 n := by
  have hn0 : n ≠ 0 := by omega
  have hL : 53 ≤ floorLog2 n := floorLog2_ge n 53 hn0 (by omega)
  have hle : 2 ^ floorLog2 n ≤ n := (floorLog2_spec n hn0).1
  have hs : floorLog2 n = (floorLog2 n - 52) + 52 := by omega
  have hm : 2 ^ 52 ≤ n / 2 ^ (floorLog2 n - 52) := by
    rw [Nat.le_div_iff_mul_le (Nat.pos_pow_of_pos _ (by decide)), ← pow_add, Nat.add_comm, ← hs]
    exact hle
  have hs1 : 2 ≤ 2 ^ (floorLog2 n - 52) := by
    calc 2 = 2 ^ 1 := rfl
      _ ≤ 2 ^ (floorLog2 n - 52) := Nat.pow_le_pow_right (by decide) (by omega)
  unfold toFloat64
  rw [if_neg h]
  simp only
  have hm1 : n / 2 ^ (floorLog2 n - 52) ≤
      (if 2 * (n % 2 ^ (floorLog2 n - 52)) < 2 ^ (floorLog2 n - 52) then
        n / 2 ^ (floorLog2 n - 52)
      else if 2 * (n % 2 ^ (floorLog2 n - 52)) > 2 ^ (floorLog2 n - 52) then
        n / 2 ^ (floorLog2 n - 52) + 1
      else if n / 2 ^ (floorLog2 n - 52) % 2 = 0 then n / 2 ^ (floorLog2 n - 52)
      else n / 2 ^ (floorLog2 n - 52) + 1) := by
    split
    · exact Nat.le_refl _
    · split
      · omega
      · split <;> omega
  calc 2 ^ 53 = 2 ^ 52 * 2 := by norm_num
    _ ≤ _ := Nat.mul_le_mul (Nat.le_trans hm hm1) hs1

theorem quotScale_spec (a b : Nat) (ha0 : a ≠ 0) (ha : a < 2 ^ 32) (hb : b ≠ 0) :
    2 ^ 52 * b ≤ a * 2 ^ quotScale a b := by
  unfold quotScale
  simp only
  split
  · assumption
  · have hla := floorLog2_lt a 32 ha0 ha
    have h1 := (floorLog2_spec a ha0).1
    have h2 := (floorLog2_spec b hb).2
    have e : 52 + floorLog2 b - floorLog2 a + 1 + floorLog2 a = 52 + (floorLog2 b + 1) := by
      omega
    have h3 : 2 ^ floorLog2 a * 2 ^ (52 + floorLog2 b - floorLog2 a + 1) =
        2 ^ 52 * 2 ^ (floorLog2 b + 1) := by
      rw [← pow_add, ← pow_add, Nat.add_comm, e]
    calc 2 ^ 52 * b ≤ 2 ^ 52 * 2 ^ (floorLog2 b + 1) :=
          Nat.mul_le_mul_left _ (Nat.le_of_lt h2)
      _ = 2 ^ floorLog2 a * 2 ^ (52 + floorLog2 b - floorLog2 a + 1) := h3.symm
      _ ≤ a * 2 ^ (52 + floorLog2 b - floorLog2 a + 1) := Nat.mul_le_mul_right _ h1

/-- The ceiling of a quotient that was rounded at a fine enough scale is the
ceiling of the exact quotient. -/
theorem ceil_rounded (a b K m1 : Nat) (hb : 0 < b) (hK : b ≤ K)
    (hlo : a * K / b ≤ m1) (hhi : m1 ≤ a * K / b + 1)
    (hex : a * K % b = 0 → m1 = a * K / b) :
    (m1 + K - 1) / K = (a + b - 1) / b := by
  have hK0 : 0 < K := Nat.lt_of_lt_of_le hb hK
  -- write a = q * b + t
  obtain ⟨q, t, ht, rfl⟩ : ∃ q t, t < b ∧ a = q * b + t :=
    ⟨a / b, a % b, Nat.mod_lt _ hb, by rw [Nat.mul_comm]; exact (Nat.div_add_mod a b).symm⟩
  by_cases ht0 : t = 0
  · subst ht0
    have hm : q * b * K / b = q * K := by
      rw [Nat.mul_assoc, Nat.mul_comm b K, ← Nat.mul_assoc]
      exact Nat.mul_div_cancel _ hb
    have hr : (q * b + 0) * K % b = 0 := by
      rw [Nat.add_zero, Nat.mul_assoc, Nat.mul_comm b K, ← Nat.mul_assoc]
      exact Nat.mul_mod_left _ _
    have hm1 := hex hr
    rw [Nat.add_zero, hm] at hm1
    subst hm1
    have e1 : (q * K + K - 1) / K = q := by
      have : q * K + K - 1 = (K - 1) + K * q := by rw [Nat.mul_comm]; omega
      rw [this, Nat.add_mul_div_left _ _ hK0, Nat.div_eq_of_lt (by omega)]
      omega
    have e2 : (q * b + 0 + b - 1) / b = q := by
      have : q * b + 0 + b - 1 = (b - 1) + b * q := by rw [Nat.mul_comm]; omega
      rw [this, Nat.add_mul_div_left _ _ hb, Nat.div_eq_of_lt (by omega)]
      omega
    rw [e1, e2]
  · have htpos : 1 ≤ t := Nat.one_le_iff_ne_zero.mpr ht0
    have hsplit : (q * b + t) * K / b = q * K + t * K / b := by
      have : (q * b + t) * K = t * K + b * (q * K) := by ring
      rw [this, Nat.add_mul_div_left _ _ hb, Nat.add_comm]
    have hge : 1 ≤ t * K / b := by
      rw [Nat.le_div_iff_mul_le hb]
      calc 1 * b ≤ 1 * K := Nat.mul_le_mul_left _ hK
        _ ≤ t * K := Nat.mul_le_mul_right _ htpos
    have hle : t * K / b ≤ K - 1 := by
      have h1 : t * K / b < K := by
        rw [Nat.div_lt_iff_lt_mul hb]
        exact Nat.mul_lt_mul_of_pos_right ht hK0 |>.trans_eq (Nat.mul_comm b K)
      have h2 : t * K ≤ (K - 1) * b + (b - 1) := by
        have h3 : t * K ≤ (b - 1) * K := Nat.mul_le_mul_right _ (by omega)
        have h4 : (b - 1) * K + K = b * K := by
          have : b = (b - 1) + 1 := by omega
          nth_rewrite 2 [this]
          rw [Nat.add_mul, Nat.one_mul]
        have h5 : (K - 1) * b + b = K * b := by
          have : K = (K - 1) + 1 := by omega
          nth_rewrite 2 [this]
          rw [Nat.add_mul, Nat.one_mul]
        have h6 : b * K = K * b := Nat.mul_comm _ _
        omega
      omega
    rw [hsplit] at hlo hhi
    have e1 : (m1 + K - 1) / K = q + 1 := by
      obtain ⟨d, hd1, hd2, rfl⟩ : ∃ d, 1 ≤ d ∧ d ≤ K ∧ m1 = q * K + d :=
        ⟨m1 - q * K, by omega, by omega, by omega⟩
      have : q * K + d + K - 1 = (d - 1) + K * (q + 1) := by
        rw [Nat.mul_add, Nat.mul_one, Nat.mul_comm K q]; omega
      rw [this, Nat.add_mul_div_left _ _ hK0, Nat.div_eq_of_lt (by omega)]
      omega
    have e2 : (q * b + t + b - 1) / b = q + 1 := by
      have : q * b + t + b - 1 = (t - 1) + b * (q + 1) := by
        rw [Nat.mul_add, Nat.mul_one, Nat.mul_comm b q]; omega
      rw [this, Nat.add_mul_div_left _ _ hb, Nat.div_eq_of_lt (by omega)]
      omega
    rw [e1, e2]

theorem ceil_divFloat64 (a b : Nat) (ha : a < 2 ^ 32) (hb : 0 < b) :
    ceilFloat64 (divFloat64 a b) = (a + b - 1) / b := by
  by_cases ha0 : a = 0
  · subst ha0
    have : (0 + b - 1) / b = 0 := Nat.div_eq_of_lt (by omega)
    rw [this]
    simp [divFloat64, ceilFloat64]
  · have hsc := quotScale_spec a b ha0 ha (by omega)
    have hK : b ≤ 2 ^ quotScale a b := by
      by_contra hlt
      have h1 : a * 2 ^ quotScale a b ≤ 2 ^ 32 * b :=
        Nat.mul_le_mul (Nat.le_of_lt ha) (by omega)
      have h2 : 2 ^ 32 * b < 2 ^ 52 * b :=
        Nat.mul_lt_mul_of_pos_right (by norm_num) hb
      omega
    unfold divFloat64 ceilFloat64
    rw [if_neg ha0]
    simp only
    apply ceil_rounded a b _ _ hb hK
    · split
      · exact Nat.le_refl _
      · split
        · omega
        · split <;> omega
    · split
      · omega
      · split
        · omega
        · split <;> omega
    · intro hr
      rw [hr]
      simp [hb]

/-! ### The connection balancer: claims C1, C2 -/

namespace telnetmgr

theorem ceilAverage_eq (sum n : Nat) (hs : sum < 2 ^ 32) (hn : 0 < n) :
    ceilAverage sum n = (sum + n - 1) / n := by
  have hle : (sum + n - 1) / n ≤ sum := by
    rw [Nat.div_le_iff_le_mul_add_pred hn]
    have : n * sum ≥ sum := Nat.le_mul_of_pos_left _ hn
    omega
  unfold ceilAverage
  by_cases hsmall : n < 2 ^ 53
  · rw [toFloat64_small n hsmall, ceil_divFloat64 sum n hs hn]
    exact Nat.mod_eq_of_lt (by omega)
  · have hbig := toFloat64_large n hsmall
    rw [ceil_divFloat64 sum _ hs (by omega)]
    have e1 : (sum + toFloat64 n - 1) / toFloat64 n = (sum + n - 1) / n := by
      by_cases h0 : sum = 0
      · subst h0
        rw [Nat.div_eq_of_lt (by omega), Nat.div_eq_of_lt (by omega)]
      · have g1 : (sum + toFloat64 n - 1) / toFloat64 n = 1 := by
          have : sum + toFloat64 n - 1 = (sum - 1) + toFloat64 n * 1 := by omega
          rw [this, Nat.add_mul_div_left _ _ (by omega), Nat.div_eq_of_lt (by omega)]
        have g2 : (sum + n - 1) / n = 1 := by
          have : sum + n - 1 = (sum - 1) + n * 1 := by omega
          rw [this, Nat.add_mul_div_left _ _ hn, Nat.div_eq_of_lt (by omega)]
        rw [g1, g2]
    rw [e1]
    exact Nat.mod_eq_of_lt (by omega)

theorem sumPeers_stop (cur : Nat) (rs : List Nat) (s : Nat) :
    (sumPeers cur rs s).2 = true ↔ ∃ p ∈ rs, cur < p := by
  induction rs generalizing s with
  | nil => simp [sumPeers]
  | cons r rs ih =>
    unfold sumPeers
    by_cases h : cur < r
    · simp [h]
    · simp [h, ih]

theorem sumPeers_sum (cur : Nat) (rs : List Nat) (s : Nat)
    (hle : ∀ p ∈ rs, p ≤ cur) (hs : s + rs.sum < 2 ^ 32) :
    sumPeers cur rs s = (s + rs.sum, false) := by
  induction rs generalizing s with
  | nil => simp [sumPeers]
  | cons r rs ih =>
    have hr : ¬ cur < r := Nat.not_lt.mpr (hle r (List.mem_cons_self _ _))
    have hs' : s + r + rs.sum < 2 ^ 32 := by simpa [Nat.add_assoc] using hs
    have hmod : (s + r) % 2 ^ 32 = s + r := Nat.mod_eq_of_lt (by omega)
    unfold sumPeers
    rw [if_neg hr, hmod, ih (s + r) (fun p hp => hle p (List.mem_cons_of_mem _ hp)) hs']
    simp [Nat.add_assoc]

theorem ceil_eq (a n : Nat) (hn : 0 < n) : (a + n - 1) / n = ⌈(a : ℚ) / n⌉₊ := by
  have hn' : (0 : ℚ) < n := by exact_mod_cast hn
  apply le_antisymm
  · rw [Nat.div_le_iff_le_mul_add_pred hn]
    have h1 : (a : ℚ) / n ≤ ⌈(a : ℚ) / n⌉₊ := Nat.le_ceil _
    rw [div_le_iff₀ hn'] at h1
    have h2 : a ≤ ⌈(a : ℚ) / n⌉₊ * n := by exact_mod_cast h1
    have : n * ⌈(a : ℚ) / n⌉₊ = ⌈(a : ℚ) / n⌉₊ * n := Nat.mul_comm _ _
    omega
  · rw [Nat.ceil_le, div_le_iff₀ hn']
    have : a ≤ (a + n - 1) / n * n := by
      have h3 := Nat.div_add_mod (a + n - 1) n
      have h4 := Nat.mod_lt (a + n - 1) hn
      have h5 : n * ((a + n - 1) / n) = (a + n - 1) / n * n := Nat.mul_comm _ _
      omega
    exact_mod_cast this

theorem sum_le_of_all_le (rs : List Nat) (c : Nat) (h : ∀ p ∈ rs, p ≤ c) :
    rs.sum ≤ rs.length * c := by
  induction rs with
  | nil => simp
  | cons r rs ih =>
    have h1 := h r (List.mem_cons_self _ _)
    have h2 := ih (fun p hp => h p (List.mem_cons_of_mem _ hp))
    simp only [List.sum_cons, List.length_cons, Nat.succ_mul]
    omega

theorem ceilDiv_le (a n c : Nat) (hn : 0 < n) (h : a ≤ n * c) : (a + n - 1) / n ≤ c := by
  have h1 : (a + n - 1) / n < c + 1 := by
    rw [Nat.div_lt_iff_lt_mul hn]
    have : (c + 1) * n = n * c + n := by ring
    omega
  omega

theorem balanceDecision_of_exceeding (rs : List Nat) (c m : Nat) (h : ∃ p ∈ rs, c < p) :
    balanceDecision rs c m = none := by
  have h1 := (sumPeers_stop c rs 0).mpr h
  have hlen : ¬ rs.length = 0 := by
    obtain ⟨p, hp, -⟩ := h
    exact Nat.ne_of_gt (List.length_pos_of_mem hp)
  unfold balanceDecision
  rw [if_neg hlen]
  rcases hsp : sumPeers c rs 0 with ⟨s, b⟩
  rw [hsp] at h1
  simp only at h1
  subst h1
  rfl

theorem balanceDecision_of_all_le (rs : List Nat) (c m : Nat) (hn : 0 < rs.length)
    (hsum : rs.sum < 2 ^ 32) (hc : c < 2 ^ 32) (hm : m < 2 ^ 32) (h : ∀ p ∈ rs, p ≤ c) :
    (rs.sum + rs.length - 1) / rs.length ≤ c ∧
    balanceDecision rs c m =
      if (rs.sum + rs.length - 1) / rs.length + m < c
      then some (c - (rs.sum + rs.length - 1) / rs.length - m) else none := by
  have hsp := sumPeers_sum c rs 0 h (by simpa using hsum)
  have hle := ceilDiv_le rs.sum rs.length c hn (by
    have := sum_le_of_all_le rs c h; simpa [Nat.mul_comm] using this)
  refine ⟨hle, ?_⟩
  unfold balanceDecision
  rw [if_neg (Nat.ne_of_gt hn), hsp]
  simp only [Nat.zero_add]
  rw [ceilAverage_eq rs.sum rs.length hsum hn]
  generalize (rs.sum + rs.length - 1) / rs.length = avg at hle ⊢
  have h2 : (c + 2 ^ 32 - avg) % 2 ^ 32 = c - avg := by
    have : c + 2 ^ 32 - avg = (c - avg) + 2 ^ 32 := by omega
    rw [this, Nat.add_mod_right]
    exact Nat.mod_eq_of_lt (by omega)
  rw [h2]
  by_cases hd : m ≤ c - avg
  · have h3 : (c - avg + 2 ^ 32 - m) % 2 ^ 32 = c - avg - m := by
      have : c - avg + 2 ^ 32 - m = (c - avg - m) + 2 ^ 32 := by omega
      rw [this, Nat.add_mod_right]
      exact Nat.mod_eq_of_lt (by omega)
    rw [h3]
    by_cases hlt : avg + m < c
    · have : c > avg ∧ c - avg ≥ m := by omega
      have h4 : c - avg - m > 0 := by omega
      simp [this, h4, hlt]
    · by_cases h5 : c > avg ∧ c - avg ≥ m
      · have h4 : ¬ (c - avg - m > 0) := by omega
        simp [h5, h4, hlt]
      · simp [h5, hlt]
  · have h5 : ¬ (c > avg ∧ c - avg ≥ m) := by omega
    have hlt : ¬ (avg + m < c) := by omega
    simp [h5, hlt]

theorem balanceDecision_iff (results : List Nat) (cur maxU : Nat)
    (hn : 1 ≤ results.length) (hsum : results.sum < 2 ^ 32)
    (hc : cur < 2 ^ 32) (hm : maxU < 2 ^ 32) :
    ((balanceDecision results cur maxU).isSome ↔
      ((∀ p ∈ results, p ≤ cur) ∧
        (cur : ℤ) - ⌈(results.sum : ℚ) / results.length⌉₊ > maxU)) ∧
    (∀ e, balanceDecision results cur maxU = some e →
      (e : ℤ) = (cur : ℤ) - ⌈(results.sum : ℚ) / results.length⌉₊ - maxU) := by
  rw [← ceil_eq results.sum results.length hn]
  by_cases hex : ∃ p ∈ results, cur < p
  · rw [balanceDecision_of_exceeding results cur maxU hex]
    obtain ⟨p, hp, hlt⟩ := hex
    constructor
    · constructor
      · intro h; simp at h
      · rintro ⟨hall, -⟩
        exact absurd (hall p hp) (by omega)
    · intro e h; simp at h
  · have hall : ∀ p ∈ results, p ≤ cur := by
      intro p hp
      by_contra hlt
      exact hex ⟨p, hp, by omega⟩
    obtain ⟨hle, hdec⟩ := balanceDecision_of_all_le results cur maxU hn hsum hc hm hall
    rw [hdec]
    generalize (results.sum + results.length - 1) / results.length = avg at hle ⊢
    by_cases hlt : avg + maxU < cur
    · simp only [if_pos hlt]
      constructor
      · constructor
        · intro _; exact ⟨hall, by omega⟩
        · intro _; rfl
      · intro e he
        simp only [Option.some.injEq] at he
        omega
    · simp only [if_neg hlt]
      constructor
      · constructor
        · intro h; simp at h
        · rintro ⟨-, h⟩; omega
      · intro e he; simp at he

/-- C1. On a balancer tick with at least one peer, peer counts whose sum fits
in 32 bits, local count `cur` and threshold `maxU`, the balancer invokes the
shed if and only if no peer count is greater than `cur` and
`cur - avg > maxU`, where `avg` is the ceiling of the mean of the peer
counts; the excess passed is then exactly `cur - avg - maxU`. -/
theorem balancer_sheds_iff (results : List Nat) (cur maxU : Nat)
    (hn : 1 ≤ results.length) (hsum : results.sum < 2 ^ 32)
    (hc : cur < 2 ^ 32) (hm : maxU < 2 ^ 32) :
    ((balanceDecision results cur maxU).isSome ↔
      ((∀ p ∈ results, p ≤ cur) ∧
        (cur : ℤ) - ⌈(results.sum : ℚ) / results.length⌉₊ > maxU)) ∧
    (∀ e, balanceDecision results cur maxU = some e →
      (e : ℤ) = (cur : ℤ) - ⌈(results.sum : ℚ) / results.length⌉₊ - maxU) :=
  balanceDecision_iff results cur maxU hn hsum hc hm

/-- Witness of C1: peers `[5, 5]`, local count 15 and threshold 2 shed 8
connections. -/
theorem balancer_sheds_iff_witness :
    (1 ≤ [5, 5].length ∧ [5, 5].sum < 2 ^ 32 ∧ 15 < 2 ^ 32 ∧ 2 < 2 ^ 32) ∧
      ∀ e, balanceDecision [5, 5] 15 2 = some e →
        (e : ℤ) = (15 : ℤ) - ⌈(([5, 5] : List Nat).sum : ℚ) / ([5, 5] : List Nat).length⌉₊ - 2 :=
  ⟨by decide, (balancer_sheds_iff [5, 5] 15 2 (by decide) (by decide) (by decide)
    (by decide)).2⟩

/-- C2, counterexample. Peers `[10, 0]`, local count 10, threshold 2: the
highest peer count equals the local count and no peer exceeds it, yet the
balancer sheds 3 connections. -/
theorem balancer_tie_counterexample :
    (∀ p ∈ [10, 0], p ≤ 10) ∧ (10 ∈ [10, 0]) ∧ balanceDecision [10, 0] 10 2 = some 3 := by
  decide

theorem sumPeers_wrapped (cur : Nat) (rs : List Nat) (s : Nat)
    (hle : ∀ p ∈ rs, p ≤ cur) (hs : s < 2 ^ 32) :
    sumPeers cur rs s = ((s + rs.sum) % 2 ^ 32, false) := by
  induction rs generalizing s with
  | nil =>
    rw [sumPeers, List.sum_nil, Nat.add_zero, Nat.mod_eq_of_lt hs]
  | cons r rs ih =>
    have hr : ¬ cur < r := Nat.not_lt.mpr (hle r (List.mem_cons_self _ _))
    unfold sumPeers
    rw [if_neg hr, ih ((s + r) % 2 ^ 32) (fun p hp => hle p (List.mem_cons_of_mem _ hp))
      (Nat.mod_lt _ (by decide)), List.sum_cons, Nat.mod_add_mod, Nat.add_assoc]

theorem balanceDecision_wrapped (rs : List Nat) (c m : Nat) (hn : 0 < rs.length)
    (hc : c < 2 ^ 32) (hm : m < 2 ^ 32) (h : ∀ p ∈ rs, p ≤ c) :
    balanceDecision rs c m =
      if (rs.sum % 2 ^ 32 + rs.length - 1) / rs.length + m < c
      then some (c - (rs.sum % 2 ^ 32 + rs.length - 1) / rs.length - m) else none := by
  have hsp := sumPeers_wrapped c rs 0 h (by decide)
  have hlt : rs.sum % 2 ^ 32 < 2 ^ 32 := Nat.mod_lt _ (by decide)
  unfold balanceDecision
  rw [if_neg (Nat.ne_of_gt hn), hsp]
  simp only [Nat.zero_add]
  rw [ceilAverage_eq (rs.sum % 2 ^ 32) rs.length hlt hn]
  generalize (rs.sum % 2 ^ 32 + rs.length - 1) / rs.length = avg
  by_cases hca : c > avg
  · have h2 : (c + 2 ^ 32 - avg) % 2 ^ 32 = c - avg := by
      have : c + 2 ^ 32 - avg = (c - avg) + 2 ^ 32 := by omega
      rw [this, Nat.add_mod_right]
      exact Nat.mod_eq_of_lt (by omega)
    rw [h2]
    by_cases hd : m ≤ c - avg
    · have h3 : (c - avg + 2 ^ 32 - m) % 2 ^ 32 = c - avg - m := by
        have : c - avg + 2 ^ 32 - m = (c - avg - m) + 2 ^ 32 := by omega
        rw [this, Nat.add_mod_right]
        exact Nat.mod_eq_of_lt (by omega)
      rw [h3]
      by_cases hlt2 : avg + m < c
      · have h5 : c > avg ∧ c - avg ≥ m := by omega
        have h4 : c - avg - m > 0 := by omega
        simp [h5, h4, hlt2]
      · have h5 : c > avg ∧ c - avg ≥ m := by omega
        have h4 : ¬ (c - avg - m > 0) := by omega
        simp [h5, h4, hlt2]
    · have h5 : ¬ (c > avg ∧ c - avg ≥ m) := by omega
      have hlt2 : ¬ (avg + m < c) := by omega
      simp [h5, hlt2]
  · have h5 : ¬ (c > avg ∧ (c + 2 ^ 32 - avg) % 2 ^ 32 ≥ m) := fun hh => hca hh.1
    have hlt2 : ¬ (avg + m < c) := by omega
    rw [if_neg h5, if_neg hlt2]

/-- C2, amended. On a tick where the highest peer count equals the local count
(no peer exceeds it, one peer equals it), the local count and the threshold
being `uint32` values, the tick is not skipped. Let `avg` be the ceiling of the
mean that the balancer computes, that is of the `uint32` sum of the peer counts
(their sum modulo `2 ^ 32`) divided by the number of peers: no shed is invoked
if and only if `cur - avg ≤ maxU`, and a shed that is invoked drops
`cur - avg - maxU` connections. In particular, when the sum of the peer counts
is below `2 ^ 32`, no shed is invoked when every peer reports the local
count. -/
theorem balancer_tie (results : List Nat) (cur maxU : Nat)
    (hc : cur < 2 ^ 32) (hm : maxU < 2 ^ 32)
    (hle : ∀ p ∈ results, p ≤ cur) (heq : cur ∈ results) :
    (balanceDecision results cur maxU = none ↔
      (cur : ℤ) - ⌈((results.sum % 2 ^ 32 : ℕ) : ℚ) / results.length⌉₊ ≤ maxU) ∧
    (∀ e, balanceDecision results cur maxU = some e →
      (e : ℤ) = (cur : ℤ) - ⌈((results.sum % 2 ^ 32 : ℕ) : ℚ) / results.length⌉₊ - maxU) ∧
    (results.sum < 2 ^ 32 → (∀ p ∈ results, p = cur) →
      balanceDecision results cur maxU = none) := by
  have hn : 1 ≤ results.length := List.length_pos_of_mem heq
  have hdec := balanceDecision_wrapped results cur maxU hn hc hm hle
  rw [← ceil_eq (results.sum % 2 ^ 32) results.length hn]
  have hnone : balanceDecision results cur maxU = none ↔
      (cur : ℤ) - ((results.sum % 2 ^ 32 + results.length - 1) / results.length : ℕ) ≤ maxU := by
    rw [hdec]
    by_cases hlt : (results.sum % 2 ^ 32 + results.length - 1) / results.length + maxU < cur
    · rw [if_pos hlt]
      constructor
      · intro h; simp at h
      · intro h; omega
    · rw [if_neg hlt]
      constructor
      · intro _; omega
      · intro _; rfl
  refine ⟨hnone, ?_, ?_⟩
  · intro e he
    rw [hdec] at he
    by_cases hlt : (results.sum % 2 ^ 32 + results.length - 1) / results.length + maxU < cur
    · rw [if_pos hlt] at he
      simp only [Option.some.injEq] at he
      omega
    · rw [if_neg hlt] at he
      simp at he
  · intro hsum hall
    rw [hnone, Nat.mod_eq_of_lt hsum]
    have hs : results.sum = results.length * cur := by
      clear hnone hdec hle heq hn hsum
      induction results with
      | nil => simp
      | cons r rs ih =>
        have h3 := hall r (List.mem_cons_self _ _)
        have h4 := ih (fun p hp => hall p (List.mem_cons_of_mem _ hp))
        simp only [List.sum_cons, List.length_cons, Nat.succ_mul]
        omega
    have hq : (results.sum + results.length - 1) / results.length = cur := by
      rw [hs]
      have h5 : results.length * cur + results.length - 1 =
          (results.length - 1) + results.length * cur := by omega
      rw [h5, Nat.add_mul_div_left _ _ hn, Nat.div_eq_of_lt (by omega)]
      omega
    rw [hq]
    omega

/-- Witness of the amended C2: peers `[10, 0]`, local count 10, threshold 2. -/
theorem balancer_tie_witness :
    ((∀ p ∈ [10, 0], p ≤ 10) ∧ 10 ∈ [10, 0]) ∧
      (balanceDecision [10, 0] 10 2 = none ↔
        (10 : ℤ) -
          ⌈((([10, 0] : List Nat).sum % 2 ^ 32 : ℕ) : ℚ) / ([10, 0] : List Nat).length⌉₊ ≤ 2) :=
  ⟨by decide, (balancer_tie [10, 0] 10 2 (by decide) (by decide) (by decide)
    (by decide)).1⟩

end telnetmgr

/-! ### `getTimeseries`: the calls made by one iteration -/

namespace plot

theorem runGroup_calls {σ : Type} (P : Collaborators σ) (query : TSDBqueryPayload)
    (q : TSDBquery) (ttl : Int) (st : LoopState σ) (group : List TSDesc) :
    (∃ new, callsOf (runGroup P query q ttl st group) = st.calls ++ new ∧
      ∀ c ∈ new, c.isFetch ttl query.Start query.End query.MsResolution st.oldDs
        (if st.oldDs.Options.Fill ≠ "none".toList then true else false)) ∧
    (∀ st1, runGroup P query q ttl st group = .ok st1 → st1.oldDs = st.oldDs) := by
  unfold runGroup
  cases hfv : parseFilterValue P.ParseFloat q.FilterValue with
  | panicked => exact ⟨⟨[], by simp [callsOf], by simp⟩, by simp⟩
  | failed gerr => exact ⟨⟨[], by simp [callsOf], by simp⟩, by simp⟩
  | ok filterV =>
    simp only
    split
    · refine ⟨⟨_, rfl, ?_⟩, by simp⟩
      intro c hc
      rw [List.mem_singleton] at hc
      subst hc
      simp [Call.isFetch]
    · refine ⟨⟨_, rfl, ?_⟩, ?_⟩
      · intro c hc
        rw [List.mem_singleton] at hc
        subst hc
        simp [Call.isFetch]
      · intro st1 h
        simp only [Except.ok.injEq] at h
        rw [← h]

theorem runGroups_calls {σ : Type} (P : Collaborators σ) (query : TSDBqueryPayload)
    (q : TSDBquery) (ttl : Int) (st : LoopState σ) (groups : List (List TSDesc)) :
    (∃ new, callsOf (runGroups P query q ttl st groups) = st.calls ++ new ∧
      ∀ c ∈ new, c.isFetch ttl query.Start query.End query.MsResolution st.oldDs
        (if st.oldDs.Options.Fill ≠ "none".toList then true else false)) ∧
    (∀ st1, runGroups P query q ttl st groups = .ok st1 → st1.oldDs = st.oldDs) := by
  induction groups generalizing st with
  | nil => exact ⟨⟨[], by simp [runGroups, callsOf], by simp⟩, by simp [runGroups]⟩
  | cons g gs ih =>
    obtain ⟨⟨new1, h1, h2⟩, h3⟩ := runGroup_calls P query q ttl st g
    unfold runGroups
    cases hg : runGroup P query q ttl st g with
    | error fin =>
      rw [hg] at h1
      exact ⟨⟨new1, h1, h2⟩, by simp⟩
    | ok st1 =>
      rw [hg] at h1
      have hds := h3 st1 hg
      obtain ⟨⟨new2, g1, g2⟩, g3⟩ := ih st1
      simp only [callsOf] at h1
      rw [hds] at g2 g3
      refine ⟨⟨new1 ++ new2, ?_, ?_⟩, g3⟩
      · simp only
        rw [g1, h1, List.append_assoc]
      · intro c hc
        rcases List.mem_append.mp hc with hc | hc
        · exact h2 c hc
        · exact g2 c hc

theorem dispatchQuery_calls {σ : Type} (P : Collaborators σ) (plot : Plot) (keyset : GoString)
    (query : TSDBqueryPayload) (q : TSDBquery) (ttl : Int) (filters : List TSDBfilter)
    (st : LoopState σ) :
    (∃ new, callsOf (dispatchQuery P plot keyset query q ttl filters st) =
        st.calls ++ Call.index keyset q.Metric filters plot.MaxTimeseries :: new ∧
      ∀ c ∈ new, c.isFetch ttl query.Start query.End query.MsResolution st.oldDs
        (if st.oldDs.Options.Fill ≠ "none".toList then true else false)) ∧
    (∀ st1, dispatchQuery P plot keyset query q ttl filters st = .ok st1 →
      st1.oldDs = st.oldDs) := by
  unfold dispatchQuery
  simp only
  split
  · exact ⟨⟨[], by simp [callsOf], by simp⟩, by simp⟩
  · split
    · exact ⟨⟨[], by simp [callsOf], by simp⟩, by simp⟩
    · split
      · refine ⟨⟨[], by simp [callsOf], by simp⟩, ?_⟩
        intro st1 h
        simp only [Except.ok.injEq] at h
        rw [← h]
      · rename_i tsobs total _ _ _ _
        obtain ⟨⟨new, g1, g2⟩, g3⟩ := runGroups_calls P query q ttl
          { ext := (P.MetaFilterOpenTSDB st.ext keyset q.Metric filters plot.MaxTimeseries).2,
            calls := st.calls ++ [Call.index keyset q.Metric filters plot.MaxTimeseries],
            resps := st.resps, oldDs := st.oldDs, sumTotalPoints := st.sumTotalPoints,
            sumCountPoints := st.sumCountPoints }
          (P.GetGroups filters tsobs)
        refine ⟨⟨new, ?_, g2⟩, g3⟩
        rw [g1]
        simp

end plot

/-! ### `getTimeseries`: time resolution, claim C6 -/

namespace plot

theorem isFetch_hasWindow (ttl start stop : Int) (ms : Bool) (ds : Downsample) (k : Bool)
    (c : Call) (h : c.isFetch ttl start stop ms ds k) : c.hasWindow start stop := by
  cases c with
  | index a b f m => trivial
  | storage t ids s e opers m k2 =>
    simp only [Call.isFetch] at h
    exact ⟨h.2.1, h.2.2.1⟩

theorem runQuery_window {σ : Type} (P : Collaborators σ) (plot : Plot) (keyset : GoString)
    (query : TSDBqueryPayload) (st : LoopState σ) (q : TSDBquery)
    (h : ∀ c ∈ st.calls, c.hasWindow query.Start query.End) :
    ∀ c ∈ callsOf (runQuery P plot keyset query st q), c.hasWindow query.Start query.End := by
  unfold runQuery
  split
  · simpa [callsOf] using h
  · split
    · simpa [callsOf] using h
    · rename_i _ oldDs _ _ ttl filters _
      obtain ⟨⟨new, g1, g2⟩, -⟩ := dispatchQuery_calls P plot keyset query q ttl filters
        { st with oldDs := oldDs }
      rw [g1]
      intro c hc
      rcases List.mem_append.mp hc with hc | hc
      · exact h c hc
      · rcases List.mem_cons.mp hc with rfl | hc
        · trivial
        · exact isFetch_hasWindow _ _ _ _ _ _ c (g2 c hc)

theorem runQueries_window {σ : Type} (P : Collaborators σ) (plot : Plot) (keyset : GoString)
    (query : TSDBqueryPayload) (st : LoopState σ) (qs : List TSDBquery)
    (h : ∀ c ∈ st.calls, c.hasWindow query.Start query.End) :
    ∀ c ∈ callsOf (runQueries P plot keyset query st qs),
      c.hasWindow query.Start query.End := by
  induction qs generalizing st with
  | nil => simpa [runQueries, callsOf] using h
  | cons q qs ih =>
    have h1 := runQuery_window P plot keyset query st q h
    unfold runQueries
    cases hq : runQuery P plot keyset query st q with
    | error fin =>
      rw [hq] at h1
      simpa [callsOf] using h1
    | ok st1 =>
      rw [hq] at h1
      exact ih st1 (by simpa [callsOf] using h1)

theorem getTimeseries_calls_window {σ : Type} (P : Collaborators σ) (plot : Plot) (now : Int)
    (keyset : GoString) (query resolved : TSDBqueryPayload) (ext : σ)
    (h : resolveTime P now query = .ok resolved) :
    ∀ c ∈ (getTimeseries P plot now keyset query ext).calls,
      c.hasWindow resolved.Start resolved.End := by
  unfold getTimeseries
  rw [h]
  simp only
  have h1 := runQueries_window P plot keyset resolved
    { ext := ext, calls := [], resps := [], oldDs := Downsample.zero,
      sumTotalPoints := 0, sumCountPoints := 0 } resolved.Queries (by simp)
  split
  · rename_i fin hfin
    rw [hfin] at h1
    simpa [callsOf] using h1
  · rename_i st hst
    rw [hst] at h1
    simpa [callsOf] using h1

/-- C6, counterexample. With an empty relative expression, start `-5` and end
`10`, the run passes time resolution although `start > 0` fails: the metadata
index and the storage are called, the fetch window is `[-5, 10]`, and a
response is returned without error. -/
theorem getTimeseries_negative_start_counterexample :
    ¬ ((-5 : Int) > 0) ∧
      (getTimeseries sampleWorld samplePlot 5000 "k".toList
        (samplePayload (-5) 10 [sampleQuery [] []]) ()).calls.length = 2 ∧
      ∃ resp, (getTimeseries sampleWorld samplePlot 5000 "k".toList
        (samplePayload (-5) 10 [sampleQuery [] []]) ()).exit = Exit.returned [resp] none := by
  refine ⟨by decide, by decide, ?_⟩
  exact ⟨{ Metric := "cpu".toList, Tags := [("host".toList, "a".toList)], AggregatedTags := [],
           Dps := [("1".toList, DpsValue.num ⟨0⟩)], Tsuids := [] }, by decide⟩

/-- C6, amended. For a payload with an empty relative expression, write `stop`
for `now` when end = 0 and for end otherwise. `getTimeseries` passes time
resolution if and only if start ≠ 0 and `stop ≥ start`: in every other case
(start = 0, or `stop < start`) it returns a validation error and no responses
and calls neither the metadata index nor the storage; when it passes, the
window of every fetch is `[start, stop]`. -/
theorem getTimeseries_time_resolution {σ : Type} (P : Collaborators σ) (plot : Plot)
    (now : Int) (keyset : GoString) (query : TSDBqueryPayload) (ext : σ)
    (hrel : query.Relative = []) :
    (¬ (query.Start ≠ 0 ∧ (if query.End = 0 then now else query.End) ≥ query.Start) →
      ∃ gerr, gerr.kind = ErrorKind.validation ∧
        resolveTime P now query = .error gerr ∧
        getTimeseries P plot now keyset query ext =
          { ext := ext, calls := [], exit := Exit.returned [] (some gerr) }) ∧
    ((query.Start ≠ 0 ∧ (if query.End = 0 then now else query.End) ≥ query.Start) →
      resolveTime P now query =
        .ok { query with End := if query.End = 0 then now else query.End } ∧
      ∀ c ∈ (getTimeseries P plot now keyset query ext).calls,
        c.hasWindow query.Start (if query.End = 0 then now else query.End)) := by
  have key : resolveTime P now query =
      if query.Start = 0 then .error (errValidationS "getTimeseries" "start cannot be zero")
      else if (if query.End = 0 then now else query.End) < query.Start then
        .error (errValidationS "getTimeseries"
          "end date should be equal or bigger than start date")
      else .ok { query with End := if query.End = 0 then now else query.End } := by
    obtain ⟨rel, s, e, qs, ms, sh⟩ := query
    simp only at hrel
    subst hrel
    unfold resolveTime
    simp only [ne_eq, not_true_eq_false, if_false]
    by_cases h0 : s = 0
    · simp [h0]
    · by_cases he : e = 0
      · simp [h0, he]
      · simp [h0, he]
  constructor
  · intro hn
    by_cases h0 : query.Start = 0
    · refine ⟨errValidationS "getTimeseries" "start cannot be zero", rfl, ?_, ?_⟩
      · rw [key, if_pos h0]
      · unfold getTimeseries
        rw [key, if_pos h0]
    · have hlt : (if query.End = 0 then now else query.End) < query.Start := by
        by_contra hge
        exact hn ⟨h0, by omega⟩
      refine ⟨errValidationS "getTimeseries"
        "end date should be equal or bigger than start date", rfl, ?_, ?_⟩
      · rw [key, if_neg h0, if_pos hlt]
      · unfold getTimeseries
        rw [key, if_neg h0, if_pos hlt]
  · rintro ⟨h0, hge⟩
    have hlt : ¬ (if query.End = 0 then now else query.End) < query.Start := by omega
    have hr : resolveTime P now query =
        .ok { query with End := if query.End = 0 then now else query.End } := by
      rw [key, if_neg h0, if_neg hlt]
    exact ⟨hr, getTimeseries_calls_window P plot now keyset query _ ext hr⟩

/-- Witness of the amended C6: start `5`, end `0`, the clock at `100`. -/
theorem getTimeseries_time_resolution_witness :
    (samplePayload 5 0 [sampleQuery [] []]).Relative = [] ∧
      ∀ c ∈ (getTimeseries sampleWorld samplePlot 100 "k".toList
          (samplePayload 5 0 [sampleQuery [] []]) ()).calls, c.hasWindow 5 100 :=
  ⟨rfl, ((getTimeseries_time_resolution sampleWorld samplePlot 100 "k".toList
    (samplePayload 5 0 [sampleQuery [] []]) () rfl).2 ⟨by decide, by decide⟩).2⟩

end plot

/-! ### `getTimeseries`: legacy tags, claim C7 -/

theorem split_ne_nil (s : GoString) (c : Char) : split s c ≠ [] := by
  cases s with
  | nil => simp [split]
  | cons a s =>
    unfold split
    split
    · simp
    · split <;> simp

theorem split_of_not_mem (s : GoString) (c : Char) (h : c ∉ s) : split s c = [s] := by
  induction s with
  | nil => simp [split]
  | cons a s ih =>
    have ha : a ≠ c := fun e => h (by simp [e])
    have hs : c ∉ s := fun e => h (List.mem_cons_of_mem _ e)
    unfold split
    rw [if_neg ha, ih hs]

theorem split_append_sep (a b : GoString) (c : Char) (h : c ∉ a) :
    split (a ++ c :: b) c = a :: split b c := by
  induction a with
  | nil =>
    show split (c :: b) c = _
    rw [split, if_pos rfl]
  | cons x a ih =>
    have hx : x ≠ c := fun e => h (by simp [e])
    have ha : c ∉ a := fun e => h (List.mem_cons_of_mem _ e)
    show split (x :: (a ++ c :: b)) c = _
    rw [split, if_neg hx, ih ha]

theorem split_length_gt_one (s : GoString) (c : Char) :
    (split s c).length > 1 ↔ c ∈ s := by
  induction s with
  | nil => simp [split]
  | cons a s ih =>
    by_cases ha : a = c
    · subst ha
      have hne := split_ne_nil s a
      have hpos : 0 < (split s a).length := List.length_pos.mpr hne
      rw [split, if_pos rfl]
      simp only [List.length_cons, List.mem_cons, true_or, iff_true]
      omega
    · have hlen : (split (a :: s) c).length = (split s c).length := by
        rw [split, if_neg ha]
        cases hsp : split s c with
        | nil => exact absurd hsp (split_ne_nil s c)
        | cons x xs => simp
      rw [hlen, ih]
      constructor
      · intro h; exact List.mem_cons_of_mem _ h
      · intro h
        rcases List.mem_cons.mp h with h | h
        · exact absurd h.symm ha
        · exact h

namespace plot

theorem groupBy_condition (v : GoString) :
    ((split v '|').head? = some "*".toList ∨ (split v '|').length > 1) ↔
      (v = "*".toList ∨ '|' ∈ v) := by
  rw [split_length_gt_one]
  by_cases hp : '|' ∈ v
  · simp [hp]
  · rw [split_of_not_mem v '|' hp]
    simp [hp]

theorem lowerTags_eq (filters : List TSDBfilter) (tags : List (GoString × GoString)) :
    lowerTags filters tags = filters ++ tags.map (fun kv =>
      ({ Ftype := "wildcard".toList, Tagk := kv.1, Filter := kv.2,
         GroupBy := decide (kv.2 = "*".toList ∨ '|' ∈ kv.2) } : TSDBfilter)) := by
  induction tags generalizing filters with
  | nil => simp [lowerTags]
  | cons kv tags ih =>
    obtain ⟨k, v⟩ := kv
    unfold lowerTags
    simp only
    rw [ih]
    by_cases h : v = "*".toList ∨ '|' ∈ v
    · rw [if_pos ((groupBy_condition v).mpr h)]
      simpa using h
    · rw [if_neg (fun e => h ((groupBy_condition v).mp e))]
      simpa using h

/-- C7, counterexample. The legacy tag `host = web*` contains the character
`*`, yet the filter appended for it has `group_by = false`. -/
theorem lowerTags_star_counterexample :
    '*' ∈ "web*".toList ∧
      lowerTags [] [("host".toList, "web*".toList)] =
        [{ Ftype := "wildcard".toList, Tagk := "host".toList, Filter := "web*".toList,
           GroupBy := false }] := by
  decide

/-- C7, amended. For every entry `(k, v)` of a sub-query's legacy tag map, in
the order the map is ranged over, `getTimeseries` appends to the sub-query's
filters one filter `{type wildcard, tag_key k, pattern v}` whose `group_by` is
true if and only if `v` is exactly `*` or `v` contains the character `|`. -/
theorem lowerTags_groupBy (filters : List TSDBfilter) (tags : List (GoString × GoString)) :
    lowerTags filters tags = filters ++ tags.map (fun kv =>
      ({ Ftype := "wildcard".toList, Tagk := kv.1, Filter := kv.2,
         GroupBy := decide (kv.2 = "*".toList ∨ '|' ∈ kv.2) } : TSDBfilter)) :=
  lowerTags_eq filters tags

end plot

/-! ### `getTimeseries`: ttl extraction, claim C8 -/

namespace plot

theorem any_tagMapAppend (m : List (GoString × List GoString)) (k v k2 : GoString) :
    (tagMapAppend m k v).any (fun e => decide (e.1 = k2)) =
      m.any (fun e => decide (e.1 = k2)) := by
  induction m with
  | nil => rfl
  | cons e m ih =>
    simp only [tagMapAppend, List.map_cons, List.any_cons] at ih ⊢
    rw [ih]
    by_cases h : e.1 = k <;> simp [h]

theorem scanFilters_has_ttl (fs : List TSDBfilter) (i : Int)
    (m : List (GoString × List GoString)) (ttl idx : Int)
    (h : m.any (fun e => decide (e.1 = "ttl".toList)) = true) :
    scanFilters fs i m ttl idx = .ok (ttl, idx) := by
  induction fs generalizing i m with
  | nil => rfl
  | cons f fs ih =>
    unfold scanFilters
    by_cases h1 : m.any (fun e => decide (e.1 = f.Tagk)) = true
    · rw [if_pos h1]
      exact ih _ _ (by rw [any_tagMapAppend]; exact h)
    · rw [if_neg h1]
      by_cases h2 : f.Tagk = "ttl".toList
      · rw [h2] at h1
        exact absurd h h1
      · rw [if_neg h2]
        exact ih _ _ (by rw [List.any_append, h]; rfl)

theorem scanFilters_skip (pre : List TSDBfilter) (hpre : ∀ g ∈ pre, g.Tagk ≠ "ttl".toList)
    (i : Int) (m : List (GoString × List GoString)) (ttl idx : Int)
    (hm : m.any (fun e => decide (e.1 = "ttl".toList)) = false) :
    ∃ m2 : List (GoString × List GoString),
      m2.any (fun e => decide (e.1 = "ttl".toList)) = false ∧
      ∀ rest, scanFilters (pre ++ rest) i m ttl idx =
        scanFilters rest (i + pre.length) m2 ttl idx := by
  induction pre generalizing i m with
  | nil => exact ⟨m, hm, by simp⟩
  | cons f pre ih =>
    have hf : f.Tagk ≠ "ttl".toList := hpre f (List.mem_cons_self _ _)
    have hrest : ∀ g ∈ pre, g.Tagk ≠ "ttl".toList :=
      fun g hg => hpre g (List.mem_cons_of_mem _ hg)
    by_cases h1 : m.any (fun e => decide (e.1 = f.Tagk)) = true
    · obtain ⟨m2, g1, g2⟩ := ih hrest (i + 1) (tagMapAppend m f.Tagk f.Filter)
        (by rw [any_tagMapAppend]; exact hm)
      refine ⟨m2, g1, ?_⟩
      intro rest
      rw [List.cons_append, scanFilters, if_pos h1, g2 rest]
      congr 1
      simp only [List.length_cons, Nat.cast_add, Nat.cast_one]
      omega
    · obtain ⟨m2, g1, g2⟩ := ih hrest (i + 1) (m ++ [(f.Tagk, [f.Filter])])
        (by
          rw [List.any_append, hm]
          simp only [List.any_cons, List.any_nil, Bool.or_false, Bool.false_or,
            decide_eq_false_iff_not]
          exact hf)
      refine ⟨m2, g1, ?_⟩
      intro rest
      rw [List.cons_append, scanFilters, if_neg h1, if_neg hf, g2 rest]
      congr 1
      simp only [List.length_cons, Nat.cast_add, Nat.cast_one]
      omega

theorem extractTTL_none (d : Int) (fs : List TSDBfilter)
    (h : ∀ g ∈ fs, g.Tagk ≠ "ttl".toList) : extractTTL d fs = .ok (d, fs) := by
  obtain ⟨m2, -, g2⟩ := scanFilters_skip fs h 0 [] d (-1) rfl
  have := g2 []
  rw [List.append_nil] at this
  unfold extractTTL
  rw [this]
  simp [scanFilters]

theorem extractTTL_first (d : Int) (pre post : List TSDBfilter) (f : TSDBfilter) (v : Int)
    (hpre : ∀ g ∈ pre, g.Tagk ≠ "ttl".toList) (hf : f.Tagk = "ttl".toList)
    (hv : atoi f.Filter = (v, none)) :
    extractTTL d (pre ++ f :: post) = .ok (v, pre ++ post) := by
  obtain ⟨m2, g1, g2⟩ := scanFilters_skip pre hpre 0 [] d (-1) rfl
  have hnot : ¬ (m2.any (fun e => decide (e.1 = f.Tagk)) = true) := by
    rw [hf, g1]; simp
  have hscan : scanFilters (pre ++ f :: post) 0 [] d (-1) = .ok (v, (pre.length : Int)) := by
    rw [g2, scanFilters, if_neg hnot, if_pos hf, hv]
    simp only
    rw [scanFilters_has_ttl _ _ _ _ _ (by rw [List.any_append, hf]; simp)]
    simp
  unfold extractTTL
  rw [hscan]
  simp

/-- C8, counterexample. The filters `ttl=7, ttl=9, host=a` all have integer
patterns, yet the list passed to the metadata index still holds the filter
`ttl=9`. -/
theorem getTimeseries_two_ttl_counterexample :
    (getTimeseries sampleWorld samplePlot 5000 "k".toList
      (samplePayload 1 10 [sampleQuery []
        [plainFilter "ttl" "7", plainFilter "ttl" "9", plainFilter "host" "a"]]) ()).calls.head? =
      some (Call.index "k".toList "cpu".toList
        [plainFilter "ttl" "9", plainFilter "host" "a"] 100) := by
  decide

/-- C8, amended. For a sub-query that reaches the ttl extraction: if its filter
list (after legacy tag lowering) holds a filter with tag_key `ttl` and the
first such filter has an integer pattern, the list passed to the metadata
index and to grouping is the list without that first ttl filter, every other
filter (a later ttl filter included) in its original order, and the ttl passed
to storage is the integer of that first ttl filter. If no filter has tag_key
`ttl`, the list is passed unchanged and the configured default TTL is used. -/
theorem runQuery_ttl {σ : Type} (P : Collaborators σ) (plot : Plot) (keyset : GoString)
    (query : TSDBqueryPayload) (st : LoopState σ) (q : TSDBquery) (oldDs : Downsample)
    (hds : applyDownsample st.oldDs q.Downsample = some oldDs) :
    (∀ pre f post v, lowerTags q.Filters q.Tags = pre ++ f :: post →
      (∀ g ∈ pre, g.Tagk ≠ "ttl".toList) → f.Tagk = "ttl".toList →
      atoi f.Filter = (v, none) →
        runQuery P plot keyset query st q =
          dispatchQuery P plot keyset query q v (pre ++ post) { st with oldDs := oldDs } ∧
        ∃ new, callsOf (runQuery P plot keyset query st q) =
            st.calls ++ Call.index keyset q.Metric (pre ++ post) plot.MaxTimeseries :: new ∧
          ∀ c ∈ new, c.isFetch v query.Start query.End query.MsResolution oldDs
            (if oldDs.Options.Fill ≠ "none".toList then true else false)) ∧
    ((∀ g ∈ lowerTags q.Filters q.Tags, g.Tagk ≠ "ttl".toList) →
        runQuery P plot keyset query st q =
          dispatchQuery P plot keyset query q plot.defaultTTL (lowerTags q.Filters q.Tags)
            { st with oldDs := oldDs } ∧
        ∃ new, callsOf (runQuery P plot keyset query st q) =
            st.calls ++ Call.index keyset q.Metric (lowerTags q.Filters q.Tags)
              plot.MaxTimeseries :: new ∧
          ∀ c ∈ new, c.isFetch plot.defaultTTL query.Start query.End query.MsResolution oldDs
            (if oldDs.Options.Fill ≠ "none".toList then true else false)) := by
  constructor
  · intro pre f post v hfs hpre hf hv
    have hrun : runQuery P plot keyset query st q =
        dispatchQuery P plot keyset query q v (pre ++ post) { st with oldDs := oldDs } := by
      unfold runQuery
      rw [hds, hfs, extractTTL_first plot.defaultTTL pre post f v hpre hf hv]
    refine ⟨hrun, ?_⟩
    rw [hrun]
    exact (dispatchQuery_calls P plot keyset query q v (pre ++ post)
      { st with oldDs := oldDs }).1
  · intro hnone
    have hrun : runQuery P plot keyset query st q =
        dispatchQuery P plot keyset query q plot.defaultTTL (lowerTags q.Filters q.Tags)
          { st with oldDs := oldDs } := by
      unfold runQuery
      rw [hds, extractTTL_none plot.defaultTTL _ hnone]
    refine ⟨hrun, ?_⟩
    rw [hrun]
    exact (dispatchQuery_calls P plot keyset query q plot.defaultTTL _
      { st with oldDs := oldDs }).1

/-- Witness of the amended C8 on the filters `ttl=7, ttl=9, host=a`. -/
theorem runQuery_ttl_witness :
    applyDownsample sampleState.oldDs (sampleQuery []
        [plainFilter "ttl" "7", plainFilter "ttl" "9", plainFilter "host" "a"]).Downsample =
        some Downsample.zero ∧
      ∃ new, callsOf (runQuery sampleWorld samplePlot "k".toList (samplePayload 1 10 [])
          sampleState (sampleQuery []
            [plainFilter "ttl" "7", plainFilter "ttl" "9", plainFilter "host" "a"])) =
          sampleState.calls ++ Call.index "k".toList "cpu".toList
            ([] ++ [plainFilter "ttl" "9", plainFilter "host" "a"]) 100 :: new ∧
        ∀ c ∈ new, c.isFetch 7 1 10 false Downsample.zero true :=
  ⟨rfl, ((runQuery_ttl sampleWorld samplePlot "k".toList (samplePayload 1 10 []) sampleState
    (sampleQuery [] [plainFilter "ttl" "7", plainFilter "ttl" "9", plainFilter "host" "a"])
    Downsample.zero rfl).1 [] (plainFilter "ttl" "7")
    [plainFilter "ttl" "9", plainFilter "host" "a"] 7 rfl (by simp) rfl (by decide)).2⟩

end plot

/-! ### `getTimeseries`: downsample and keep-empty, claims C9, C10 -/

theorem digit_fold_ge (s : GoString) (n : Nat) :
    n ≤ s.foldl (fun n c => n * 10 + (c.toNat - '0'.toNat)) n := by
  induction s generalizing n with
  | nil => exact Nat.le_refl _
  | cons c cs ih =>
    simp only [List.foldl_cons]
    exact Nat.le_trans (by omega) (ih _)

theorem parseUintLoop_numeral (s : GoString) (n : Nat)
    (hd : ∀ c ∈ s, '0' ≤ c ∧ c ≤ '9')
    (hv : s.foldl (fun n c => n * 10 + (c.toNat - '0'.toNat)) n < 2 ^ 63) :
    parseUintLoop s n = (s.foldl (fun n c => n * 10 + (c.toNat - '0'.toNat)) n, none) := by
  induction s generalizing n with
  | nil => rfl
  | cons c cs ih =>
    simp only [List.foldl_cons] at hv ⊢
    have hge := digit_fold_ge cs (n * 10 + (c.toNat - '0'.toNat))
    have h1 : ¬ n ≥ 1844674407370955162 := by omega
    have h2 : ¬ n * 10 + (c.toNat - '0'.toNat) > 2 ^ 64 - 1 := by omega
    unfold parseUintLoop
    rw [if_pos (hd c (List.mem_cons_self _ _)), if_neg h1]
    simp only
    rw [if_neg h2]
    exact ih _ (fun d hd2 => hd d (List.mem_cons_of_mem _ hd2)) hv

theorem digit_not_sign (c : Char) (h : '0' ≤ c) : c ≠ '+' ∧ c ≠ '-' := by
  constructor <;> (rintro rfl; revert h; decide)

theorem digit_ne_m (c : Char) (h : c ≤ '9') : c ≠ 'm' := by
  rintro rfl; revert h; decide

theorem digit_ne_dash (c : Char) (h : '0' ≤ c) : c ≠ '-' := (digit_not_sign c h).2

namespace plot

theorem isNumeral_iff (s : GoString) :
    isNumeral s = true ↔ s ≠ [] ∧ ∀ c ∈ s, '0' ≤ c ∧ c ≤ '9' := by
  simp [isNumeral, List.all_eq_true]

theorem atoi_numeral (s : GoString) (hs : isNumeral s = true) (hv : decimalValue s < 2 ^ 63) :
    atoi s = ((decimalValue s : Int), none) := by
  rw [isNumeral_iff] at hs
  obtain ⟨hne, hd⟩ := hs
  have hloop := parseUintLoop_numeral s 0 hd hv
  cases s with
  | nil => exact absurd rfl hne
  | cons c cs =>
    obtain ⟨hp, hm⟩ := digit_not_sign c (hd c (List.mem_cons_self _ _)).1
    have hpu : parseUint (c :: cs) = (decimalValue (c :: cs), none) := by
      unfold parseUint
      rw [if_neg hne]
      exact hloop
    have hlt : ¬ decimalValue (c :: cs) ≥ 2 ^ 63 := by omega
    unfold atoi
    simp only [if_neg hp, if_neg hm]
    unfold parseIntSigned
    rw [hpu]
    simp only [Bool.not_false, ge_iff_le, true_and, if_neg hlt, Bool.false_eq_true, false_and,
      if_false]

theorem byteLen_append (a b : GoString) : byteLen (a ++ b) = byteLen a + byteLen b := by
  simp [byteLen]

theorem byteLen_pos (a : GoString) (h : a ≠ []) : 1 ≤ byteLen a := by
  cases a with
  | nil => exact absurd rfl h
  | cons c cs =>
    have := Char.utf8Size_pos c
    simp only [byteLen, List.map_cons, List.sum_cons]
    omega

theorem unit_cases (unit name : GoString) (h : (unit, name) ∈ unitTable) :
    (unit = "ms".toList ∧ name = "ms".toList) ∨
      (∃ c, unit = [c] ∧ byteLen [c] = 1 ∧ ∀ old, unitName [c] old = name) := by
  simp only [unitTable, List.mem_cons, Prod.mk.injEq, List.mem_singleton, List.not_mem_nil,
    or_false] at h
  rcases h with h | h | h | h | h | h | h | h
  · exact Or.inl h
  all_goals
    obtain ⟨h1, h2⟩ := h
    subst h1 h2
    exact Or.inr ⟨_, rfl, by decide, fun old => rfl⟩

/-- The unit and the value read from the first token `<N><unit>`. -/
theorem unitVal_numeral (oldUnit num unit name : GoString)
    (hnum : isNumeral num = true) (hunit : (unit, name) ∈ unitTable) :
    2 ≤ byteLen (num ++ unit) ∧
    unitName (if (num ++ unit).drop ((num ++ unit).length - 2) = "ms".toList then
        ((num ++ unit).drop ((num ++ unit).length - 2),
          (atoi ((num ++ unit).take ((num ++ unit).length - 2))).1)
      else if byteLen ((num ++ unit).drop ((num ++ unit).length - 1)) = 1 then
        ((num ++ unit).drop ((num ++ unit).length - 1),
          (atoi ((num ++ unit).take ((num ++ unit).length - 1))).1)
      else ((num ++ unit).drop ((num ++ unit).length - 1), (atoi (num ++ unit)).1)).1
      oldUnit = name ∧
    (if (num ++ unit).drop ((num ++ unit).length - 2) = "ms".toList then
        ((num ++ unit).drop ((num ++ unit).length - 2),
          (atoi ((num ++ unit).take ((num ++ unit).length - 2))).1)
      else if byteLen ((num ++ unit).drop ((num ++ unit).length - 1)) = 1 then
        ((num ++ unit).drop ((num ++ unit).length - 1),
          (atoi ((num ++ unit).take ((num ++ unit).length - 1))).1)
      else ((num ++ unit).drop ((num ++ unit).length - 1), (atoi (num ++ unit)).1)).2
      = (atoi num).1 := by
  have hn := (isNumeral_iff num).mp hnum
  have hlen : 1 ≤ num.length := List.length_pos.mpr hn.1
  have hb1 := byteLen_pos num hn.1
  have dropOne : ∀ c : Char, (num ++ [c]).drop ((num ++ [c]).length - 1) = [c] := by
    intro c
    have : (num ++ [c]).length - 1 = num.length := by simp
    rw [this, List.drop_left]
  have takeOne : ∀ c : Char, (num ++ [c]).take ((num ++ [c]).length - 1) = num := by
    intro c
    have : (num ++ [c]).length - 1 = num.length := by simp
    rw [this, List.take_left]
  have dropTwo : ∀ c : Char, ∃ d, d ∈ num ∧
      (num ++ [c]).drop ((num ++ [c]).length - 2) = [d, c] := by
    intro c
    have hl : (num ++ [c]).length - 2 = num.length - 1 := by simp
    rw [hl]
    obtain ⟨ini, d, rfl⟩ : ∃ ini d, num = ini ++ [d] := by
      rcases List.eq_nil_or_concat num with h | ⟨ini, d, h⟩
      · exact absurd h hn.1
      · exact ⟨ini, d, by simpa using h⟩
    refine ⟨d, by simp, ?_⟩
    have : (ini ++ [d]).length - 1 = ini.length := by simp
    rw [this, List.append_assoc, List.drop_left]
    rfl
  rcases unit_cases unit name hunit with ⟨hu, hname⟩ | ⟨c, hu, hbl, hun⟩
  · subst hu hname
    have hd : (num ++ "ms".toList).drop ((num ++ "ms".toList).length - 2) = "ms".toList := by
      have : (num ++ "ms".toList).length - 2 = num.length := by simp
      rw [this, List.drop_left]
    have ht : (num ++ "ms".toList).take ((num ++ "ms".toList).length - 2) = num := by
      have : (num ++ "ms".toList).length - 2 = num.length := by simp
      rw [this, List.take_left]
    refine ⟨?_, ?_, ?_⟩
    · rw [byteLen_append]
      have : byteLen "ms".toList = 2 := by decide
      omega
    · rw [if_pos hd, hd]; rfl
    · rw [if_pos hd, ht]
  · subst hu
    obtain ⟨d, hdm, hd2⟩ := dropTwo c
    have hne : ¬ (num ++ [c]).drop ((num ++ [c]).length - 2) = "ms".toList := by
      rw [hd2]
      intro h
      have : d = 'm' := by
        have h2 := congrArg (fun l => l.head?) h
        simpa using h2
      exact digit_ne_m d (hn.2 d hdm).2 this
    refine ⟨?_, ?_, ?_⟩
    · rw [byteLen_append]; omega
    · rw [if_neg hne, dropOne c, if_pos hbl]
      exact hun oldUnit
    · rw [if_neg hne, dropOne c, if_pos hbl, takeOne c]


theorem unit_no_dash (unit name : GoString) (h : (unit, name) ∈ unitTable) : '-' ∉ unit := by
  simp only [unitTable, List.mem_cons, Prod.mk.injEq, List.mem_singleton, List.not_mem_nil,
    or_false] at h
  rcases h with h | h | h | h | h | h | h | h <;>
    (obtain ⟨h1, -⟩ := h; subst h1; decide)

theorem split_downsampleText (num unit name fn : GoString) (fill : Option GoString)
    (hnum : isNumeral num = true) (hunit : (unit, name) ∈ unitTable)
    (hfn : '-' ∉ fn) (hfill : ∀ f, fill = some f → '-' ∉ f) :
    split (downsampleText num unit fn fill) '-' =
      (num ++ unit) :: fn :: (match fill with
        | none => []
        | some f => [f]) := by
  have hn := (isNumeral_iff num).mp hnum
  have hd0 : '-' ∉ num ++ unit := by
    intro h
    rcases List.mem_append.mp h with h | h
    · exact digit_ne_dash _ (hn.2 _ h).1 rfl
    · exact unit_no_dash unit name hunit h
  cases fill with
  | none =>
    have e : downsampleText num unit fn none = (num ++ unit) ++ '-' :: fn := by
      simp [downsampleText]
    rw [e, split_append_sep _ _ _ hd0, split_of_not_mem _ _ hfn]
  | some f =>
    have e : downsampleText num unit fn (some f) = (num ++ unit) ++ '-' :: (fn ++ '-' :: f) := by
      simp [downsampleText]
    rw [e, split_append_sep _ _ _ hd0, split_append_sep _ _ _ hfn,
      split_of_not_mem _ _ (hfill f rfl)]

/-- C9. For a downsample spec `<N><unit>-<fn>` or `<N><unit>-<fn>-<fill>` with
`N` a non-empty decimal numeral below `2 ^ 63`, a unit of the table (`ms`,
`s`, `m`, `h`, `d`, `w`, `n`, `y`) and tokens without `-`, the downsample block
of `getTimeseries` does not panic and builds the options: enabled, value `N`,
the unit name of the table (`n` is month, `m` is min), the function `fn` with
`count` replaced by `pnt`, and the fill token, or `none` without one. -/
theorem applyDownsample_spec (oldDs : Downsample) (num unit name fn : GoString)
    (fill : Option GoString) (hnum : isNumeral num = true) (hval : decimalValue num < 2 ^ 63)
    (hunit : (unit, name) ∈ unitTable) (hfn : '-' ∉ fn)
    (hfill : ∀ f, fill = some f → '-' ∉ f) :
    applyDownsample oldDs (downsampleText num unit fn fill) = some
      { Enabled := true
        Options :=
          { Downsample := if fn = "count".toList then "pnt".toList else fn
            Unit := name
            Value := (decimalValue num : Int)
            Fill := fill.getD "none".toList } } := by
  have hn := (isNumeral_iff num).mp hnum
  obtain ⟨h1, h2, h3⟩ := unitVal_numeral oldDs.Options.Unit num unit name hnum hunit
  have hne : downsampleText num unit fn fill ≠ [] := by
    cases hnum2 : num with
    | nil => exact absurd hnum2 hn.1
    | cons c cs => simp [downsampleText]
  have hb : ¬ byteLen (num ++ unit) < 2 := by omega
  unfold applyDownsample
  rw [if_pos hne]
  unfold parseDownsample
  rw [split_downsampleText num unit name fn fill hnum hunit hfn hfill]
  simp only [if_neg hb]
  rw [h2, h3, atoi_numeral num hnum hval]
  cases fill <;> rfl

/-- Witness of C9 on the spec `500ms-avg-null`. -/
theorem applyDownsample_spec_witness :
    applyDownsample Downsample.zero "500ms-avg-null".toList = some
      { Enabled := true
        Options :=
          { Downsample := "avg".toList, Unit := "ms".toList, Value := 500,
            Fill := "null".toList } } :=
  applyDownsample_spec Downsample.zero "500".toList "ms".toList "ms".toList "avg".toList
    (some "null".toList) (by decide) (by decide) (by decide) (by decide)
    (by intro f hf; cases hf; decide)

/-- C10, evaluation at the failing input. A single sub-query without a
downsample spec is fetched with `keepEmpty = true`: the fill of the zero-valued
`oldDs` is the empty string, which differs from `none`; with the spec `1m-avg`,
which has no fill token either, the fetch has `keepEmpty = false`. -/
theorem getTimeseries_keepEmpty_without_downsample :
    (getTimeseries sampleWorld samplePlot 5000 "k".toList
      (samplePayload 1 10 [sampleQuery [] []]) ()).calls =
      [Call.index "k".toList "cpu".toList [] 100,
       Call.storage 1 ["ts1".toList] 1 10
        { Downsample := Downsample.zero
          Merge := "sum".toList
          Rate := { Enabled := false,
                    Options := { Counter := false, CounterMax := some (2 ^ 63 - 1),
                                 ResetValue := 0 } }
          FilterValue := { Enabled := false, BoolOper := [], Value := ⟨0⟩ }
          Order := [] } false true] ∧
    (getTimeseries sampleWorld samplePlot 5000 "k".toList
      (samplePayload 1 10 [sampleQuery "1m-avg".toList []]) ()).calls =
      [Call.index "k".toList "cpu".toList [] 100,
       Call.storage 1 ["ts1".toList] 1 10
        { Downsample := { Enabled := true,
                          Options := { Downsample := "avg".toList, Unit := "min".toList,
                                       Value := 1, Fill := "none".toList } }
          Merge := "sum".toList
          Rate := { Enabled := false,
                    Options := { Counter := false, CounterMax := some (2 ^ 63 - 1),
                                 ResetValue := 0 } }
          FilterValue := { Enabled := false, BoolOper := [], Value := ⟨0⟩ }
          Order := [] } false false] := by
  decide

end plot

/-! ### Claims C11, C15, C16, C19, C20 -/

namespace plot

/-- C11, evaluation at the failing inputs. A sub-query with filter-value `5`
or `>` (one byte) makes `getTimeseries` panic on the slice
`q.FilterValue[:2]`; with filter-value `abc` (no operator) no error is
returned: the storage is fetched with an enabled filter-value operation whose
operator is empty. An operator without a number (`>=`) is a validation
error. -/
theorem getTimeseries_filterValue_failures :
    (getTimeseries sampleWorld samplePlot 5000 "k".toList
      (samplePayload 1 10 [{ sampleQuery [] [] with FilterValue := "5".toList }]) ()).exit =
      Exit.panicked ∧
    (getTimeseries sampleWorld samplePlot 5000 "k".toList
      (samplePayload 1 10 [{ sampleQuery [] [] with FilterValue := ">".toList }]) ()).exit =
      Exit.panicked ∧
    (getTimeseries sampleWorld samplePlot 5000 "k".toList
      (samplePayload 1 10 [{ sampleQuery [] [] with FilterValue := "abc".toList }]) ()).calls =
      [Call.index "k".toList "cpu".toList [] 100,
       Call.storage 1 ["ts1".toList] 1 10
        { Downsample := Downsample.zero
          Merge := "sum".toList
          Rate := { Enabled := false,
                    Options := { Counter := false, CounterMax := some (2 ^ 63 - 1),
                                 ResetValue := 0 } }
          FilterValue := { Enabled := true, BoolOper := [], Value := ⟨0⟩ }
          Order := [] } false true] ∧
    (getTimeseries sampleWorld samplePlot 5000 "k".toList
      (samplePayload 1 10 [{ sampleQuery [] [] with FilterValue := ">=".toList }]) ()).exit =
      Exit.returned [] (some (errValidationE "getTimeseries" "invalid syntax")) := by
  decide

/-- C14, counterexample. Two sub-queries, the storage answers the first fetch
and fails on the second: `getTimeseries` returns the error together with the
response entry of the first sub-query. -/
theorem getTimeseries_fetch_error_counterexample :
    (getTimeseries flakyWorld samplePlot 5 "k".toList
      (samplePayload 1 10 [sampleQuery [] [], sampleQuery [] []]) 0).exit =
      Exit.returned
        [{ Metric := "cpu".toList, Tags := [("host".toList, "a".toList)], AggregatedTags := [],
           Dps := [("1".toList, DpsValue.num ⟨0⟩)], Tsuids := [] }]
        (some { kind := ErrorKind.external, func := "GetTimeSeries", message := "storage" }) := by
  decide

theorem runGroups_error {σ : Type} (P : Collaborators σ) (query : TSDBqueryPayload)
    (q : TSDBquery) (ttl : Int) (st : LoopState σ) (group : List TSDesc)
    (rest : List (List TSDesc)) (fin : Final σ)
    (h : runGroup P query q ttl st group = .error fin) :
    runGroups P query q ttl st (group :: rest) = .error fin := by
  rw [runGroups, h]

theorem runQueries_error {σ : Type} (P : Collaborators σ) (plot : Plot) (keyset : GoString)
    (query : TSDBqueryPayload) (st : LoopState σ) (q : TSDBquery) (rest : List TSDBquery)
    (fin : Final σ) (h : runQuery P plot keyset query st q = .error fin) :
    runQueries P plot keyset query st (q :: rest) = .error fin := by
  rw [runQueries, h]

theorem Query_of_error {σ : Type} (P : Collaborators σ) (plot : Plot) (now : Int)
    (keyset : GoString) (query : TSDBqueryPayload) (ext : σ) (resps : List TSDBresponse)
    (gerr : GobolError)
    (h : (getTimeseries P plot now keyset query ext).exit = Exit.returned resps (some gerr)) :
    Query P plot now keyset query ext = Reply.fail gerr := by
  rw [Query, h]

/-- C15, evaluation at the failing input. With `maxConcurrentTimeseries = -1`
and the other three values 1 none of the four conditions of `New` holds, and
`New` returns neither an init error nor a plot: `make(chan struct{}, -1)`
panics. The value 0 of each of the three other parameters is rejected with an
init error by a check `< 1`; `maxConcurrentTimeseries` has no such check. -/
theorem New_negative_timeseries_gate_panics :
    ¬ ((1 : Int) < 1 ∨ (1 : Int) < 1 ∨ (1 : Int) < 1 ∨ (-1 : Int) > 1) ∧
      New 1 (-1) 1 1 = NewResult.panicked ∧
      New 0 1 1 1 = NewResult.failed (errInit "MaxTimeseries needs to be bigger than zero") ∧
      New 1 1 0 1 =
        NewResult.failed (errInit "MaxConcurrentReads needs to be bigger than zero") ∧
      New 1 1 1 0 =
        NewResult.failed (errInit "LogQueryTSthreshold needs to be bigger than zero") ∧
      New 1 2 1 1 = NewResult.failed
        (errInit "maxConcurrentTimeseries cannot be bigger than maxConcurrentReads") ∧
      New 1 1 1 1 = NewResult.created
        { MaxTimeseries := 1, LogQueryThreshold := 1, concTimeseries := 1, concReads := 1 } := by
  decide

/-- C19, evaluation at the failing input. Two sub-queries, the first with the
downsample spec `1m-avg-null`, the second with an empty spec: the second is
fetched with the downsample operation of the first, enabled, and with
`keepEmpty = true`. -/
theorem getTimeseries_downsample_carried_over :
    (getTimeseries sampleWorld samplePlot 5000 "k".toList
      (samplePayload 1 10 [sampleQuery "1m-avg-null".toList [], sampleQuery [] []]) ()).calls =
      [Call.index "k".toList "cpu".toList [] 100,
       Call.storage 1 ["ts1".toList] 1 10
        { Downsample := { Enabled := true,
                          Options := { Downsample := "avg".toList, Unit := "min".toList,
                                       Value := 1, Fill := "null".toList } }
          Merge := "sum".toList
          Rate := { Enabled := false,
                    Options := { Counter := false, CounterMax := some (2 ^ 63 - 1),
                                 ResetValue := 0 } }
          FilterValue := { Enabled := false, BoolOper := [], Value := ⟨0⟩ }
          Order := [] } false true,
       Call.index "k".toList "cpu".toList [] 100,
       Call.storage 1 ["ts1".toList] 1 10
        { Downsample := { Enabled := true,
                          Options := { Downsample := "avg".toList, Unit := "min".toList,
                                       Value := 1, Fill := "null".toList } }
          Merge := "sum".toList
          Rate := { Enabled := false,
                    Options := { Counter := false, CounterMax := some (2 ^ 63 - 1),
                                 ResetValue := 0 } }
          FilterValue := { Enabled := false, BoolOper := [], Value := ⟨0⟩ }
          Order := [] } false true] := by
  decide

end plot

namespace telnetmgr

/-- C16, evaluation. `Shutdown` leaves the `terminate` flag as it was: after
the shutdown of a running manager with two peers and one server the server no
longer listens, the flag is still unset, and the next balancer tick polls the
peers again. -/
theorem Shutdown_leaves_terminate :
    sampleManager.Shutdown =
      { sampleManager with
        servers := [{ name := "s1".toList, listening := false, denyNew := false }] } ∧
    sampleManager.Shutdown.terminate = false ∧
    sampleManager.Shutdown.tickPolls = true := by
  decide

/-- C20, evaluation at the failing input. Peers `p1, p2`, the request to `p1`
fails with a transport error: the shed is not skipped, and the halt request is
sent to `p1` only; when `p1` answers with status 500 instead, both peers are
requested. -/
theorem dropConnections_stops_notifying :
    dropConnections
        (fun node => if node = "p1".toList then HeadResult.transportError
          else HeadResult.status 200) sampleManager 1 =
      (true, sampleManager,
        [ShedEvent.haltRequest "p1".toList, ShedEvent.closeToken,
          ShedEvent.denyNew "s1".toList true, ShedEvent.wait, ShedEvent.drain,
          ShedEvent.denyNew "s1".toList false]) ∧
    haltBalancingOnOtherNodes
        (fun node => if node = "p1".toList then HeadResult.status 500
          else HeadResult.status 200) sampleManager.otherNodes =
      ["p1".toList, "p2".toList] := by
  decide

end telnetmgr

/-! ### `getTimeseries`: the response entry, claims C12, C13 -/

namespace plot

/-- The response entries after one group: unchanged, or one more entry, built
from the group and from the series the storage returned. -/
theorem runGroup_resps {σ : Type} (P : Collaborators σ) (query : TSDBqueryPayload)
    (q : TSDBquery) (ttl : Int) (st st1 : LoopState σ) (group : List TSDesc)
    (h : runGroup P query q ttl st group = .ok st1) :
    ∃ ids opers keepEmpty serie,
      (P.GetTimeSeries st.ext ttl ids query.Start query.End opers query.MsResolution
        keepEmpty).1 = .ok serie ∧
      st1.resps =
        if (buildPoints query.MsResolution st.oldDs.Options.Fill serie.Data []).length > 0 then
          st.resps ++
            [{ Metric := q.Metric, Tags := groupTags group, AggregatedTags := groupAggTags group,
               Dps := buildPoints query.MsResolution st.oldDs.Options.Fill serie.Data [],
               Tsuids := if query.ShowTSUIDs then (collectGroup group [] []).1 else [] }]
        else st.resps := by
  unfold runGroup at h
  cases hfv : parseFilterValue P.ParseFloat q.FilterValue with
  | panicked => rw [hfv] at h; simp at h
  | failed gerr => rw [hfv] at h; simp at h
  | ok filterV =>
    rw [hfv] at h
    simp only at h
    split at h
    · simp at h
    · rename_i serie hs
      simp only [Except.ok.injEq] at h
      refine ⟨_, _, _, serie, hs, ?_⟩
      rw [← h]
      rfl

theorem pointsSet_fresh (points : List (GoString × DpsValue)) (k : GoString) (v : DpsValue)
    (h : k ∉ points.map Prod.fst) : pointsSet points k v = points ++ [(k, v)] := by
  have hany : ¬ (points.any (fun e => decide (e.1 = k)) = true) := by
    rw [List.any_eq_true]
    rintro ⟨e, he, hk⟩
    exact h (List.mem_map.mpr ⟨e, he, by simpa using hk⟩)
  unfold pointsSet
  rw [if_neg hany]

theorem buildPoints_value (fill : GoString) (point : Pnt) :
    (if point.Empty then
        if fill = "null".toList then DpsValue.null
        else if fill = "nan".toList then DpsValue.str "NaN".toList
        else DpsValue.num point.Value
      else DpsValue.num point.Value) = pointValue fill point := by
  unfold pointValue
  cases point.Empty <;> by_cases h1 : fill = "null".toList <;>
    by_cases h2 : fill = "nan".toList <;> simp [h1, h2]

theorem buildPoints_distinct (ms : Bool) (fill : GoString) (data : List Pnt)
    (points : List (GoString × DpsValue))
    (hd : (data.map (pointKey ms)).Nodup)
    (hp : ∀ p ∈ data, pointKey ms p ∉ points.map Prod.fst) :
    buildPoints ms fill data points =
      points ++ data.map (fun p => (pointKey ms p, pointValue fill p)) := by
  induction data generalizing points with
  | nil => simp [buildPoints]
  | cons p data ih =>
    rw [List.map_cons, List.nodup_cons] at hd
    have hfresh := hp p (List.mem_cons_self _ _)
    unfold buildPoints
    simp only
    rw [buildPoints_value]
    have hk : formatInt (if (!ms) = true then p.Date.tdiv 1000 else p.Date) = pointKey ms p := rfl
    rw [hk, pointsSet_fresh _ _ _ hfresh, ih _ hd.2]
    · simp
    · intro p2 hp2
      rw [List.map_append, List.mem_append]
      rintro (h | h)
      · exact hp p2 (List.mem_cons_of_mem _ hp2) h
      · simp only [List.map_cons, List.map_nil, List.mem_singleton] at h
        exact hd.1 (h ▸ List.mem_map_of_mem _ hp2)

/-- C12, counterexample. Downsample `1m-avg-zero`, the storage returns one
point marked empty with raw value 3.5: the `dps` entry of the point holds the
raw value 3.5, not the number 0. -/
theorem getTimeseries_fill_zero_counterexample :
    (getTimeseries emptyPointWorld samplePlot 5000 "k".toList
      (samplePayload 1 10 [sampleQuery "1m-avg-zero".toList []]) ()).exit =
      Exit.returned
        [{ Metric := "cpu".toList, Tags := [("host".toList, "a".toList)], AggregatedTags := [],
           Dps := [("2".toList, DpsValue.num ⟨0x400C000000000000⟩)], Tsuids := [] }]
        none := by
  decide

/-- C12, amended. For every response entry emitted for a group, when the points
of the fetched series have pairwise distinct keys, the `dps` map has exactly
one entry per point, in the order of the points, under the key `date_ms` (with
`ms_resolution`) or `date_ms / 1000` (without) written as a decimal string, and
its value is: the value of the point when the point is not marked empty; when
it is marked empty, null under fill `null`, the string `NaN` under fill `nan`,
and the raw value of the point under every other fill (`none`, `zero`). -/
theorem runGroup_dps {σ : Type} (P : Collaborators σ) (query : TSDBqueryPayload)
    (q : TSDBquery) (ttl : Int) (st st1 : LoopState σ) (group : List TSDesc)
    (resp : TSDBresponse)
    (h : runGroup P query q ttl st group = .ok st1)
    (hresp : st1.resps = st.resps ++ [resp]) :
    (∃ ids opers keepEmpty serie,
      (P.GetTimeSeries st.ext ttl ids query.Start query.End opers query.MsResolution
        keepEmpty).1 = .ok serie ∧
      ((serie.Data.map (pointKey query.MsResolution)).Nodup →
        resp.Dps = serie.Data.map
          (fun p => (pointKey query.MsResolution p, pointValue st.oldDs.Options.Fill p)))) ∧
    (∀ p, pointKey true p = formatInt p.Date ∧
      pointKey false p = formatInt (Int.tdiv p.Date 1000)) ∧
    (∀ fill p, p.Empty = false → pointValue fill p = DpsValue.num p.Value) ∧
    (∀ p, p.Empty = true → pointValue "null".toList p = DpsValue.null) ∧
    (∀ p, p.Empty = true → pointValue "nan".toList p = DpsValue.str "NaN".toList) ∧
    (∀ fill p, p.Empty = true → fill ≠ "null".toList → fill ≠ "nan".toList →
      pointValue fill p = DpsValue.num p.Value) := by
  refine ⟨?_, fun p => ⟨rfl, rfl⟩, ?_, ?_, ?_, ?_⟩
  · obtain ⟨ids, opers, keepEmpty, serie, hs, hr⟩ := runGroup_resps P query q ttl st st1 group h
    refine ⟨ids, opers, keepEmpty, serie, hs, ?_⟩
    intro hnd
    rw [hresp] at hr
    split at hr
    · have := List.append_cancel_left hr
      simp only [List.cons.injEq, and_true] at this
      rw [this]
      simp only
      rw [buildPoints_distinct _ _ _ _ hnd (by simp)]
      simp
    · have := congrArg List.length hr
      simp at this
  · intro fill p hp
    simp [pointValue, hp]
  · intro p hp
    simp [pointValue, hp]
  · intro p hp
    simp [pointValue, hp]
  · intro fill p hp h1 h2
    rw [pointValue]
    simp only [hp, true_and, if_neg h1, if_neg h2]

/-- Witness of the amended C12: the entry emitted in `emptyPointWorld`. -/
theorem runGroup_dps_witness :
    ∃ ids opers keepEmpty serie,
      (emptyPointWorld.GetTimeSeries () 1 ids 1 10 opers false keepEmpty).1 = .ok serie ∧
      ((serie.Data.map (pointKey false)).Nodup →
        [("2".toList, DpsValue.num ⟨0x400C000000000000⟩)] = serie.Data.map
          (fun p => (pointKey false p, pointValue [] p))) :=
  (runGroup_dps emptyPointWorld (samplePayload 1 10 []) (sampleQuery [] []) 1 sampleState
    { ext := (), calls := [Call.storage 1 [] 1 10
        { Downsample := Downsample.zero, Merge := "sum".toList,
          Rate := { Enabled := false,
                    Options := { Counter := false, CounterMax := some (2 ^ 63 - 1),
                                 ResetValue := 0 } },
          FilterValue := { Enabled := false, BoolOper := [], Value := ⟨0⟩ },
          Order := [] } false true],
      resps := [{ Metric := "cpu".toList, Tags := [], AggregatedTags := [],
                  Dps := [("2".toList, DpsValue.num ⟨0x400C000000000000⟩)], Tsuids := [] }],
      oldDs := Downsample.zero, sumTotalPoints := 1, sumCountPoints := 1 } []
    { Metric := "cpu".toList, Tags := [], AggregatedTags := [],
      Dps := [("2".toList, DpsValue.num ⟨0x400C000000000000⟩)], Tsuids := [] }
    rfl rfl).1


theorem tagKInsert_keys (tagK : List (GoString × List GoString)) (k v : GoString) :
    (tagKInsert tagK k v).map Prod.fst =
      if k ∈ tagK.map Prod.fst then tagK.map Prod.fst else tagK.map Prod.fst ++ [k] := by
  have hany : (tagK.any (fun e => decide (e.1 = k)) = true) ↔ k ∈ tagK.map Prod.fst := by
    rw [List.any_eq_true, List.mem_map]
    constructor
    · rintro ⟨e, he, hk⟩
      exact ⟨e, he, by simpa using hk⟩
    · rintro ⟨e, he, hk⟩
      exact ⟨e, he, by simpa using hk⟩
  unfold tagKInsert
  by_cases h : k ∈ tagK.map Prod.fst
  · rw [if_pos (hany.mpr h), if_pos h, List.map_map]
    apply List.map_congr_left
    intro e _
    by_cases he : e.1 = k <;> simp [he]
  · rw [if_neg (fun hh => h (hany.mp hh)), if_neg h]
    simp

theorem tagKInsert_mem (tagK : List (GoString × List GoString)) (k v : GoString)
    (e : GoString × List GoString) :
    e ∈ tagKInsert tagK k v ↔
      (e.1 ≠ k ∧ e ∈ tagK) ∨
      (e.1 = k ∧ ∃ vs, (k, vs) ∈ tagK ∧ e.2 = if v ∈ vs then vs else vs ++ [v]) ∨
      (e = (k, [v]) ∧ k ∉ tagK.map Prod.fst) := by
  have hany : (tagK.any (fun e => decide (e.1 = k)) = true) ↔ k ∈ tagK.map Prod.fst := by
    rw [List.any_eq_true, List.mem_map]
    constructor
    · rintro ⟨e, he, hk⟩
      exact ⟨e, he, by simpa using hk⟩
    · rintro ⟨e, he, hk⟩
      exact ⟨e, he, by simpa using hk⟩
  unfold tagKInsert
  by_cases h : k ∈ tagK.map Prod.fst
  · rw [if_pos (hany.mpr h), List.mem_map]
    constructor
    · rintro ⟨a, ha, rfl⟩
      by_cases hk : a.1 = k
      · right; left
        rw [if_pos hk]
        exact ⟨hk, a.2, by rw [← hk]; exact ha, rfl⟩
      · left
        rw [if_neg hk]
        exact ⟨hk, ha⟩
    · rintro (⟨hk, he⟩ | ⟨hk, vs, hvs, h2⟩ | ⟨-, hn⟩)
      · exact ⟨e, he, by rw [if_neg hk]⟩
      · refine ⟨(k, vs), hvs, ?_⟩
        rw [if_pos rfl]
        exact Prod.ext hk.symm h2.symm
      · exact absurd h hn
  · rw [if_neg (fun hh => h (hany.mp hh)), List.mem_append, List.mem_singleton]
    constructor
    · rintro (he | he)
      · left
        refine ⟨?_, he⟩
        intro hk
        exact h (List.mem_map.mpr ⟨e, he, hk⟩)
      · right; right
        exact ⟨he, h⟩
    · rintro (⟨-, he⟩ | ⟨-, vs, hvs, -⟩ | ⟨he, -⟩)
      · exact Or.inl he
      · exact absurd (List.mem_map.mpr ⟨(k, vs), hvs, rfl⟩) h
      · exact Or.inr he

theorem tagKInsert_wellFormed (tagK : List (GoString × List GoString)) (k v : GoString)
    (h : tagKWellFormed tagK) : tagKWellFormed (tagKInsert tagK k v) := by
  obtain ⟨h1, h2⟩ := h
  constructor
  · rw [tagKInsert_keys]
    split
    · exact h1
    · rename_i hk
      exact List.Nodup.append h1 (List.nodup_singleton k) (by simpa using hk)
  · intro e he
    rcases (tagKInsert_mem tagK k v e).mp he with ⟨-, he⟩ | ⟨-, vs, hvs, h3⟩ | ⟨he, -⟩
    · exact h2 e he
    · rw [h3]
      have hn := h2 (k, vs) hvs
      split
      · exact hn
      · rename_i hv
        exact List.Nodup.append hn (List.nodup_singleton v) (by simpa using hv)
    · rw [he]
      exact List.nodup_singleton v

theorem tagKInsert_has (tagK : List (GoString × List GoString)) (k v k2 v2 : GoString) :
    tagKHas (tagKInsert tagK k v) k2 v2 ↔ tagKHas tagK k2 v2 ∨ (k2 = k ∧ v2 = v) := by
  unfold tagKHas
  constructor
  · rintro ⟨vs, hmem, hv⟩
    rcases (tagKInsert_mem tagK k v (k2, vs)).mp hmem with ⟨-, he⟩ | ⟨hk, ws, hws, h3⟩ | ⟨he, -⟩
    · exact Or.inl ⟨vs, he, hv⟩
    · simp only at hk h3
      subst hk
      rw [h3] at hv
      split at hv
      · exact Or.inl ⟨ws, hws, hv⟩
      · rcases List.mem_append.mp hv with hv | hv
        · exact Or.inl ⟨ws, hws, hv⟩
        · exact Or.inr ⟨rfl, by simpa using hv⟩
    · simp only [Prod.mk.injEq] at he
      obtain ⟨hk, hvs⟩ := he
      rw [hvs] at hv
      exact Or.inr ⟨hk, by simpa using hv⟩
  · rintro (⟨vs, hmem, hv⟩ | ⟨rfl, rfl⟩)
    · by_cases hk : k2 = k
      · subst hk
        refine ⟨if v ∈ vs then vs else vs ++ [v], ?_, ?_⟩
        · exact (tagKInsert_mem tagK k2 v _).mpr (Or.inr (Or.inl ⟨rfl, vs, hmem, rfl⟩))
        · split
          · exact hv
          · exact List.mem_append_left _ hv
      · exact ⟨vs, (tagKInsert_mem tagK k v _).mpr (Or.inl ⟨hk, hmem⟩), hv⟩
    · by_cases hk : k2 ∈ tagK.map Prod.fst
      · obtain ⟨e, he, hek⟩ := List.mem_map.mp hk
        refine ⟨if v2 ∈ e.2 then e.2 else e.2 ++ [v2], ?_, ?_⟩
        · refine (tagKInsert_mem tagK k2 v2 _).mpr (Or.inr (Or.inl ⟨rfl, e.2, ?_, rfl⟩))
          rw [← hek]
          exact he
        · split
          · assumption
          · exact List.mem_append_right _ (List.mem_singleton_self _)
      · exact ⟨[v2], (tagKInsert_mem tagK k2 v2 _).mpr (Or.inr (Or.inr ⟨rfl, hk⟩)),
          List.mem_singleton_self _⟩

theorem foldTags_spec (tags : List (GoString × GoString))
    (tagK : List (GoString × List GoString)) (h : tagKWellFormed tagK) :
    tagKWellFormed (tags.foldl (fun acc kv => tagKInsert acc kv.1 kv.2) tagK) ∧
    ∀ k v, tagKHas (tags.foldl (fun acc kv => tagKInsert acc kv.1 kv.2) tagK) k v ↔
      tagKHas tagK k v ∨ (k, v) ∈ tags := by
  induction tags generalizing tagK with
  | nil => simp [h]
  | cons kv tags ih =>
    obtain ⟨g1, g2⟩ := ih (tagKInsert tagK kv.1 kv.2) (tagKInsert_wellFormed _ _ _ h)
    refine ⟨g1, ?_⟩
    intro k v
    rw [List.foldl_cons, g2, tagKInsert_has, List.mem_cons]
    constructor
    · rintro ((h1 | ⟨h1, h2⟩) | h1)
      · exact Or.inl h1
      · exact Or.inr (Or.inl (Prod.ext h1 h2))
      · exact Or.inr (Or.inr h1)
    · rintro (h1 | h1 | h1)
      · exact Or.inl (Or.inl h1)
      · exact Or.inl (Or.inr ⟨congrArg Prod.fst h1, congrArg Prod.snd h1⟩)
      · exact Or.inr h1

theorem collectGroup_spec (group : List TSDesc) (ids : List GoString)
    (tagK : List (GoString × List GoString)) (h : tagKWellFormed tagK) :
    tagKWellFormed (collectGroup group ids tagK).2 ∧
    ∀ k v, tagKHas (collectGroup group ids tagK).2 k v ↔ tagKHas tagK k v ∨ carried group k v := by
  induction group generalizing ids tagK with
  | nil => simp [collectGroup, h, carried]
  | cons t group ih =>
    obtain ⟨f1, f2⟩ := foldTags_spec t.Tags tagK h
    obtain ⟨g1, g2⟩ := ih (ids ++ [t.Tsuid]) _ f1
    rw [collectGroup]
    refine ⟨g1, ?_⟩
    intro k v
    rw [g2, f2]
    unfold carried
    constructor
    · rintro ((h1 | h1) | ⟨t2, ht2, h1⟩)
      · exact Or.inl h1
      · exact Or.inr ⟨t, List.mem_cons_self _ _, h1⟩
      · exact Or.inr ⟨t2, List.mem_cons_of_mem _ ht2, h1⟩
    · rintro (h1 | ⟨t2, ht2, h1⟩)
      · exact Or.inl (Or.inl h1)
      · rcases List.mem_cons.mp ht2 with rfl | ht2
        · exact Or.inl (Or.inr h1)
        · exact Or.inr ⟨t2, ht2, h1⟩

theorem tagK_entry_unique (tagK : List (GoString × List GoString))
    (h : (tagK.map Prod.fst).Nodup) (k : GoString) (vs ws : List GoString)
    (h1 : (k, vs) ∈ tagK) (h2 : (k, ws) ∈ tagK) : vs = ws := by
  induction tagK with
  | nil => simp at h1
  | cons e tagK ih =>
    rw [List.map_cons, List.nodup_cons] at h
    rcases List.mem_cons.mp h1 with h1 | h1 <;> rcases List.mem_cons.mp h2 with h2 | h2
    · rw [← h1] at h2
      exact (congrArg Prod.snd h2).symm
    · exact absurd (List.mem_map.mpr ⟨(k, ws), h2, by rw [← h1]⟩) h.1
    · exact absurd (List.mem_map.mpr ⟨(k, vs), h1, by rw [← h2]⟩) h.1
    · exact ih h.2 h1 h2

theorem group_tagK (group : List TSDesc) :
    tagKWellFormed (collectGroup group [] []).2 ∧
    ∀ k v, tagKHas (collectGroup group [] []).2 k v ↔ carried group k v := by
  obtain ⟨h1, h2⟩ := collectGroup_spec group [] [] ⟨by simp, by simp⟩
  refine ⟨h1, fun k v => ?_⟩
  rw [h2]
  simp [tagKHas]


theorem length_gt_one_iff (vs : List GoString) (h : vs.Nodup) :
    vs.length > 1 ↔ ∃ v w, v ≠ w ∧ v ∈ vs ∧ w ∈ vs := by
  constructor
  · intro hl
    match vs, h, hl with
    | a :: b :: rest, h, _ =>
      rw [List.nodup_cons] at h
      refine ⟨a, b, ?_, by simp, by simp⟩
      rintro rfl
      exact h.1 (List.mem_cons_self _ _)
  · rintro ⟨v, w, hne, hv, hw⟩
    match vs, hv, hw with
    | [], hv, _ => simp at hv
    | [a], hv, hw =>
      simp only [List.mem_singleton] at hv hw
      exact absurd (hv.trans hw.symm) hne
    | _ :: _ :: _, _, _ => simp

theorem groupAggTags_mem (group : List TSDesc) (k : GoString) :
    k ∈ groupAggTags group ↔ ∃ v w, v ≠ w ∧ carried group k v ∧ carried group k w := by
  obtain ⟨⟨hkeys, hvals⟩, hhas⟩ := group_tagK group
  unfold groupAggTags sortStrings
  rw [(List.perm_insertionSort _ _).mem_iff, List.mem_map]
  constructor
  · rintro ⟨e, he, rfl⟩
    rw [List.mem_filter] at he
    obtain ⟨hmem, hlen⟩ := he
    obtain ⟨v, w, hne, hv, hw⟩ :=
      (length_gt_one_iff e.2 (hvals e hmem)).mp (by simpa using hlen)
    exact ⟨v, w, hne, (hhas e.1 v).mp ⟨e.2, hmem, hv⟩, (hhas e.1 w).mp ⟨e.2, hmem, hw⟩⟩
  · rintro ⟨v, w, hne, hv, hw⟩
    obtain ⟨vs, hvs, hv2⟩ := (hhas k v).mpr hv
    obtain ⟨ws, hws, hw2⟩ := (hhas k w).mpr hw
    have heq := tagK_entry_unique _ hkeys k vs ws hvs hws
    subst heq
    refine ⟨(k, vs), ?_, rfl⟩
    rw [List.mem_filter]
    refine ⟨hvs, ?_⟩
    have := (length_gt_one_iff vs (hvals _ hvs)).mpr ⟨v, w, hne, hv2, hw2⟩
    simpa using this

theorem groupAggTags_sorted (group : List TSDesc) :
    List.Sorted (fun a b : GoString => a < b) (groupAggTags group) := by
  obtain ⟨⟨hkeys, -⟩, -⟩ := group_tagK group
  have hsorted : List.Sorted (fun a b : GoString => a ≤ b) (groupAggTags group) :=
    List.sorted_insertionSort _ _
  have hnodup : (groupAggTags group).Nodup := by
    unfold groupAggTags sortStrings
    rw [(List.perm_insertionSort _ _).nodup_iff]
    exact List.Nodup.sublist (List.Sublist.map _ (List.filter_sublist _)) hkeys
  exact hsorted.lt_of_le hnodup

theorem groupTags_mem (group : List TSDesc) (k v : GoString) :
    (k, v) ∈ groupTags group ↔ carried group k v ∧ ∀ w, carried group k w → w = v := by
  obtain ⟨⟨hkeys, hvals⟩, hhas⟩ := group_tagK group
  have single : (k, v) ∈ groupTags group ↔ (k, [v]) ∈ (collectGroup group [] []).2 := by
    unfold groupTags
    rw [List.mem_map]
    constructor
    · rintro ⟨e, he, heq⟩
      rw [List.mem_filter] at he
      obtain ⟨hmem, hlen⟩ := he
      obtain ⟨ek, evs⟩ := e
      simp only [Prod.mk.injEq] at heq
      obtain ⟨rfl, hv⟩ := heq
      match evs, hlen, hv with
      | [a], _, hv =>
        simp only [List.headD_cons] at hv
        rw [← hv]
        exact hmem
    · intro hmem
      exact ⟨(k, [v]), by rw [List.mem_filter]; exact ⟨hmem, by simp⟩, rfl⟩
  rw [single]
  constructor
  · intro hmem
    refine ⟨(hhas k v).mp ⟨[v], hmem, List.mem_singleton_self _⟩, ?_⟩
    intro w hw
    obtain ⟨ws, hws, hw2⟩ := (hhas k w).mpr hw
    have := tagK_entry_unique _ hkeys k ws [v] hws hmem
    rw [this] at hw2
    simpa using hw2
  · rintro ⟨hv, hall⟩
    obtain ⟨vs, hvs, hv2⟩ := (hhas k v).mpr hv
    have hvs1 : vs = [v] := by
      have hn := hvals _ hvs
      simp only at hn
      have hall2 : ∀ w ∈ vs, w = v := fun w hw => hall w ((hhas k w).mp ⟨vs, hvs, hw⟩)
      match vs, hn, hv2, hall2 with
      | [a], _, _, hall2 => rw [hall2 a (List.mem_singleton_self _)]
      | a :: b :: rest, hn, _, hall2 =>
        rw [List.nodup_cons] at hn
        have ha := hall2 a (by simp)
        have hb := hall2 b (by simp)
        exact absurd (by rw [ha, hb]; simp) hn.1
    rw [← hvs1]
    exact hvs

/-- C13, counterexample. The group holds `ts1` with tag `host=a` and `ts2` with
tag `dc=x`: the response entry has the tags `host=a` and `dc=x`, although
neither key is carried by every descriptor of the group. -/
theorem getTimeseries_tags_counterexample :
    (getTimeseries mixedTagsWorld samplePlot 5000 "k".toList
      (samplePayload 1 10 [sampleQuery [] []]) ()).exit =
      Exit.returned
        [{ Metric := "cpu".toList,
           Tags := [("host".toList, "a".toList), ("dc".toList, "x".toList)],
           AggregatedTags := [],
           Dps := [("1".toList, DpsValue.num ⟨0⟩)], Tsuids := [] }]
        none := by
  decide

/-- C13, amended. For every response entry emitted for a group of timeseries
descriptors: `aggregated_tags` is exactly the list, in strictly ascending
order, of the tag keys that take more than one distinct value across the
descriptors of the group; `tags` contains a key `k` with value `v` if and only
if some descriptor of the group carries `k` with value `v` and every descriptor
that carries `k` has that same value (a descriptor without the key does not
count); no key appears in both. -/
theorem runGroup_tags {σ : Type} (P : Collaborators σ) (query : TSDBqueryPayload)
    (q : TSDBquery) (ttl : Int) (st st1 : LoopState σ) (group : List TSDesc)
    (resp : TSDBresponse)
    (h : runGroup P query q ttl st group = .ok st1)
    (hresp : st1.resps = st.resps ++ [resp]) :
    List.Sorted (fun a b : GoString => a < b) resp.AggregatedTags ∧
    (∀ k, k ∈ resp.AggregatedTags ↔
      ∃ v w, v ≠ w ∧ carried group k v ∧ carried group k w) ∧
    (∀ k v, (k, v) ∈ resp.Tags ↔
      carried group k v ∧ ∀ w, carried group k w → w = v) ∧
    (∀ k v, (k, v) ∈ resp.Tags → k ∉ resp.AggregatedTags) := by
  obtain ⟨ids, opers, keepEmpty, serie, -, hr⟩ := runGroup_resps P query q ttl st st1 group h
  rw [hresp] at hr
  have hentry : resp.AggregatedTags = groupAggTags group ∧ resp.Tags = groupTags group := by
    split at hr
    · have := List.append_cancel_left hr
      simp only [List.cons.injEq, and_true] at this
      rw [this]
      exact ⟨rfl, rfl⟩
    · have := congrArg List.length hr
      simp at this
  obtain ⟨ha, ht⟩ := hentry
  rw [ha, ht]
  refine ⟨groupAggTags_sorted group, groupAggTags_mem group, groupTags_mem group, ?_⟩
  intro k v hkv hk
  obtain ⟨-, hall⟩ := (groupTags_mem group k v).mp hkv
  obtain ⟨a, b, hne, hca, hcb⟩ := (groupAggTags_mem group k).mp hk
  exact hne ((hall a hca).trans (hall b hcb).symm)

/-- Witness of the amended C13: the entry of the group `ts1 {host=a}`,
`ts2 {dc=x}` in `mixedTagsWorld`. -/
theorem runGroup_tags_witness :
    ("host".toList, "a".toList) ∈ [("host".toList, "a".toList), ("dc".toList, "x".toList)] ↔
      carried [{ Tsuid := "ts1".toList, Tags := [("host".toList, "a".toList)] },
               { Tsuid := "ts2".toList, Tags := [("dc".toList, "x".toList)] }]
          "host".toList "a".toList ∧
        ∀ w, carried [{ Tsuid := "ts1".toList, Tags := [("host".toList, "a".toList)] },
                      { Tsuid := "ts2".toList, Tags := [("dc".toList, "x".toList)] }]
            "host".toList w → w = "a".toList :=
  (runGroup_tags mixedTagsWorld (samplePayload 1 10 []) (sampleQuery [] []) 1 sampleState
    { ext := (), calls := [Call.storage 1 ["ts1".toList, "ts2".toList] 1 10
        { Downsample := Downsample.zero, Merge := "sum".toList,
          Rate := { Enabled := false,
                    Options := { Counter := false, CounterMax := some (2 ^ 63 - 1),
                                 ResetValue := 0 } },
          FilterValue := { Enabled := false, BoolOper := [], Value := ⟨0⟩ },
          Order := [] } false true],
      resps := [{ Metric := "cpu".toList,
                  Tags := [("host".toList, "a".toList), ("dc".toList, "x".toList)],
                  AggregatedTags := [],
                  Dps := [("1".toList, DpsValue.num ⟨0⟩)], Tsuids := [] }],
      oldDs := Downsample.zero, sumTotalPoints := 1, sumCountPoints := 1 }
    [{ Tsuid := "ts1".toList, Tags := [("host".toList, "a".toList)] },
     { Tsuid := "ts2".toList, Tags := [("dc".toList, "x".toList)] }]
    { Metric := "cpu".toList,
      Tags := [("host".toList, "a".toList), ("dc".toList, "x".toList)],
      AggregatedTags := [],
      Dps := [("1".toList, DpsValue.num ⟨0⟩)], Tsuids := [] }
    rfl rfl).2.2.1 "host".toList "a".toList

end plot

/-! ### `expandStruct`: claims C17, C18 -/

namespace plot

theorem expandStruct_groups {σ : Type} (P : Collaborators σ) (plot : Plot) (keyset : GoString)
    (tsdbq : TSDBqueryPayload) (ext : σ) (tsdb : TSDBquery) (more : List TSDBquery)
    (tsobs : List TSDesc) (total : Int)
    (hq : tsdbq.Queries = tsdb :: more)
    (hgb : ∃ f ∈ tsdb.Filters, f.GroupBy = true)
    (hidx : (P.MetaFilterOpenTSDB ext keyset tsdb.Metric tsdb.Filters plot.MaxTimeseries).1 =
      .ok (tsobs, total))
    (hlim : P.checkTotalTSLimits keyset tsdb.Metric total = none) :
    (expandStruct P plot keyset tsdbq ext).1 =
      expandGroups tsdbq tsdb (P.GetGroups tsdb.Filters tsobs) [] := by
  have hany : tsdb.Filters.any (fun f => f.GroupBy) = true := by
    rw [List.any_eq_true]
    exact hgb
  unfold expandStruct
  rw [hq]
  simp only [hany, if_true]
  rw [hidx]
  simp only
  rw [hlim]

theorem synthesize_found (rep : TSDesc) (g : TSDBfilter) (acc : List TSDBfilter) :
    acc.any (fun f => decide (g.Tagk = f.Tagk ∧ tagValue rep.Tags g.Tagk = f.Filter)) =
      acc.any (fun f => decide (f.Tagk = g.Tagk ∧ f.Filter = tagValue rep.Tags g.Tagk)) := by
  congr 1
  funext f
  exact decide_eq_decide.mpr
    ⟨fun h => ⟨h.1.symm, h.2.symm⟩, fun h => ⟨h.1.symm, h.2.symm⟩⟩

/-- When the loop of a group ends without `breakOp`, its list is the planned
one, built from the list it started with. -/
theorem synthesize_some (rep : TSDesc) (fs acc r : List TSDBfilter)
    (h : synthesize rep fs acc = some r) :
    r = (fs.filter (fun f => f.GroupBy)).foldl
      (fun acc g =>
        if acc.any (fun f => decide (f.Tagk = g.Tagk ∧ f.Filter = tagValue rep.Tags g.Tagk))
        then acc
        else acc ++ [{ Ftype := "wildcard".toList, Tagk := g.Tagk,
                       Filter := tagValue rep.Tags g.Tagk, GroupBy := false }]) acc := by
  induction fs generalizing acc with
  | nil =>
    simp only [synthesize, Option.some.injEq] at h
    simp [h]
  | cons g fs ih =>
    unfold synthesize at h
    by_cases hg : g.GroupBy = true
    · rw [if_pos hg] at h
      simp only at h
      rw [synthesize_found] at h
      rw [List.filter_cons_of_pos (by simpa using hg), List.foldl_cons]
      by_cases hf : acc.any
          (fun f => decide (f.Tagk = g.Tagk ∧ f.Filter = tagValue rep.Tags g.Tagk)) = true
      · rw [hf] at h
        simp only [Bool.not_true, Bool.false_eq_true, if_false] at h
        rw [if_pos hf]
        exact ih acc h
      · have hf2 : acc.any
            (fun f => decide (f.Tagk = g.Tagk ∧ f.Filter = tagValue rep.Tags g.Tagk)) = false := by
          simpa using hf
        rw [hf2] at h
        simp only [Bool.not_false, if_true] at h
        rw [if_neg hf]
        by_cases hv : tagValue rep.Tags g.Tagk = []
        · rw [if_pos hv] at h
          cases h
        · rw [if_neg hv] at h
          exact ih _ h
    · rw [if_neg hg] at h
      rw [List.filter_cons_of_neg (by simpa using hg)]
      exact ih acc h

/-- The loop of a group sets `breakOp` exactly when a group-by filter has an
empty value on the representative and the list it started with has no filter
with that tag key and an empty pattern. -/
theorem synthesize_none_iff (rep : TSDesc) (fs acc : List TSDBfilter) :
    synthesize rep fs acc = none ↔
      ∃ g ∈ fs, g.GroupBy = true ∧ tagValue rep.Tags g.Tagk = [] ∧
        ∀ f ∈ acc, ¬ (f.Tagk = g.Tagk ∧ f.Filter = []) := by
  induction fs generalizing acc with
  | nil => simp [synthesize]
  | cons g fs ih =>
    unfold synthesize
    by_cases hg : g.GroupBy = true
    · rw [if_pos hg]
      simp only
      rw [synthesize_found]
      by_cases hf : acc.any
          (fun f => decide (f.Tagk = g.Tagk ∧ f.Filter = tagValue rep.Tags g.Tagk)) = true
      · rw [hf]
        simp only [Bool.not_true, Bool.false_eq_true, if_false]
        rw [ih acc]
        constructor
        · rintro ⟨g2, hg2, h⟩
          exact ⟨g2, List.mem_cons_of_mem _ hg2, h⟩
        · rintro ⟨g2, hg2, h1, h2, h3⟩
          rcases List.mem_cons.mp hg2 with rfl | hg2
          · exfalso
            rw [List.any_eq_true] at hf
            obtain ⟨f, hfm, hfp⟩ := hf
            simp only [decide_eq_true_eq] at hfp
            exact h3 f hfm ⟨hfp.1, by rw [hfp.2, h2]⟩
          · exact ⟨g2, hg2, h1, h2, h3⟩
      · have hf2 : acc.any
            (fun f => decide (f.Tagk = g.Tagk ∧ f.Filter = tagValue rep.Tags g.Tagk)) = false := by
          simpa using hf
        rw [hf2]
        simp only [Bool.not_false, if_true]
        by_cases hv : tagValue rep.Tags g.Tagk = []
        · rw [if_pos hv]
          simp only [true_iff]
          refine ⟨g, List.mem_cons_self _ _, hg, hv, ?_⟩
          intro f hfm hfp
          apply hf
          rw [List.any_eq_true]
          exact ⟨f, hfm, by simp [hfp.1, hfp.2, hv]⟩
        · rw [if_neg hv, ih]
          constructor
          · rintro ⟨g2, hg2, h1, h2, h3⟩
            refine ⟨g2, List.mem_cons_of_mem _ hg2, h1, h2, ?_⟩
            intro f hfm
            exact h3 f (List.mem_append_left _ hfm)
          · rintro ⟨g2, hg2, h1, h2, h3⟩
            rcases List.mem_cons.mp hg2 with rfl | hg2
            · exact absurd h2 hv
            · refine ⟨g2, hg2, h1, h2, ?_⟩
              intro f hfm
              rcases List.mem_append.mp hfm with hfm | hfm
              · exact h3 f hfm
              · rw [List.mem_singleton] at hfm
                rw [hfm]
                rintro ⟨-, hemp⟩
                exact hv hemp
    · rw [if_neg hg, ih acc]
      constructor
      · rintro ⟨g2, hg2, h⟩
        exact ⟨g2, List.mem_cons_of_mem _ hg2, h⟩
      · rintro ⟨g2, hg2, h1, h2, h3⟩
        rcases List.mem_cons.mp hg2 with rfl | hg2
        · exact absurd h1 hg
        · exact ⟨g2, hg2, h1, h2, h3⟩

theorem isDropped_iff (rep : TSDesc) (filters : List TSDBfilter) :
    isDropped rep filters = true ↔
      ∃ g ∈ filters, g.GroupBy = true ∧ tagValue rep.Tags g.Tagk = [] ∧
        ∀ f ∈ filters, f.GroupBy = false → ¬ (f.Tagk = g.Tagk ∧ f.Filter = []) := by
  unfold isDropped
  rw [List.any_eq_true]
  constructor
  · rintro ⟨g, hg, h⟩
    simp only [Bool.and_eq_true, decide_eq_true_eq, Bool.not_eq_true', List.any_eq_false,
      Bool.not_eq_true] at h
    refine ⟨g, hg, h.1.1, h.1.2, ?_⟩
    intro f hf hgb hc
    have := h.2 f hf
    simp [hgb, hc.1, hc.2] at this
  · rintro ⟨g, hg, h1, h2, h3⟩
    refine ⟨g, hg, ?_⟩
    simp only [Bool.and_eq_true, decide_eq_true_eq, Bool.not_eq_true', List.any_eq_false,
      Bool.not_eq_true]
    refine ⟨⟨h1, h2⟩, ?_⟩
    intro f hf
    by_cases hgb : f.GroupBy = true
    · simp [hgb]
    · have hgb2 : f.GroupBy = false := by simpa using hgb
      have := h3 f hf hgb2
      simpa [hgb2] using this

theorem synthesize_dropped (rep : TSDesc) (filters : List TSDBfilter) :
    synthesize rep filters (filters.filter (fun f => !f.GroupBy)) = none ↔
      isDropped rep filters = true := by
  rw [synthesize_none_iff, isDropped_iff]
  constructor
  · rintro ⟨g, hg, h1, h2, h3⟩
    refine ⟨g, hg, h1, h2, ?_⟩
    intro f hf hgb
    exact h3 f (List.mem_filter.mpr ⟨hf, by simp [hgb]⟩)
  · rintro ⟨g, hg, h1, h2, h3⟩
    refine ⟨g, hg, h1, h2, ?_⟩
    intro f hf
    rw [List.mem_filter] at hf
    exact h3 f hf.1 (by simpa using hf.2)

theorem synthesize_planned (rep : TSDesc) (filters : List TSDBfilter) :
    synthesize rep filters (filters.filter (fun f => !f.GroupBy)) =
      if isDropped rep filters = true then none else some (plannedFilters rep filters) := by
  by_cases hd : isDropped rep filters = true
  · rw [if_pos hd]
    exact (synthesize_dropped rep filters).mpr hd
  · rw [if_neg hd]
    cases hs : synthesize rep filters (filters.filter (fun f => !f.GroupBy)) with
    | none => exact absurd ((synthesize_dropped rep filters).mp hs) hd
    | some r =>
      rw [synthesize_some rep filters _ r hs]
      rfl

theorem plannedFilters_plain (rep : TSDesc) (filters : List TSDBfilter) :
    ∀ f ∈ plannedFilters rep filters, f.GroupBy = false := by
  unfold plannedFilters
  have key : ∀ (gs acc : List TSDBfilter), (∀ f ∈ acc, f.GroupBy = false) →
      ∀ f ∈ gs.foldl
        (fun acc g =>
          if acc.any (fun f => decide (f.Tagk = g.Tagk ∧ f.Filter = tagValue rep.Tags g.Tagk))
          then acc
          else acc ++ [{ Ftype := "wildcard".toList, Tagk := g.Tagk,
                         Filter := tagValue rep.Tags g.Tagk, GroupBy := false }]) acc,
        f.GroupBy = false := by
    intro gs
    induction gs with
    | nil => intro acc h; simpa using h
    | cons g gs ih =>
      intro acc h
      rw [List.foldl_cons]
      apply ih
      split
      · exact h
      · intro f hf
        rcases List.mem_append.mp hf with hf | hf
        · exact h f hf
        · rw [List.mem_singleton] at hf
          rw [hf]
  apply key
  intro f hf
  rw [List.mem_filter] at hf
  simpa using hf.2

theorem expandGroups_eq (tsdbq : TSDBqueryPayload) (tsdb : TSDBquery)
    (groups : List (List TSDesc)) (acc : List TSDBqueryPayload)
    (hne : ∀ g ∈ groups, g ≠ []) :
    expandGroups tsdbq tsdb groups acc =
      ExpandExit.returned (acc ++ groups.filterMap (fun g =>
        match g with
        | [] => none
        | rep :: _ =>
          if isDropped rep tsdb.Filters = true then none
          else some (groupPayload tsdbq tsdb (plannedFilters rep tsdb.Filters)))) none := by
  induction groups generalizing acc with
  | nil => simp [expandGroups]
  | cons g groups ih =>
    have hrest : ∀ g2 ∈ groups, g2 ≠ [] := fun g2 h => hne g2 (List.mem_cons_of_mem _ h)
    cases g with
    | nil => exact absurd rfl (hne [] (List.mem_cons_self _ _))
    | cons rep rest =>
      rw [expandGroups]
      rw [synthesize_planned]
      by_cases hd : isDropped rep tsdb.Filters = true
      · rw [if_pos hd]
        simp only
        rw [ih acc hrest, List.filterMap_cons]
        simp only [if_pos hd]
      · rw [if_neg hd]
        simp only
        rw [ih _ hrest, List.filterMap_cons]
        simp only [if_neg hd, List.append_assoc, List.singleton_append]

theorem expandGroups_skip (tsdbq : TSDBqueryPayload) (tsdb : TSDBquery)
    (pre post : List (List TSDesc)) (rep : TSDesc) (rest : List TSDesc)
    (acc : List TSDBqueryPayload) (hd : isDropped rep tsdb.Filters = true) :
    expandGroups tsdbq tsdb (pre ++ (rep :: rest) :: post) acc =
      expandGroups tsdbq tsdb (pre ++ post) acc := by
  induction pre generalizing acc with
  | nil =>
    simp only [List.nil_append]
    rw [expandGroups]
    rw [synthesize_planned, if_pos hd]
  | cons g pre ih =>
    simp only [List.cons_append]
    cases g with
    | nil => rw [expandGroups, expandGroups]
    | cons r rs =>
      rw [expandGroups, expandGroups]
      split
      · exact ih acc
      · exact ih _


/-- C17, counterexample. Two group-by filters on `host` (`*` and `a|b`) and no
other filter; the representative of the first group has `host=a`. The payload
emitted for that group holds one filter `host=a`: the filter for the second
group-by filter is omitted although no non-group-by filter of the input pins
the value. -/
theorem expandStruct_duplicate_key_counterexample :
    (expandStruct expandWorld samplePlot "k".toList
      (samplePayload 0 0 [sampleQuery []
        [groupByFilter "host" "*", groupByFilter "host" "a|b"]]) ()).1 =
      ExpandExit.returned
        [samplePayload 0 0 [sampleQuery [] [plainFilter "host" "a"]]] none := by
  decide

/-- C17, amended. For a payload whose first sub-query has at least one
group-by filter, when the index answers, the limit is not exceeded and no
group is empty, `expandStruct` returns without error one payload for every
group that is not dropped, in the order of the groups. The payload carries the
relative expression of the input, the metric, aggregator, downsample, rate,
rate options, order and filter-value of the sub-query, an empty legacy tag map,
and the filter list made of the non-group-by filters of the input in their
order, followed, for each group-by filter in declaration order, by a wildcard
filter with the same tag key, the value of that tag on the first descriptor of
the group as pattern and `group_by` false; that filter is omitted exactly when
a filter already in the list (a non-group-by filter of the input, or the filter
added for an earlier group-by filter) has that tag key and that value as
pattern. No payload holds a group-by filter. -/
theorem expandStruct_payloads {σ : Type} (P : Collaborators σ) (plot : Plot)
    (keyset : GoString) (tsdbq : TSDBqueryPayload) (ext : σ) (tsdb : TSDBquery)
    (more : List TSDBquery) (tsobs : List TSDesc) (total : Int)
    (hq : tsdbq.Queries = tsdb :: more)
    (hgb : ∃ f ∈ tsdb.Filters, f.GroupBy = true)
    (hidx : (P.MetaFilterOpenTSDB ext keyset tsdb.Metric tsdb.Filters plot.MaxTimeseries).1 =
      .ok (tsobs, total))
    (hlim : P.checkTotalTSLimits keyset tsdb.Metric total = none)
    (hne : ∀ g ∈ P.GetGroups tsdb.Filters tsobs, g ≠ []) :
    (expandStruct P plot keyset tsdbq ext).1 =
      ExpandExit.returned ((P.GetGroups tsdb.Filters tsobs).filterMap (fun g =>
        match g with
        | [] => none
        | rep :: _ =>
          if isDropped rep tsdb.Filters = true then none
          else some
            { Relative := tsdbq.Relative
              Start := 0
              End := 0
              MsResolution := false
              ShowTSUIDs := false
              Queries :=
                [{ Aggregator := tsdb.Aggregator
                   Downsample := tsdb.Downsample
                   Metric := tsdb.Metric
                   Tags := []
                   Rate := tsdb.Rate
                   RateOptions := tsdb.RateOptions
                   Order := tsdb.Order
                   FilterValue := tsdb.FilterValue
                   Filters := plannedFilters rep tsdb.Filters }] })) none ∧
    (∀ rep, ∀ f ∈ plannedFilters rep tsdb.Filters, f.GroupBy = false) := by
  refine ⟨?_, fun rep => plannedFilters_plain rep tsdb.Filters⟩
  rw [expandStruct_groups P plot keyset tsdbq ext tsdb more tsobs total hq hgb hidx hlim,
    expandGroups_eq tsdbq tsdb _ [] hne]
  rfl

/-- Witness of the amended C17 in `expandWorld`, on the filters `host=*`
(group-by) and `dc=x`. -/
theorem expandStruct_payloads_witness :
    (expandStruct expandWorld samplePlot "k".toList
      (samplePayload 0 0 [sampleQuery []
        [groupByFilter "host" "*", plainFilter "dc" "x"]]) ()).1 =
      ExpandExit.returned
        [samplePayload 0 0 [sampleQuery []
          [plainFilter "dc" "x", plainFilter "host" "a"]]] none :=
  (expandStruct_payloads expandWorld samplePlot "k".toList
    (samplePayload 0 0 [sampleQuery [] [groupByFilter "host" "*", plainFilter "dc" "x"]]) ()
    (sampleQuery [] [groupByFilter "host" "*", plainFilter "dc" "x"]) []
    [{ Tsuid := "ts1".toList, Tags := [("host".toList, "a".toList)] },
     { Tsuid := "ts2".toList, Tags := [] }] 2 rfl
    ⟨groupByFilter "host" "*", by decide, rfl⟩ rfl rfl (by decide)).1

/-- C18, counterexample. The filters are `host=*` (group-by) and a
non-group-by filter on `host` with an empty pattern; the second group has a
descriptor without the tag `host`. A payload is emitted for that group all the
same. -/
theorem expandStruct_empty_pattern_counterexample :
    (expandStruct expandWorld samplePlot "k".toList
      (samplePayload 0 0 [sampleQuery []
        [groupByFilter "host" "*", plainFilter "host" ""]]) ()).1 =
      ExpandExit.returned
        [samplePayload 0 0 [sampleQuery [] [plainFilter "host" "", plainFilter "host" "a"]],
         samplePayload 0 0 [sampleQuery [] [plainFilter "host" ""]]] none := by
  decide

/-- C18, amended. For every group whose first descriptor has an empty or
missing value for the tag key of at least one group-by filter, while no
non-group-by filter of the input has that tag key with an empty pattern,
`expandStruct` emits no payload for that group and reports no error for it: the
run is the run over the other groups, whose payloads are still emitted. -/
theorem expandStruct_drops_group {σ : Type} (P : Collaborators σ) (plot : Plot)
    (keyset : GoString) (tsdbq : TSDBqueryPayload) (ext : σ) (tsdb : TSDBquery)
    (more : List TSDBquery) (tsobs : List TSDesc) (total : Int)
    (pre post : List (List TSDesc)) (rep : TSDesc) (rest : List TSDesc)
    (hq : tsdbq.Queries = tsdb :: more)
    (hgb : ∃ f ∈ tsdb.Filters, f.GroupBy = true)
    (hidx : (P.MetaFilterOpenTSDB ext keyset tsdb.Metric tsdb.Filters plot.MaxTimeseries).1 =
      .ok (tsobs, total))
    (hlim : P.checkTotalTSLimits keyset tsdb.Metric total = none)
    (hgroups : P.GetGroups tsdb.Filters tsobs = pre ++ (rep :: rest) :: post)
    (hempty : ∃ g ∈ tsdb.Filters, g.GroupBy = true ∧ tagValue rep.Tags g.Tagk = [] ∧
      ∀ f ∈ tsdb.Filters, f.GroupBy = false → ¬ (f.Tagk = g.Tagk ∧ f.Filter = [])) :
    (expandStruct P plot keyset tsdbq ext).1 = expandGroups tsdbq tsdb (pre ++ post) [] ∧
    ((∀ g ∈ pre ++ post, g ≠ []) →
      ∃ payloads, (expandStruct P plot keyset tsdbq ext).1 =
          ExpandExit.returned payloads none ∧
        payloads.length ≤ (pre ++ post).length) := by
  have hd : isDropped rep tsdb.Filters = true := (isDropped_iff rep tsdb.Filters).mpr hempty
  have hrun : (expandStruct P plot keyset tsdbq ext).1 =
      expandGroups tsdbq tsdb (pre ++ post) [] := by
    rw [expandStruct_groups P plot keyset tsdbq ext tsdb more tsobs total hq hgb hidx hlim,
      hgroups, expandGroups_skip tsdbq tsdb pre post rep rest [] hd]
  refine ⟨hrun, ?_⟩
  intro hne
  rw [hrun, expandGroups_eq tsdbq tsdb _ [] hne]
  exact ⟨_, rfl, by
    rw [List.nil_append]
    exact List.length_filterMap_le _ _⟩

/-- Witness of the amended C18 in `expandWorld`, on the filter `host=*`
(group-by): the group of the descriptor without tags is dropped. -/
theorem expandStruct_drops_group_witness :
    (expandStruct expandWorld samplePlot "k".toList
      (samplePayload 0 0 [sampleQuery [] [groupByFilter "host" "*"]]) ()).1 =
      expandGroups (samplePayload 0 0 [sampleQuery [] [groupByFilter "host" "*"]])
        (sampleQuery [] [groupByFilter "host" "*"])
        ([[{ Tsuid := "ts1".toList, Tags := [("host".toList, "a".toList)] }]] ++ []) [] :=
  (expandStruct_drops_group expandWorld samplePlot "k".toList
    (samplePayload 0 0 [sampleQuery [] [groupByFilter "host" "*"]]) ()
    (sampleQuery [] [groupByFilter "host" "*"]) []
    [{ Tsuid := "ts1".toList, Tags := [("host".toList, "a".toList)] },
     { Tsuid := "ts2".toList, Tags := [] }] 2
    [[{ Tsuid := "ts1".toList, Tags := [("host".toList, "a".toList)] }]] []
    { Tsuid := "ts2".toList, Tags := [] } [] rfl
    ⟨groupByFilter "host" "*", by decide, rfl⟩ rfl rfl rfl
    ⟨groupByFilter "host" "*", by decide, rfl, rfl, by decide⟩).1

end plot

/-! ### The halt flag on the shed path: claim C21 -/

namespace telnetmgr

theorem denyEach_flag (deny : Bool) (manager : Manager) (todo : List Server) :
    ∀ (done : List Server), ∀ p ∈ denyEach deny manager done todo,
      p.2.haltBalancingProcess = manager.haltBalancingProcess := by
  induction todo with
  | nil => intro done p hp; simp [denyEach] at hp
  | cons s rest ih =>
    intro done p hp
    rw [denyEach] at hp
    rcases List.mem_cons.mp hp with h | h
    · rw [h]
    · exact ih _ p h

theorem denyEach_events (deny : Bool) (manager : Manager) (todo : List Server) :
    ∀ (done : List Server), (denyEach deny manager done todo).map Prod.fst =
      todo.map (fun s => ShedEvent.denyNew s.name deny) := by
  induction todo with
  | nil => intro done; rfl
  | cons s rest ih =>
    intro done
    rw [denyEach, List.map_cons, ih, List.map_cons]

theorem denyEach_last (deny : Bool) (manager : Manager) (todo : List Server) :
    ∀ (done : List Server), todo ≠ [] →
      ((denyEach deny manager done todo).getLast?).map Prod.snd =
        some { manager with
          servers := done ++ todo.map (fun s => s.DenyNewConnections deny) } := by
  induction todo with
  | nil => intro done h; exact absurd rfl h
  | cons s rest ih =>
    intro done _
    cases rest with
    | nil => simp [denyEach]
    | cons t more =>
      have h := ih (done ++ [s.DenyNewConnections deny]) (List.cons_ne_nil _ _)
      rw [denyEach] at h
      rw [denyEach, denyEach, List.getLast?_cons_cons]
      simpa using h

/-- The events of the step-by-step shed are the events of `dropConnections`. -/
theorem dropConnectionsSteps_events (head : GoString → HeadResult) (manager : Manager)
    (excess : Nat) :
    (dropConnectionsSteps head manager excess).map Prod.fst =
      (dropConnections head manager excess).2.2 := by
  unfold dropConnectionsSteps dropConnections
  by_cases h : manager.haltBalancingProcess > 0
  · simp [h]
  · simp [h, denyEach_events, Server.DenyNewConnections, Function.comp_def]

/-- The step-by-step shed ends in the manager returned by `dropConnections`. -/
theorem dropConnectionsSteps_last (head : GoString → HeadResult) (manager : Manager)
    (excess : Nat) (hflag : manager.haltBalancingProcess = 0)
    (hservers : manager.servers ≠ []) :
    ((dropConnectionsSteps head manager excess).getLast?).map Prod.snd =
      some (dropConnections head manager excess).2.1 := by
  unfold dropConnectionsSteps dropConnections
  have hne : (manager.servers.map (fun s => s.DenyNewConnections true)) ≠ [] := by
    simpa using hservers
  have hlast := denyEach_last false
    { manager with servers := manager.servers.map (fun s => s.DenyNewConnections true) }
    (manager.servers.map (fun s => s.DenyNewConnections true)) [] hne
  have hne2 : denyEach false
      { manager with servers := manager.servers.map (fun s => s.DenyNewConnections true) } []
      (manager.servers.map (fun s => s.DenyNewConnections true)) ≠ [] := by
    intro h0
    rw [h0] at hlast
    simp at hlast
  have h0 : ¬ manager.haltBalancingProcess > 0 := by omega
  rw [if_neg h0, if_neg h0, List.getLast?_append_of_ne_nil _ hne2]
  simpa using hlast

theorem dropConnectionsSteps_flag (head : GoString → HeadResult) (manager : Manager)
    (excess : Nat) :
    ∀ p ∈ dropConnectionsSteps head manager excess,
      p.2.haltBalancingProcess = manager.haltBalancingProcess := by
  intro p hp
  unfold dropConnectionsSteps at hp
  by_cases h : manager.haltBalancingProcess > 0
  · simp [h] at hp
  · simp only [h, if_false, List.mem_append, List.mem_map, List.mem_replicate,
      List.mem_cons, List.mem_singleton] at hp
    rcases hp with (((⟨_, _, rfl⟩ | ⟨_, rfl⟩) | hp) | (rfl | rfl | hp)) | hp
    · rfl
    · rfl
    · exact denyEach_flag true manager _ [] p hp
    · rfl
    · rfl
    · simp at hp
    · have hd := denyEach_flag false _ _ [] p hp
      exact hd

/-- C21, counterexample. A shed of one connection starts on `sampleManager`,
whose halt flag is open, with both peers answering 200. The shed completes and
returns true, and the flag is 0 after every step, the first one included: the
start of the shed does not set the flag to halted. -/
theorem dropConnections_flag_not_set_counterexample :
    sampleManager.haltBalancingProcess = 0 ∧
    (dropConnections (fun _ => HeadResult.status 200) sampleManager 1).1 = true ∧
    (dropConnectionsSteps (fun _ => HeadResult.status 200) sampleManager 1).map
        (fun p => (p.1, p.2.haltBalancingProcess)) =
      [(ShedEvent.haltRequest "p1".toList, 0),
       (ShedEvent.haltRequest "p2".toList, 0),
       (ShedEvent.closeToken, 0),
       (ShedEvent.denyNew "s1".toList true, 0),
       (ShedEvent.wait, 0),
       (ShedEvent.drain, 0),
       (ShedEvent.denyNew "s1".toList false, 0)] := by
  decide

/-- C21, amended. The shed never writes the local halt flag: after every step
of `dropConnections`, and in the manager it returns, the flag has the value it
had when the shed started. A shed that starts while the flag is open takes its
steps with the flag open, returns true and leaves the flag open. A shed that
finds the flag set returns false, notifies no peer, pushes no close token,
changes no server and leaves the flag set. On the shed path of the balancer
the flag is written only by the compare-and-swap that follows a skipped shed:
it clears a flag equal to 1 and leaves any other value. -/
theorem dropConnections_halt_flag (head : GoString → HeadResult) (manager : Manager)
    (excess : Nat) :
    (∀ p ∈ dropConnectionsSteps head manager excess,
      p.2.haltBalancingProcess = manager.haltBalancingProcess) ∧
    (dropConnections head manager excess).2.1.haltBalancingProcess =
      manager.haltBalancingProcess ∧
    (manager.haltBalancingProcess = 0 →
      (dropConnections head manager excess).1 = true ∧
      (dropConnections head manager excess).2.1.haltBalancingProcess = 0 ∧
      (dropConnectionsSteps head manager excess).map Prod.fst =
        (dropConnections head manager excess).2.2 ∧
      (shedPath head manager excess).1.haltBalancingProcess = 0) ∧
    (manager.haltBalancingProcess > 0 →
      dropConnections head manager excess = (false, manager, []) ∧
      dropConnectionsSteps head manager excess = [] ∧
      (excess > 0 → manager.haltBalancingProcess = 1 →
        shedPath head manager excess =
          ({ manager with haltBalancingProcess := 0 }, [], some true)) ∧
      (excess > 0 → manager.haltBalancingProcess ≠ 1 →
        shedPath head manager excess = (manager, [], some false))) := by
  refine ⟨dropConnectionsSteps_flag head manager excess, ?_, ?_, ?_⟩
  · unfold dropConnections
    by_cases h : manager.haltBalancingProcess > 0
    · rw [if_pos h]
    · rw [if_neg h]
  · intro h0
    have hn : ¬ manager.haltBalancingProcess > 0 := by omega
    refine ⟨?_, ?_, dropConnectionsSteps_events head manager excess, ?_⟩
    · unfold dropConnections
      rw [if_neg hn]
    · unfold dropConnections
      rw [if_neg hn]
      exact h0
    · unfold shedPath dropConnections
      rw [if_neg hn]
      by_cases he : excess > 0
      · rw [if_pos he]
        exact h0
      · rw [if_neg he]
        exact h0
  · intro hpos
    have hdrop : dropConnections head manager excess = (false, manager, []) := by
      unfold dropConnections
      rw [if_pos hpos]
    refine ⟨hdrop, ?_, ?_, ?_⟩
    · unfold dropConnectionsSteps
      rw [if_pos hpos]
    · intro he h1
      unfold shedPath
      rw [if_pos he, hdrop]
      simp [compareAndSwap, h1]
    · intro he h1
      unfold shedPath
      rw [if_pos he, hdrop]
      simp [compareAndSwap, h1]

/-- Witness of the amended C21: on `haltedManager`, whose flag is 1, a shed of
three connections is skipped and the compare-and-swap of the balancer clears
the flag. -/
theorem dropConnections_halt_flag_witness :
    dropConnections (fun _ => HeadResult.status 200) haltedManager 3 =
      (false, haltedManager, []) ∧
    shedPath (fun _ => HeadResult.status 200) haltedManager 3 =
      ({ haltedManager with haltBalancingProcess := 0 }, [], some true) :=
  ⟨((dropConnections_halt_flag (fun _ => HeadResult.status 200) haltedManager 3).2.2.2
      (by decide)).1,
    ((dropConnections_halt_flag (fun _ => HeadResult.status 200) haltedManager 3).2.2.2
      (by decide)).2.2.1 (by decide) rfl⟩

end telnetmgr

/-! ### `getTimeseries`: a failed fetch, claim C14 -/

namespace plot

theorem runGroups_append {σ : Type} (P : Collaborators σ) (query : TSDBqueryPayload)
    (q : TSDBquery) (ttl : Int) (pre rest : List (List TSDesc)) :
    ∀ st : LoopState σ, runGroups P query q ttl st (pre ++ rest) =
      match runGroups P query q ttl st pre with
      | .error fin => .error fin
      | .ok st1 => runGroups P query q ttl st1 rest := by
  induction pre with
  | nil => intro st; rfl
  | cons g pre ih =>
    intro st
    rw [List.cons_append, runGroups, runGroups]
    cases runGroup P query q ttl st g with
    | error fin => rfl
    | ok st1 => exact ih st1

theorem runQueries_append {σ : Type} (P : Collaborators σ) (plot : Plot) (keyset : GoString)
    (query : TSDBqueryPayload) (pre rest : List TSDBquery) :
    ∀ st : LoopState σ, runQueries P plot keyset query st (pre ++ rest) =
      match runQueries P plot keyset query st pre with
      | .error fin => .error fin
      | .ok st1 => runQueries P plot keyset query st1 rest := by
  induction pre with
  | nil => intro st; rfl
  | cons q pre ih =>
    intro st
    rw [List.cons_append, runQueries, runQueries]
    cases runQuery P plot keyset query st q with
    | error fin => rfl
    | ok st1 => exact ih st1

theorem runGroup_resps_grow {σ : Type} (P : Collaborators σ) (query : TSDBqueryPayload)
    (q : TSDBquery) (ttl : Int) (st st1 : LoopState σ) (group : List TSDesc)
    (h : runGroup P query q ttl st group = .ok st1) : st.resps <+: st1.resps := by
  obtain ⟨_, _, _, serie, -, hr⟩ := runGroup_resps P query q ttl st st1 group h
  rw [hr]
  split
  · exact List.prefix_append _ _
  · exact List.prefix_refl _

theorem runGroups_resps_grow {σ : Type} (P : Collaborators σ) (query : TSDBqueryPayload)
    (q : TSDBquery) (ttl : Int) (groups : List (List TSDesc)) :
    ∀ st st1 : LoopState σ, runGroups P query q ttl st groups = .ok st1 →
      st.resps <+: st1.resps := by
  induction groups with
  | nil =>
    intro st st1 h
    rw [runGroups] at h
    cases h
    exact List.prefix_refl _
  | cons g rest ih =>
    intro st st1 h
    rw [runGroups] at h
    cases hg : runGroup P query q ttl st g with
    | error fin => rw [hg] at h; cases h
    | ok st2 =>
      rw [hg] at h
      exact (runGroup_resps_grow P query q ttl st st2 g hg).trans (ih st2 st1 h)

/-- C14, amended. Let a run of `getTimeseries` reach the storage fetch of a
group: the time resolution succeeds, the earlier sub-queries run to their end
and leave the loop state `st1`, the downsample, ttl extraction, index lookup
and limit check of the sub-query at hand succeed, the earlier groups of this
sub-query run to their end and leave the loop state `st3`, and the filter-value
is parsed. If that fetch fails, `getTimeseries` returns its error together
with the response entries accumulated so far, `st3.resps`: they extend the
entries of the earlier sub-queries, they are not sorted and the list is not
emptied. The failed fetch is the last call of the run. The handler `Query`
answers with the error only. -/
theorem fetch_error_ends_run {σ : Type} (P : Collaborators σ) (plot : Plot) (now : Int)
    (keyset : GoString) (payload query : TSDBqueryPayload) (ext : σ)
    (qpre qpost : List TSDBquery) (q : TSDBquery) (st1 st3 : LoopState σ)
    (ds : Downsample) (ttl : Int) (filters : List TSDBfilter) (tsobs : List TSDesc)
    (total : Int) (gpre gpost : List (List TSDesc)) (group : List TSDesc)
    (fv : FilterValueOperation) (gerr : GobolError)
    (htime : resolveTime P now payload = .ok query)
    (hqs : query.Queries = qpre ++ q :: qpost)
    (hpre : runQueries P plot keyset query
      { ext := ext, calls := [], resps := [], oldDs := Downsample.zero,
        sumTotalPoints := 0, sumCountPoints := 0 } qpre = .ok st1)
    (hds : applyDownsample st1.oldDs q.Downsample = some ds)
    (httl : extractTTL plot.defaultTTL (lowerTags q.Filters q.Tags) = .ok (ttl, filters))
    (hidx : (P.MetaFilterOpenTSDB st1.ext keyset q.Metric filters plot.MaxTimeseries).1 =
      .ok (tsobs, total))
    (hlim : P.checkTotalTSLimits keyset q.Metric total = none)
    (hts : tsobs ≠ [])
    (hgroups : P.GetGroups filters tsobs = gpre ++ group :: gpost)
    (hgpre : runGroups P query q ttl
      { ext := (P.MetaFilterOpenTSDB st1.ext keyset q.Metric filters plot.MaxTimeseries).2
        calls := st1.calls ++ [Call.index keyset q.Metric filters plot.MaxTimeseries]
        resps := st1.resps
        oldDs := ds
        sumTotalPoints := st1.sumTotalPoints
        sumCountPoints := st1.sumCountPoints } gpre = .ok st3)
    (hfv : parseFilterValue P.ParseFloat q.FilterValue = .ok fv)
    (hfetch : (P.GetTimeSeries st3.ext ttl (collectGroup group [] []).1 query.Start query.End
      { Downsample := st3.oldDs
        Merge := if q.Aggregator = "count".toList then "pnt".toList else q.Aggregator
        Rate :=
          { Enabled := q.Rate
            Options :=
              match q.RateOptions.CounterMax with
              | none =>
                { Counter := q.RateOptions.Counter
                  CounterMax := some (2 ^ 63 - 1)
                  ResetValue := q.RateOptions.ResetValue }
              | some _ => q.RateOptions }
        FilterValue := fv
        Order := q.Order }
      query.MsResolution
      (if st3.oldDs.Options.Fill ≠ "none".toList then true else false)).1 = .error gerr) :
    (getTimeseries P plot now keyset payload ext).exit =
      Exit.returned st3.resps (some gerr) ∧
    (getTimeseries P plot now keyset payload ext).calls =
      st3.calls ++
        [Call.storage ttl (collectGroup group [] []).1 query.Start query.End
          { Downsample := st3.oldDs
            Merge := if q.Aggregator = "count".toList then "pnt".toList else q.Aggregator
            Rate :=
              { Enabled := q.Rate
                Options :=
                  match q.RateOptions.CounterMax with
                  | none =>
                    { Counter := q.RateOptions.Counter
                      CounterMax := some (2 ^ 63 - 1)
                      ResetValue := q.RateOptions.ResetValue }
                  | some _ => q.RateOptions }
            FilterValue := fv
            Order := q.Order }
          query.MsResolution
          (if st3.oldDs.Options.Fill ≠ "none".toList then true else false)] ∧
    st1.resps <+: st3.resps ∧
    Query P plot now keyset payload ext = Reply.fail gerr := by
  have hgroup : ∃ fin, runGroup P query q ttl st3 group = .error fin ∧
      fin.exit = Exit.returned st3.resps (some gerr) ∧
      fin.calls = st3.calls ++
        [Call.storage ttl (collectGroup group [] []).1 query.Start query.End
          { Downsample := st3.oldDs
            Merge := if q.Aggregator = "count".toList then "pnt".toList else q.Aggregator
            Rate :=
              { Enabled := q.Rate
                Options :=
                  match q.RateOptions.CounterMax with
                  | none =>
                    { Counter := q.RateOptions.Counter
                      CounterMax := some (2 ^ 63 - 1)
                      ResetValue := q.RateOptions.ResetValue }
                  | some _ => q.RateOptions }
            FilterValue := fv
            Order := q.Order }
          query.MsResolution
          (if st3.oldDs.Options.Fill ≠ "none".toList then true else false)] := by
    unfold runGroup
    rw [hfv]
    simp only
    split
    · rename_i gerr1 heq
      have hsame : (Except.error gerr1 : Except GobolError Serie) = .error gerr :=
        heq.symm.trans hfetch
      cases hsame
      exact ⟨_, rfl, rfl, rfl⟩
    · rename_i serie heq
      have hsame : (Except.ok serie : Except GobolError Serie) = .error gerr :=
        heq.symm.trans hfetch
      cases hsame
  obtain ⟨fin, hfin, hexit, hcalls⟩ := hgroup
  have hlen : ¬ tsobs.length = 0 := fun h => hts (List.length_eq_zero.mp h)
  have hquery : runQuery P plot keyset query st1 q = .error fin := by
    unfold runQuery
    rw [hds]
    simp only
    rw [httl]
    simp only
    unfold dispatchQuery
    simp only
    rw [hidx]
    simp only
    rw [hlim]
    simp only
    rw [if_neg hlen, hgroups, runGroups_append, hgpre]
    simp only
    exact runGroups_error P query q ttl st3 group gpost fin hfin
  have hrun : getTimeseries P plot now keyset payload ext = fin := by
    unfold getTimeseries
    rw [htime]
    simp only
    rw [hqs, runQueries_append, hpre]
    simp only
    rw [runQueries_error P plot keyset query st1 q qpost fin hquery]
  have hpref := runGroups_resps_grow P query q ttl gpre _ st3 hgpre
  refine ⟨by rw [hrun, hexit], by rw [hrun, hcalls], hpref, ?_⟩
  exact Query_of_error P plot now keyset payload ext st3.resps gerr (by rw [hrun, hexit])

/-- Witness of the amended C14 in `flakyWorld`, whose storage answers the first
fetch and fails on the later ones: of three sub-queries the first one gives an
entry, the fetch of the second fails, and the entry of the first is returned
with the error. -/
theorem fetch_error_ends_run_witness :
    (getTimeseries flakyWorld samplePlot 5 "k".toList
      (samplePayload 2 20 [sampleQuery [] [], sampleQuery [] [], sampleQuery [] []]) 0).exit =
      Exit.returned
        [{ Metric := "cpu".toList, Tags := [("host".toList, "a".toList)], AggregatedTags := [],
           Dps := [("1".toList, DpsValue.num ⟨0⟩)], Tsuids := [] }]
        (some { kind := ErrorKind.external, func := "GetTimeSeries", message := "storage" }) ∧
    Query flakyWorld samplePlot 5 "k".toList
      (samplePayload 2 20 [sampleQuery [] [], sampleQuery [] [], sampleQuery [] []]) 0 =
      Reply.fail { kind := ErrorKind.external, func := "GetTimeSeries", message := "storage" } :=
  have h := fetch_error_ends_run flakyWorld samplePlot 5 "k".toList
    (samplePayload 2 20 [sampleQuery [] [], sampleQuery [] [], sampleQuery [] []])
    (samplePayload 2 20 [sampleQuery [] [], sampleQuery [] [], sampleQuery [] []]) 0
    [sampleQuery [] []] [sampleQuery [] []] (sampleQuery [] [])
    { ext := 1
      calls :=
        [Call.index "k".toList "cpu".toList [] 100,
         Call.storage 1 ["ts1".toList] 2 20
          { Downsample := Downsample.zero
            Merge := "sum".toList
            Rate := { Enabled := false,
                      Options := { Counter := false, CounterMax := some (2 ^ 63 - 1),
                                   ResetValue := 0 } }
            FilterValue := { Enabled := false, BoolOper := [], Value := ⟨0⟩ }
            Order := [] } false true]
      resps :=
        [{ Metric := "cpu".toList, Tags := [("host".toList, "a".toList)], AggregatedTags := [],
           Dps := [("1".toList, DpsValue.num ⟨0⟩)], Tsuids := [] }]
      oldDs := Downsample.zero
      sumTotalPoints := 1
      sumCountPoints := 1 }
    { ext := 1
      calls :=
        [Call.index "k".toList "cpu".toList [] 100,
         Call.storage 1 ["ts1".toList] 2 20
          { Downsample := Downsample.zero
            Merge := "sum".toList
            Rate := { Enabled := false,
                      Options := { Counter := false, CounterMax := some (2 ^ 63 - 1),
                                   ResetValue := 0 } }
            FilterValue := { Enabled := false, BoolOper := [], Value := ⟨0⟩ }
            Order := [] } false true,
         Call.index "k".toList "cpu".toList [] 100]
      resps :=
        [{ Metric := "cpu".toList, Tags := [("host".toList, "a".toList)], AggregatedTags := [],
           Dps := [("1".toList, DpsValue.num ⟨0⟩)], Tsuids := [] }]
      oldDs := Downsample.zero
      sumTotalPoints := 1
      sumCountPoints := 1 }
    Downsample.zero 1 [] [{ Tsuid := "ts1".toList, Tags := [("host".toList, "a".toList)] }] 1
    [] [] [{ Tsuid := "ts1".toList, Tags := [("host".toList, "a".toList)] }]
    { Enabled := false, BoolOper := [], Value := ⟨0⟩ }
    { kind := ErrorKind.external, func := "GetTimeSeries", message := "storage" }
    rfl rfl rfl rfl rfl rfl rfl (by decide) rfl rfl rfl rfl
  ⟨h.1, h.2.2.2⟩

end plot
